import Mathlib

/-!
# libmc: key validation, request dispatch and the wait/poll loop

A shallow embedding of `src/src/Utility.cpp` (`isValidKey`) and of
`src/src/ConnectionPool.cpp` (the `dispatch*` family, `broadcastCommand`,
`waitPoll`, `markDeadAll`, `markDeadConn`, `reset`).

Conventions of the embedding.

* A `(const char*, size_t)` pair is the list of the bytes it designates.
* `Connection`, `KetamaSelector`, the keyword table and the enums live in
  headers and translation units that are not part of the sources at hand; they
  are modelled from the specification and every such definition says so.
* Pointers into `m_conns` are indices into the list `m_conns`.
* `m_counter`, `m_nActiveConn` and `m_nInvalidKey` are machine integers.  They
  are embedded as unbounded integers: a batch would need 2^31 keys to wrap
  them.  `m_nActiveConn` is signed: the wait loop can take it below zero.
* The system calls `poll`, `send`, `recv` and the parser run by `process`
  are driven by an explicit script of outcomes, and the wait loop keeps a
  chronological log of the calls it makes.
-/

namespace Libmc

/-! ## Bytes and text -/

abbrev Bytes := List UInt8

/-- The bytes of an ASCII string literal. -/
def ascii (s : String) : Bytes := s.toList.map (fun c => c.toNat.toUInt8)

/-- Decimal text of a natural number. -/
def decimalNat (n : Nat) : Bytes := (Nat.toDigits 10 n).map (fun c => c.toNat.toUInt8)

/-- Decimal text of an integer, with a leading minus sign when negative. -/
def decimal (n : Int) : Bytes :=
  if n < 0 then (45 : UInt8) :: decimalNat n.natAbs else decimalNat n.natAbs

/-! ## Utility.cpp -/

/-- Modelled from the spec: `MC_MAX_KEY_LENGTH` is defined in `Common.h`, which is
not among the sources; the specification gives the bound as 250 bytes. -/
def MC_MAX_KEY_LENGTH : Nat := 250

/-- The `for`/`switch` of `isValidKey`: the first space, CR, LF or NUL byte makes
the function return false; reaching the end returns true. -/
def isValidKeyScan : Bytes → Bool
  | [] => true
  | b :: rest =>
    if b = 0x20 then false
    else if b = 0x0D then false
    else if b = 0x0A then false
    else if b = 0x00 then false
    else isValidKeyScan rest

/-- `utility::isValidKey(key, keylen)`. -/
def isValidKey (key : Bytes) : Bool :=
  if key.length > MC_MAX_KEY_LENGTH then false
  else isValidKeyScan key

/-! ## Enumerations -/

/-- Modelled from the spec: the return codes named by `ConnectionPool.cpp`; the
enum itself is declared in a header that is not among the sources. -/
inductive err_code_t
  | RET_OK
  | RET_INVALID_KEY_ERR
  | RET_MC_SERVER_ERR
  | RET_SEND_ERR
  | RET_RECV_ERR
  | RET_CONN_POLL_ERR
  | RET_POLL_ERR
  | RET_POLL_TIMEOUT_ERR
  | RET_PROGRAMMING_ERR
  | RET_INCOMPLETE_BUFFER_ERR
  deriving DecidableEq, Repr

/-- Modelled from the spec: the operation codes named by `ConnectionPool.cpp`. -/
inductive op_code_t
  | SET_OP | ADD_OP | REPLACE_OP | APPEND_OP | PREPEND_OP | CAS_OP
  | GET_OP | GETS_OP
  | INCR_OP | DECR_OP
  | TOUCH_OP | DELETE_OP
  | STATS_OP | VERSION_OP
  deriving DecidableEq, Repr

/-- Modelled from the spec: the two parser modes of section 4.4. -/
inductive parser_mode_t
  | MODE_END_STATE
  | MODE_COUNTING
  deriving DecidableEq, Repr

/-! ## Keywords -/

namespace keywords

/-- Modelled from the spec: `Keywords.h` is not among the sources; the texts are
those of the wire protocol of section 6. -/
def kCRLF : Bytes := ascii "\r\n"
/-- Modelled from the spec: the separator of the wire protocol. -/
def kSPACE : Bytes := ascii " "
/-- Modelled from the spec: the ` noreply` modifier of the wire protocol. -/
def k_NOREPLY : Bytes := ascii " noreply"
/-- Modelled from the spec: command word of `set`, with its trailing space. -/
def kSET_ : Bytes := ascii "set "
/-- Modelled from the spec: command word of `add`, with its trailing space. -/
def kADD_ : Bytes := ascii "add "
/-- Modelled from the spec: command word of `replace`, with its trailing space. -/
def kREPLACE_ : Bytes := ascii "replace "
/-- Modelled from the spec: command word of `append`, with its trailing space. -/
def kAPPEND_ : Bytes := ascii "append "
/-- Modelled from the spec: command word of `prepend`, with its trailing space. -/
def kPREPEND_ : Bytes := ascii "prepend "
/-- Modelled from the spec: command word of `cas`, with its trailing space. -/
def kCAS_ : Bytes := ascii "cas "
/-- Modelled from the spec: command word of `get`. -/
def kGET : Bytes := ascii "get"
/-- Modelled from the spec: command word of `gets`. -/
def kGETS : Bytes := ascii "gets"
/-- Modelled from the spec: command word of `delete`, with its trailing space. -/
def kDELETE_ : Bytes := ascii "delete "
/-- Modelled from the spec: command word of `touch`, with its trailing space. -/
def kTOUCH_ : Bytes := ascii "touch "
/-- Modelled from the spec: command word of `incr`, with its trailing space. -/
def kINCR_ : Bytes := ascii "incr "
/-- Modelled from the spec: command word of `decr`, with its trailing space. -/
def kDECR_ : Bytes := ascii "decr "

end keywords

/-! ## Result records -/

/-- Modelled from the spec: the message kinds of section 3; the enum is declared in
a header that is not among the sources. -/
inductive message_result_type
  | MSG_STORED | MSG_NOT_STORED | MSG_EXISTS | MSG_NOT_FOUND | MSG_DELETED | MSG_TOUCHED
  | MSG_ERROR | MSG_CLIENT_ERROR | MSG_SERVER_ERROR | MSG_OK
  deriving DecidableEq, Repr

/-- Modelled from the spec: `RetrievalResult` of section 3.  `inner()` hands out the
caller-visible view of the record; the record itself stands for that view. -/
structure RetrievalResult where
  key : Bytes
  flags : Nat
  cas_unique : Nat
  data : Bytes
  bytesRemain : Int
  deriving DecidableEq, Repr

/-- Modelled from the spec: `MessageResult` of section 3. -/
structure MessageResult where
  type : message_result_type
  key : Bytes
  deriving DecidableEq, Repr

/-- Modelled from the spec: `UnsignedResult` of section 3. -/
structure UnsignedResult where
  value : Nat
  deriving DecidableEq, Repr

/-- Modelled from the spec: `LineResult` of section 3, a raw line. -/
structure LineResult where
  line : Bytes
  deriving DecidableEq, Repr

/-- Modelled from the spec: `LineResult::inner(len)` yields the line and stores its
length in `len`. -/
def LineResult.inner (r1 : LineResult) : Bytes × Nat := (r1.line, r1.line.length)

/-- The C record `broadcast_result_t` as `collectBroadcastResult` fills it: `host`,
the arrays `lines` and `line_lens` (`none` is `NULL`) and `len`. -/
structure broadcast_result_t where
  host : Bytes
  lines : Option (List Bytes)
  line_lens : Option (List Nat)
  len : Nat
  deriving DecidableEq, Repr

/-! ## Connection -/

/-- Modelled from the spec: the part of the connection state of section 3 that
dispatch, the wait loop and the collect phase read or write.  `m_sendBuf` is
the byte content of the send queue, in queue order.  `m_deadDelay` is the
delay handed to the last `markDead`.  `m_name` is what `name()` returns.  The
four result lists are what the parser has produced; `process` is scripted in
the wait loop, so they are inputs of the collect phase. -/
structure Connection where
  m_counter : Int
  m_alive : Bool
  m_deadDelay : Int
  m_socketFd : Int
  m_sendBuf : Bytes
  m_requestKeys : List Bytes
  m_parserMode : Option parser_mode_t
  m_name : Bytes := []
  m_retrievalResults : List RetrievalResult := []
  m_messageResults : List MessageResult := []
  m_unsignedResults : List UnsignedResult := []
  m_lineResults : List LineResult := []
  deriving DecidableEq, Repr

namespace Connection

/-- Modelled from the spec: `takeBuffer(ptr, len)` appends the `len` bytes at `ptr`
to the send queue. -/
def takeBuffer (conn : Connection) (ptr : Bytes) (len : Nat) : Connection :=
  { conn with m_sendBuf := conn.m_sendBuf ++ ptr.take len }

/-- Modelled from the spec: `takeNumber(n)` appends the decimal text of `n`. -/
def takeNumber (conn : Connection) (n : Int) : Connection :=
  { conn with m_sendBuf := conn.m_sendBuf ++ decimal n }

/-- Modelled from the spec: `addRequestKey(ptr, len)` enqueues the key whose reply
is expected. -/
def addRequestKey (conn : Connection) (ptr : Bytes) (len : Nat) : Connection :=
  { conn with m_requestKeys := conn.m_requestKeys ++ [ptr.take len] }

/-- Modelled from the spec: `requestKeyCount()` is the length of the request-key
queue. -/
def requestKeyCount (conn : Connection) : Int := conn.m_requestKeys.length

/-- Modelled from the spec: `setParserMode(mode)`. -/
def setParserMode (conn : Connection) (mode : parser_mode_t) : Connection :=
  { conn with m_parserMode := some mode }

/-- Modelled from the spec: `alive()`. -/
def alive (conn : Connection) : Bool := conn.m_alive

/-- Modelled from the spec: `markDead(reason, delay)` closes the socket and makes
the connection dead for `delay`. -/
def markDead (conn : Connection) (delay : Int) : Connection :=
  { conn with m_alive := false, m_deadDelay := delay, m_socketFd := -1 }

/-- Modelled from the spec: `tryReconnect()`.  Whether the connect attempt yields
a usable socket is decided outside the program; `usable` is that outcome and
`fd` the descriptor obtained. -/
def tryReconnect (conn : Connection) (usable : Bool) (fd : Int) : Connection × Bool :=
  if usable then ({ conn with m_alive := true, m_socketFd := fd }, true) else (conn, false)

/-- Modelled from the spec: `reset()` drops the result lists, clears the queues and
the parser and keeps socket and liveness; the counter restarts from zero,
which dispatch relies on (`++conn->m_counter == 1` detects the first key of a
connection). -/
def reset (conn : Connection) : Connection :=
  { conn with m_counter := 0, m_sendBuf := [], m_requestKeys := [], m_parserMode := none,
              m_retrievalResults := [], m_messageResults := [], m_unsignedResults := [],
              m_lineResults := [] }

/-- Modelled from the spec: `name()`, the identity string of the connection. -/
def name (conn : Connection) : Bytes := conn.m_name

/-- Modelled from the spec: `getRetrievalResults()`. -/
def getRetrievalResults (conn : Connection) : List RetrievalResult := conn.m_retrievalResults

/-- Modelled from the spec: `getMessageResults()`. -/
def getMessageResults (conn : Connection) : List MessageResult := conn.m_messageResults

/-- Modelled from the spec: `getUnsignedResults()`. -/
def getUnsignedResults (conn : Connection) : List UnsignedResult := conn.m_unsignedResults

/-- Modelled from the spec: `getLineResults()`. -/
def getLineResults (conn : Connection) : List LineResult := conn.m_lineResults

/-- A connection as `reset()` leaves it. -/
def isReset (conn : Connection) : Bool :=
  conn.m_counter == 0 && conn.m_sendBuf == [] && conn.m_requestKeys == [] &&
    conn.m_parserMode == none

end Connection

/-! ## ConnectionPool: state -/

/-- The members of `ConnectionPool` that dispatch and wait use.  `m_nConns` is the
length of `m_conns`; `m_activeConns` holds indices into `m_conns`. -/
structure ConnectionPool where
  m_nActiveConn : Int
  m_nInvalidKey : Int
  m_conns : List Connection
  m_activeConns : List Nat
  deriving DecidableEq, Repr

/-- Modelled from the spec: `KetamaSelector::getConn(key, len)` yields a connection of
the pool or nothing; within one dispatch it is a function of the key. -/
abbrev Selector := Bytes → Option Nat

/-- Apply `f` to the element at index `idx` of an array (the effect of writing
through the pointer `base + idx`). -/
def updateAt {α : Type} (f : α → α) : Nat → List α → List α
  | _, [] => []
  | 0, x :: rest => f x :: rest
  | idx + 1, x :: rest => x :: updateAt f idx rest

/-- Apply `f` to the connection at index `idx` (the effect of calling methods
through the pointer `m_conns + idx`). -/
def updateConn (f : Connection → Connection) (idx : Nat) (conns : List Connection) :
    List Connection :=
  updateAt f idx conns

namespace ConnectionPool

/-- A pool on which `reset()` has run: no active connection, no invalid key
counted, every connection clean. -/
def isReset (pool : ConnectionPool) : Bool :=
  pool.m_nActiveConn == 0 && pool.m_nInvalidKey == 0 && pool.m_activeConns == [] &&
    pool.m_conns.all Connection.isReset

/-- `ConnectionPool::reset()`. -/
def reset (pool : ConnectionPool) : ConnectionPool :=
  { m_conns := pool.m_activeConns.foldl (fun conns idx => updateConn Connection.reset idx conns)
      pool.m_conns
    m_nActiveConn := 0
    m_nInvalidKey := 0
    m_activeConns := [] }

/-! ## ConnectionPool: dispatch -/

/-- The head of every per-key loop of the `dispatch*` family:
`if (!isValidKey(key)) { m_nInvalidKey += 1; continue; }`
`conn = m_connSelector.getConn(key); if (conn == NULL) continue;`
followed by the command-specific statements `unit`, which act on `conn`. -/
def dispatchKey (sel : Selector) (key : Bytes) (unit : Connection → Connection)
    (pool : ConnectionPool) : ConnectionPool :=
  if !isValidKey key then
    { pool with m_nInvalidKey := pool.m_nInvalidKey + 1 }
  else
    match sel key with
    | none => pool
    | some idx => { pool with m_conns := updateConn unit idx pool.m_conns }

/-- The per-key `for` loop of the `dispatch*` family over the inputs `items`, in
input order; `keyOf it` is `keys[i]` and `unit it` the statements run on the
selected connection. -/
def dispatchLoop {α : Type} (sel : Selector) (keyOf : α → Bytes)
    (unit : α → Connection → Connection) : List α → ConnectionPool → ConnectionPool
  | [], pool => pool
  | it :: rest, pool =>
    dispatchLoop sel keyOf unit rest (dispatchKey sel (keyOf it) (unit it) pool)

/-- One input of a storage command: `keys[i]`, `flags[i]`, `cas_uniques[i]`,
`vals[i]` (lengths are those of the byte lists). -/
structure StorageItem where
  key : Bytes
  flags : Nat
  cas_unique : Nat
  val : Bytes
  deriving DecidableEq, Repr

/-- The `switch (op)` of `dispatchStorage`; `default: NOT_REACHED()` queues
nothing. -/
def storageKeyword (op : op_code_t) (conn : Connection) : Connection :=
  match op with
  | .SET_OP => conn.takeBuffer keywords.kSET_ 4
  | .ADD_OP => conn.takeBuffer keywords.kADD_ 4
  | .REPLACE_OP => conn.takeBuffer keywords.kREPLACE_ 8
  | .APPEND_OP => conn.takeBuffer keywords.kAPPEND_ 7
  | .PREPEND_OP => conn.takeBuffer keywords.kPREPEND_ 8
  | .CAS_OP => conn.takeBuffer keywords.kCAS_ 4
  | _ => conn

/-- Body of the first loop of `dispatchStorage` once `conn` is known
(lines 116-159). -/
def storageUnit (op : op_code_t) (exptime : Int) (noreply : Bool) (it : StorageItem)
    (conn : Connection) : Connection :=
  let conn := storageKeyword op conn
  let conn := conn.takeBuffer it.key it.key.length
  let conn := conn.takeBuffer keywords.kSPACE 1
  let conn := conn.takeNumber it.flags
  let conn := conn.takeBuffer keywords.kSPACE 1
  let conn := conn.takeNumber exptime
  let conn := conn.takeBuffer keywords.kSPACE 1
  let conn := conn.takeNumber it.val.length
  let conn :=
    if op = .CAS_OP then (conn.takeBuffer keywords.kSPACE 1).takeNumber it.cas_unique
    else conn
  let conn :=
    if noreply then conn.takeBuffer keywords.k_NOREPLY 8
    else conn.addRequestKey it.key it.key.length
  let conn := { conn with m_counter := conn.m_counter + 1 }
  let conn := conn.takeBuffer keywords.kCRLF 2
  let conn := conn.takeBuffer it.val it.val.length
  conn.takeBuffer keywords.kCRLF 2

/-- The second loop of `dispatchStorage`, `dispatchDeletion` and `dispatchTouch`
(the three copies are identical), from connection `idx` on; `conns` is
`m_conns[idx..]`.  A connection with a positive counter is put in counting
mode and made active; then the counter is overwritten with
`requestKeyCount()`.  (`reserve` has no effect on the modelled state.) -/
def countingLoop : Nat → List Connection → Int → List Nat → List Connection × Int × List Nat
  | _, [], nActive, active => ([], nActive, active)
  | idx, conn :: rest, nActive, active =>
    let hit : Bool := decide (conn.m_counter > 0)
    let conn1 := if hit then conn.setParserMode .MODE_COUNTING else conn
    let conn2 := { conn1 with m_counter := conn1.requestKeyCount }
    let out := countingLoop (idx + 1) rest (if hit then nActive + 1 else nActive)
      (if hit then active ++ [idx] else active)
    (conn2 :: out.1, out.2.1, out.2.2)

/-- Run `countingLoop` over the whole pool. -/
def activateCounting (pool : ConnectionPool) : ConnectionPool :=
  let out := countingLoop 0 pool.m_conns pool.m_nActiveConn pool.m_activeConns
  { pool with m_conns := out.1, m_nActiveConn := out.2.1, m_activeConns := out.2.2 }

/-- `ConnectionPool::dispatchStorage`. -/
def dispatchStorage (sel : Selector) (op : op_code_t) (items : List StorageItem)
    (exptime : Int) (noreply : Bool) (pool : ConnectionPool) : ConnectionPool :=
  activateCounting
    (dispatchLoop sel StorageItem.key (storageUnit op exptime noreply) items pool)

/-- Body of the first loop of `dispatchRetrieval` once `conn` is known
(lines 212-227). -/
def retrievalUnit (op : op_code_t) (key : Bytes) (conn : Connection) : Connection :=
  let conn := { conn with m_counter := conn.m_counter + 1 }
  let conn :=
    if conn.m_counter = 1 then
      match op with
      | .GET_OP => conn.takeBuffer keywords.kGET 3
      | .GETS_OP => conn.takeBuffer keywords.kGETS 4
      | _ => conn
    else conn
  let conn := conn.takeBuffer keywords.kSPACE 1
  let conn := conn.takeBuffer key key.length
  conn.addRequestKey key key.length

/-- The second loop of `dispatchRetrieval`, from connection `idx` on. -/
def endStateLoop : Nat → List Connection → Int → List Nat → List Connection × Int × List Nat
  | _, [], nActive, active => ([], nActive, active)
  | idx, conn :: rest, nActive, active =>
    let hit : Bool := decide (conn.m_counter > 0)
    let conn1 :=
      if hit then (conn.takeBuffer keywords.kCRLF 2).setParserMode .MODE_END_STATE else conn
    let out := endStateLoop (idx + 1) rest (if hit then nActive + 1 else nActive)
      (if hit then active ++ [idx] else active)
    (conn1 :: out.1, out.2.1, out.2.2)

/-- `ConnectionPool::dispatchRetrieval` (the timing probes only log). -/
def dispatchRetrieval (sel : Selector) (op : op_code_t) (keys : List Bytes)
    (pool : ConnectionPool) : ConnectionPool :=
  let p := dispatchLoop sel id (retrievalUnit op) keys pool
  let out := endStateLoop 0 p.m_conns p.m_nActiveConn p.m_activeConns
  { p with m_conns := out.1, m_nActiveConn := out.2.1, m_activeConns := out.2.2 }

/-- Body of the first loop of `dispatchDeletion` once `conn` is known. -/
def deletionUnit (noreply : Bool) (key : Bytes) (conn : Connection) : Connection :=
  let conn := conn.takeBuffer keywords.kDELETE_ 7
  let conn := conn.takeBuffer key key.length
  let conn :=
    if noreply then conn.takeBuffer keywords.k_NOREPLY 8
    else conn.addRequestKey key key.length
  let conn := { conn with m_counter := conn.m_counter + 1 }
  conn.takeBuffer keywords.kCRLF 2

/-- `ConnectionPool::dispatchDeletion`. -/
def dispatchDeletion (sel : Selector) (keys : List Bytes) (noreply : Bool)
    (pool : ConnectionPool) : ConnectionPool :=
  activateCounting (dispatchLoop sel id (deletionUnit noreply) keys pool)

/-- Body of the first loop of `dispatchTouch` once `conn` is known. -/
def touchUnit (exptime : Int) (noreply : Bool) (key : Bytes) (conn : Connection) :
    Connection :=
  let conn := conn.takeBuffer keywords.kTOUCH_ 6
  let conn := conn.takeBuffer key key.length
  let conn := conn.takeBuffer keywords.kSPACE 1
  let conn := conn.takeNumber exptime
  let conn :=
    if noreply then conn.takeBuffer keywords.k_NOREPLY 8
    else conn.addRequestKey key key.length
  let conn := { conn with m_counter := conn.m_counter + 1 }
  conn.takeBuffer keywords.kCRLF 2

/-- `ConnectionPool::dispatchTouch`. -/
def dispatchTouch (sel : Selector) (keys : List Bytes) (exptime : Int) (noreply : Bool)
    (pool : ConnectionPool) : ConnectionPool :=
  activateCounting (dispatchLoop sel id (touchUnit exptime noreply) keys pool)

/-- Statements of `dispatchIncrDecr` that act on `conn` (lines 346-374). -/
def incrDecrUnit (op : op_code_t) (delta : Nat) (noreply : Bool) (key : Bytes)
    (conn : Connection) : Connection :=
  let conn :=
    match op with
    | .INCR_OP => conn.takeBuffer keywords.kINCR_ 5
    | .DECR_OP => conn.takeBuffer keywords.kDECR_ 5
    | _ => conn
  let conn := conn.takeBuffer key key.length
  let conn := conn.takeBuffer keywords.kSPACE 1
  let conn := conn.takeNumber delta
  let conn :=
    if noreply then conn.takeBuffer keywords.k_NOREPLY 8
    else conn.addRequestKey key key.length
  let conn := { conn with m_counter := conn.m_counter + 1 }
  let conn := conn.takeBuffer keywords.kCRLF 2
  let conn := conn.setParserMode .MODE_COUNTING
  { conn with m_counter := conn.requestKeyCount }

/-- `ConnectionPool::dispatchIncrDecr`. -/
def dispatchIncrDecr (sel : Selector) (op : op_code_t) (key : Bytes) (delta : Nat)
    (noreply : Bool) (pool : ConnectionPool) : ConnectionPool :=
  if !isValidKey key then
    { pool with m_nInvalidKey := pool.m_nInvalidKey + 1 }
  else
    match sel key with
    | none => pool
    | some idx =>
      { pool with
        m_conns := updateConn (incrDecrUnit op delta noreply key) idx pool.m_conns
        m_nActiveConn := pool.m_nActiveConn + 1
        m_activeConns := pool.m_activeConns ++ [idx] }

/-- Body of the loop of `broadcastCommand` for one connection (lines 381-392).
`outcome` is what `tryReconnect()` yields if it is called: `none` when no
usable socket results, `some fd` when one does.  The flag is false when the
body leaves through `continue`. -/
def broadcastUnit (outcome : Option Int) (cmd : Bytes) (conn : Connection) :
    Connection × Bool :=
  let tried : Connection × Bool :=
    if !conn.alive then
      match outcome with
      | none => conn.tryReconnect false 0
      | some fd => conn.tryReconnect true fd
    else (conn, true)
  if !tried.2 then (tried.1, false)
  else
    let conn := tried.1.takeBuffer cmd cmd.length
    let conn := { conn with m_counter := conn.m_counter + 1 }
    let conn := conn.takeBuffer keywords.kCRLF 2
    let conn := conn.setParserMode .MODE_END_STATE
    (conn, true)

/-- The loop of `broadcastCommand`, from connection `idx` on; `reconnect idx` is
the outcome of `tryReconnect()` on connection `idx`. -/
def broadcastLoop (reconnect : Nat → Option Int) (cmd : Bytes) :
    Nat → List Connection → Int → List Nat → List Connection × Int × List Nat
  | _, [], nActive, active => ([], nActive, active)
  | idx, conn :: rest, nActive, active =>
    let done := broadcastUnit (reconnect idx) cmd conn
    let out := broadcastLoop reconnect cmd (idx + 1) rest
      (if done.2 then nActive + 1 else nActive) (if done.2 then active ++ [idx] else active)
    (done.1 :: out.1, out.2.1, out.2.2)

/-- `ConnectionPool::broadcastCommand`. -/
def broadcastCommand (reconnect : Nat → Option Int) (cmd : Bytes) (pool : ConnectionPool) :
    ConnectionPool :=
  let out := broadcastLoop reconnect cmd 0 pool.m_conns pool.m_nActiveConn pool.m_activeConns
  { pool with m_conns := out.1, m_nActiveConn := out.2.1, m_activeConns := out.2.2 }

/-! ## ConnectionPool: wait/poll -/

/-- `POLLIN` of `<poll.h>`. -/
def POLLIN : Nat := 0x001
/-- `POLLOUT` of `<poll.h>`. -/
def POLLOUT : Nat := 0x004
/-- `POLLERR` of `<poll.h>`. -/
def POLLERR : Nat := 0x008
/-- `POLLHUP` of `<poll.h>`. -/
def POLLHUP : Nat := 0x010
/-- `POLLNVAL` of `<poll.h>`. -/
def POLLNVAL : Nat := 0x020
/-- `EINTR` of `<errno.h>`. -/
def EINTR : Nat := 4

/-- `~x` as stored in the 16-bit `events` field of a `pollfd`. -/
def bitNot16 (x : Nat) : Nat := 0xFFFF ^^^ x

/-- `struct pollfd` without `revents`, which the script of a poll round carries. -/
structure pollfd_t where
  fd : Int
  events : Nat
  deriving DecidableEq, Repr

/-- A call made by the wait loop, as recorded in its log. -/
inductive IOCall
  | poll (rv : Int)
  | send (fd_idx : Nat) (nToSend : Int)
  | recv (fd_idx : Nat) (nRecv : Int)
  | process (fd_idx : Nat) (err : err_code_t)
  | markDead (conn : Nat) (delay : Int)
  deriving DecidableEq, Repr

/-- What the outside world answers for one descriptor in one poll round:
`revents` as set by `poll`, the value `conn->send()` returns if it is called,
the value `conn->recv()` returns if it is called, and the code
`conn->process(err)` stores if it is called. -/
structure FdScript where
  revents : Nat
  nToSend : Int
  nRecv : Int
  err : err_code_t
  deriving DecidableEq, Repr

/-- One call of `poll`: its return value, `errno`, and the per-descriptor answers. -/
structure PollScript where
  rv : Int
  errno : Nat
  fds : List FdScript
  deriving DecidableEq, Repr

/-- The pool together with the locals of `waitPoll` (`pollfds`, `ret_code`) and the
log of calls made so far.  `fd2conn` is a copy of `m_activeConns`, which the
loop never changes, so `m_activeConns` stands for it. -/
structure WaitState where
  pool : ConnectionPool
  pollfds : List pollfd_t
  ret_code : err_code_t
  log : List IOCall
  deriving DecidableEq, Repr

/-- How a run of `waitPoll` against a script ends.  `blocked`: the script ran out
while the loop was still waiting.  `outOfBounds`: the descriptor arrays, sized
by `m_nActiveConn`, do not match `m_activeConns`. -/
inductive WaitOutcome
  | returned (ret : err_code_t) (st : WaitState)
  | blocked (st : WaitState)
  | outOfBounds
  deriving DecidableEq, Repr

/-- The value `waitPoll` returned, if it returned. -/
def WaitOutcome.retOf : WaitOutcome → Option err_code_t
  | .returned ret _ => some ret
  | _ => none

/-- The state in which the run ended, if it is defined. -/
def WaitOutcome.stateOf : WaitOutcome → Option WaitState
  | .returned _ st => some st
  | .blocked st => some st
  | .outOfBounds => none

/-- The descriptor of connection `ci`. -/
def socketFdOf (conns : List Connection) (ci : Nat) : Int :=
  match conns[ci]? with
  | some conn => conn.m_socketFd
  | none => -1

/-- `ConnectionPool::markDeadConn(conn, reason, fd_ptr, delay)`, with `conn` the
connection `ci` and `fd_ptr = &pollfds[fd_idx]`. -/
def markDeadConn (ci fd_idx : Nat) (delay : Int) (st : WaitState) : WaitState :=
  let conns := updateConn (fun conn => conn.markDead delay) ci st.pool.m_conns
  { st with
    pool := { st.pool with m_conns := conns }
    pollfds := updateAt (fun _ => { fd := socketFdOf conns ci,
                                    events := bitNot16 POLLOUT &&& bitNot16 POLLIN })
      fd_idx st.pollfds
    log := st.log ++ [IOCall.markDead ci delay] }

/-- The loop of `markDeadAll` over `m_activeConns` and, in step, `pollfds`. -/
def markDeadAllLoop (delay : Int) :
    List Nat → List pollfd_t → List Connection → List IOCall → List Connection × List IOCall
  | ci :: active, pfd :: pollfds, conns, log =>
    if pfd.events &&& (POLLOUT ||| POLLIN) ≠ 0 then
      markDeadAllLoop delay active pollfds
        (updateConn (fun conn => conn.markDead delay) ci conns) (log ++ [IOCall.markDead ci delay])
    else
      markDeadAllLoop delay active pollfds conns log
  | _, _, conns, log => (conns, log)

/-- `ConnectionPool::markDeadAll(pollfds, reason, delay)`. -/
def markDeadAll (delay : Int) (st : WaitState) : WaitState :=
  let out := markDeadAllLoop delay st.pool.m_activeConns st.pollfds st.pool.m_conns st.log
  { st with pool := { st.pool with m_conns := out.1 }, log := out.2 }

/-- `m_nActiveConn -= 1`. -/
def decrActive (st : WaitState) : WaitState :=
  { st with pool := { st.pool with m_nActiveConn := st.pool.m_nActiveConn - 1 } }

/-- `pollfd_ptr->events = f(pollfd_ptr->events)` for `pollfds[fd_idx]`. -/
def setEvents (f : Nat → Nat) (fd_idx : Nat) (st : WaitState) : WaitState :=
  { st with pollfds := updateAt (fun pfd => { pfd with events := f pfd.events }) fd_idx st.pollfds }

/-- The `// send` block of the descriptor loop (lines 500-527).  The flag is false
when the block leaves through `goto next_fd`. -/
def sendBlock (ci fd_idx : Nat) (io : FdScript) (st : WaitState) : WaitState × Bool :=
  if io.revents &&& POLLOUT ≠ 0 then
    let st := { st with log := st.log ++ [IOCall.send fd_idx io.nToSend] }
    if io.nToSend = -1 then
      (decrActive { markDeadConn ci fd_idx 0 st with ret_code := .RET_SEND_ERR }, false)
    else
      let st := setEvents (fun e => e ||| POLLIN) fd_idx st
      if io.nToSend = 0 then
        let st := setEvents (fun e => e &&& bitNot16 POLLOUT) fd_idx st
        if (st.pool.m_conns[ci]?.map Connection.m_counter) = some 0 then
          (decrActive st, true)
        else (st, true)
      else (st, true)
  else (st, true)

/-- The `// recv` block of the descriptor loop (lines 530-571).  `retry` is
`Connection::getRetryTimeout()`. -/
def recvBlock (retry : Int) (ci fd_idx : Nat) (io : FdScript) (st : WaitState) : WaitState :=
  if io.revents &&& POLLIN ≠ 0 then
    let st := { st with log := st.log ++ [IOCall.recv fd_idx io.nRecv] }
    if io.nRecv = -1 ∨ io.nRecv = 0 then
      decrActive { markDeadConn ci fd_idx 0 st with ret_code := .RET_RECV_ERR }
    else
      let st := { st with log := st.log ++ [IOCall.process fd_idx io.err] }
      match io.err with
      | .RET_OK => decrActive (setEvents (fun e => e &&& bitNot16 POLLIN) fd_idx st)
      | .RET_INCOMPLETE_BUFFER_ERR => st
      | .RET_PROGRAMMING_ERR =>
        decrActive { markDeadConn ci fd_idx retry st with ret_code := .RET_PROGRAMMING_ERR }
      | .RET_MC_SERVER_ERR =>
        decrActive { markDeadConn ci fd_idx 0 st with ret_code := .RET_MC_SERVER_ERR }
      | _ => st
  else st

/-- One iteration of the descriptor loop (lines 488-573) for `fd_idx`. -/
def processFd (retry : Int) (io : FdScript) (fd_idx : Nat) (st : WaitState) : WaitState :=
  match st.pool.m_activeConns[fd_idx]? with
  | none => st
  | some ci =>
    if io.revents &&& (POLLERR ||| POLLHUP ||| POLLNVAL) ≠ 0 then
      decrActive { markDeadConn ci fd_idx retry st with ret_code := .RET_CONN_POLL_ERR }
    else
      let sent := sendBlock ci fd_idx io st
      if sent.2 then recvBlock retry ci fd_idx io sent.1 else sent.1

/-- The answers of a round for descriptor `fd_idx`; a descriptor the round does
not mention reports no event. -/
def PollScript.fdAt (round : PollScript) (fd_idx : Nat) : FdScript :=
  round.fds.getD fd_idx { revents := 0, nToSend := 0, nRecv := 0, err := .RET_OK }

/-- The descriptor loop `for (fd_idx = 0; fd_idx < n_fds; fd_idx++)`. -/
def processFds (retry : Int) (round : PollScript) (n_fds : Nat) (st : WaitState) : WaitState :=
  (List.range n_fds).foldl (fun st fd_idx => processFd retry (round.fdAt fd_idx) fd_idx st) st

/-- The `while (m_nActiveConn)` loop of `waitPoll`, one `poll` per element of the
script (lines 437-576), and the final `return ret_code`. -/
def waitLoop (retry : Int) (n_fds : Nat) : List PollScript → WaitState → WaitOutcome
  | [], st => if st.pool.m_nActiveConn = 0 then .returned st.ret_code st else .blocked st
  | round :: rest, st =>
    if st.pool.m_nActiveConn = 0 then .returned st.ret_code st
    else
      let st := { st with log := st.log ++ [IOCall.poll round.rv] }
      if round.rv = -1 then
        let st := { markDeadAll 0 st with ret_code := .RET_POLL_ERR }
        .returned st.ret_code st
      else if round.rv = 0 then
        let st := { markDeadAll 0 st with ret_code := .RET_POLL_TIMEOUT_ERR }
        .returned st.ret_code st
      else
        waitLoop retry n_fds rest (processFds retry round n_fds st)

/-- The state in which `waitPoll` reaches its loop: one descriptor per active
connection, each asking for `POLLOUT`, and `ret_code = RET_OK`. -/
def waitInit (pool : ConnectionPool) : WaitState :=
  { pool := pool
    pollfds := pool.m_activeConns.map
      (fun ci => { fd := socketFdOf pool.m_conns ci, events := POLLOUT })
    ret_code := .RET_OK
    log := [] }

/-- `ConnectionPool::waitPoll()`, run against `script`. -/
def waitPoll (retry : Int) (script : List PollScript) (pool : ConnectionPool) : WaitOutcome :=
  if pool.m_nActiveConn = 0 then
    if pool.m_nInvalidKey > 0 then
      .returned .RET_INVALID_KEY_ERR
        { pool := pool, pollfds := [], ret_code := .RET_INVALID_KEY_ERR, log := [] }
    else
      .returned .RET_MC_SERVER_ERR
        { pool := pool, pollfds := [], ret_code := .RET_MC_SERVER_ERR, log := [] }
  else if pool.m_nActiveConn ≠ (pool.m_activeConns.length : Int) then
    .outOfBounds
  else
    waitLoop retry pool.m_activeConns.length script (waitInit pool)

/-! ## ConnectionPool: collect -/

/-- The connection behind the pointer `ci` of `m_activeConns`. -/
def connOf (conns : List Connection) (ci : Nat) : Option Connection := conns[ci]?

/-- The inner loop of `collectRetrievalResult` over one result list (lines
619-627): an entry with `bytesRemain > 0` is passed over (`continue`), any
other is pushed to the back of `results`. -/
def collectRetrievalInner : List RetrievalResult → List RetrievalResult → List RetrievalResult
  | [], results => results
  | r1 :: rst, results =>
    if r1.bytesRemain > 0 then collectRetrievalInner rst results
    else collectRetrievalInner rst (results ++ [r1])

/-- The outer loop of `collectRetrievalResult` over `m_activeConns`. -/
def collectRetrievalLoop (conns : List Connection) :
    List Nat → List RetrievalResult → List RetrievalResult
  | [], results => results
  | ci :: active, results =>
    match connOf conns ci with
    | none => collectRetrievalLoop conns active results
    | some conn =>
      collectRetrievalLoop conns active (collectRetrievalInner conn.getRetrievalResults results)

/-- `ConnectionPool::collectRetrievalResult(results)`; the caller's vector goes in
and comes out. -/
def collectRetrievalResult (pool : ConnectionPool) (results : List RetrievalResult) :
    List RetrievalResult :=
  collectRetrievalLoop pool.m_conns pool.m_activeConns results

/-- The inner loop of `collectMessageResult` over one result list. -/
def collectMessageInner : List MessageResult → List MessageResult → List MessageResult
  | [], results => results
  | r1 :: rst, results => collectMessageInner rst (results ++ [r1])

/-- The outer loop of `collectMessageResult` over `m_activeConns`. -/
def collectMessageLoop (conns : List Connection) :
    List Nat → List MessageResult → List MessageResult
  | [], results => results
  | ci :: active, results =>
    match connOf conns ci with
    | none => collectMessageLoop conns active results
    | some conn =>
      collectMessageLoop conns active (collectMessageInner conn.getMessageResults results)

/-- `ConnectionPool::collectMessageResult(results)`. -/
def collectMessageResult (pool : ConnectionPool) (results : List MessageResult) :
    List MessageResult :=
  collectMessageLoop pool.m_conns pool.m_activeConns results

/-- `std::vector::resize(n)`: cut to `n` entries or pad with value-initialised
ones. -/
def resize {α : Type} (n : Nat) (dflt : α) (v : List α) : List α :=
  v.take n ++ List.replicate (n - v.length) dflt

/-- The loop over the line results of one connection (lines 661-665):
`lines[j] = r1->inner(line_lens[j])` for `j = 0, 1, ...`; the two arrays are
returned. -/
def collectLines : List LineResult → List Bytes → List Nat → List Bytes × List Nat
  | [], lines, line_lens => (lines, line_lens)
  | r1 :: rst, lines, line_lens =>
    collectLines rst (lines ++ [r1.inner.1]) (line_lens ++ [r1.inner.2])

/-- Body of the loop of `collectBroadcastResult` for connection `conn` and its
entry `conn_result` (lines 647-665). -/
def collectBroadcastEntry (conn : Connection) (conn_result : broadcast_result_t) :
    broadcast_result_t :=
  let conn_result := { conn_result with host := conn.name }
  let rst := conn.getLineResults
  let conn_result := { conn_result with len := rst.length }
  if conn_result.len = 0 then
    { conn_result with lines := none, line_lens := none }
  else
    let arrays := collectLines rst [] []
    { conn_result with lines := some arrays.1, line_lens := some arrays.2 }

/-- The loop of `collectBroadcastResult` from connection `i` on; `conns` is
`m_conns[i..]`. -/
def collectBroadcastLoop :
    Nat → List Connection → List broadcast_result_t → List broadcast_result_t
  | _, [], results => results
  | i, conn :: rest, results =>
    collectBroadcastLoop (i + 1) rest (updateAt (collectBroadcastEntry conn) i results)

/-- `ConnectionPool::collectBroadcastResult(results)`. -/
def collectBroadcastResult (pool : ConnectionPool) (results : List broadcast_result_t) :
    List broadcast_result_t :=
  collectBroadcastLoop 0 pool.m_conns
    (resize pool.m_conns.length { host := [], lines := none, line_lens := none, len := 0 }
      results)

/-- `ConnectionPool::collectUnsignedResult(results)`.  An output entry is a
pointer to an unsigned result or `NULL` (`none`).  The `ASSERT` on the message
type is a debug check and leaves the output as it is. -/
def collectUnsignedResult (pool : ConnectionPool) (results : List (Option UnsignedResult)) :
    List (Option UnsignedResult) :=
  if pool.m_activeConns.length = 1 then
    match pool.m_activeConns.head? with
    | none => results
    | some ci =>
      match connOf pool.m_conns ci with
      | none => results
      | some front =>
        let numericRst := front.getUnsignedResults
        let msgRst := front.getMessageResults
        if numericRst.length = 1 then results ++ [numericRst.head?]
        else if msgRst.length = 1 then results ++ [none]
        else results
  else results

/-! ## ConnectionPool: init -/

/-- What `init` leaves behind: the pool, the connections handed to
`m_connSelector.addServers(m_conns, m_nConns)`, from which the selector builds
its ring, and the value returned. -/
structure InitResult where
  pool : ConnectionPool
  selectorServers : List Connection
  rv : Int
  deriving DecidableEq, Repr

/-- The loop of `init` (lines 70-72), from index `i` on with `k` iterations left:
`rv += m_conns[i].init(hosts[i], ports[i])`.  `connInit host port` is the
connection that `Connection::init(host, port)` produces from a fresh one,
and its return value; `Connection::init` is not among the sources. -/
def initLoop (connInit : Bytes → Nat → Connection × Int) (hosts : List Bytes)
    (ports : List Nat) : Nat → Nat → List Connection × Int
  | _, 0 => ([], 0)
  | i, k + 1 =>
    let made := connInit (hosts.getD i []) (ports.getD i 0)
    let rest := initLoop connInit hosts ports (i + 1) k
    (made.1 :: rest.1, made.2 + rest.2)

/-- `ConnectionPool::init(hosts, ports, n, weights)`.  The body never reads
`weights`. -/
def init (connInit : Bytes → Nat → Connection × Int) (hosts : List Bytes) (ports : List Nat)
    (n : Nat) (_weights : List Nat) (pool : ConnectionPool) : InitResult :=
  let out := initLoop connInit hosts ports 0 n
  { pool := { pool with m_conns := out.1 }
    selectorServers := out.1
    rv := out.2 }

end ConnectionPool

/-! ## Specification-side definitions

The definitions below follow the wording of the specification; the theorems
compare them with the embedding of the code above. -/

namespace Spec

open ConnectionPool

/-- The inputs of a batch that pass `isValidKey` and that the selector routes to
connection `idx`, in input order. -/
def routed {α : Type} (sel : Selector) (keyOf : α → Bytes) (idx : Nat) (items : List α) :
    List α :=
  items.filter (fun it => isValidKey (keyOf it) && sel (keyOf it) == some idx)

/-- The inputs of a batch whose key fails `isValidKey`. -/
def invalid {α : Type} (keyOf : α → Bytes) (items : List α) : List α :=
  items.filter (fun it => !isValidKey (keyOf it))

/-- The inputs of a batch whose key passes `isValidKey`. -/
def valid {α : Type} (keyOf : α → Bytes) (items : List α) : List α :=
  items.filter (fun it => isValidKey (keyOf it))

/-- The storage operations `set|add|replace|append|prepend|cas`. -/
def isStorageOp (op : op_code_t) : Bool :=
  op == .SET_OP || op == .ADD_OP || op == .REPLACE_OP || op == .APPEND_OP ||
    op == .PREPEND_OP || op == .CAS_OP

/-- The command word `<cmd>` of a storage operation. -/
def storageCommand : op_code_t → Bytes
  | .SET_OP => ascii "set"
  | .ADD_OP => ascii "add"
  | .REPLACE_OP => ascii "replace"
  | .APPEND_OP => ascii "append"
  | .PREPEND_OP => ascii "prepend"
  | .CAS_OP => ascii "cas"
  | _ => []

/-- The wire text of one storage unit:
`<cmd> <key> <flags> <exptime> <bytes>[ <cas>][ noreply]\r\n<value>\r\n`. -/
def storageWire (op : op_code_t) (exptime : Int) (noreply : Bool) (it : StorageItem) : Bytes :=
  storageCommand op ++ ascii " " ++ it.key ++ ascii " " ++ decimal it.flags ++ ascii " " ++
    decimal exptime ++ ascii " " ++ decimal it.val.length ++
    (if op = .CAS_OP then ascii " " ++ decimal it.cas_unique else []) ++
    (if noreply then ascii " noreply" else []) ++
    ascii "\r\n" ++ it.val ++ ascii "\r\n"

/-- The wire text of one delete unit: `delete <key>[ noreply]\r\n`. -/
def deletionWire (noreply : Bool) (key : Bytes) : Bytes :=
  ascii "delete " ++ key ++ (if noreply then ascii " noreply" else []) ++ ascii "\r\n"

/-- The wire text of one touch unit: `touch <key> <exptime>[ noreply]\r\n`. -/
def touchWire (exptime : Int) (noreply : Bool) (key : Bytes) : Bytes :=
  ascii "touch " ++ key ++ ascii " " ++ decimal exptime ++
    (if noreply then ascii " noreply" else []) ++ ascii "\r\n"

/-- The command word of an incr/decr operation, with its trailing space. -/
def incrDecrCommand : op_code_t → Bytes
  | .INCR_OP => ascii "incr "
  | .DECR_OP => ascii "decr "
  | _ => []

/-- The wire text of an incr/decr unit: `incr|decr <key> <delta>[ noreply]\r\n`. -/
def incrDecrWire (op : op_code_t) (delta : Nat) (noreply : Bool) (key : Bytes) : Bytes :=
  incrDecrCommand op ++ key ++ ascii " " ++ decimal delta ++
    (if noreply then ascii " noreply" else []) ++ ascii "\r\n"

/-- The request keys one unit enqueues: its key, or nothing under noreply. -/
def replyKeys (noreply : Bool) (key : Bytes) : List Bytes := if noreply then [] else [key]

/-- The command word of a retrieval operation. -/
def retrievalCommand : op_code_t → Bytes
  | .GET_OP => ascii "get"
  | .GETS_OP => ascii "gets"
  | _ => []

/-- The coalesced retrieval line `get[s] k1 k2 ...\r\n` without its final CRLF. -/
def retrievalLine (op : op_code_t) (keys : List Bytes) : Bytes :=
  retrievalCommand op ++ keys.flatMap (fun key => ascii " " ++ key)

/-- The positions, counted from `idx`, of the connections whose counter is
positive: the connections that the second loop of a dispatch makes active. -/
def positiveFrom : Nat → List Connection → List Nat
  | _, [] => []
  | idx, conn :: rest =>
    if conn.m_counter > 0 then idx :: positiveFrom (idx + 1) rest
    else positiveFrom (idx + 1) rest

/-- The number of reply-bearing units among `n` queued units: all of them, or
none when they were sent with noreply. -/
def replyBearing (noreply : Bool) (n : Nat) : Nat := if noreply then 0 else n

/-- Postcondition of a counting dispatch for connection `j`: the counter is the
number of queued request keys; without noreply these are the keys routed to
`j`, in input order; with noreply there are none and the counter is 0; and a
connection that was given a command is active in counting mode. -/
def CountingPost (noreply : Bool) (routedKeys : List Bytes) (j : Nat)
    (after : ConnectionPool) : Prop :=
  ∃ conn, after.m_conns[j]? = some conn ∧
    conn.m_counter = (conn.m_requestKeys.length : Int) ∧
    (noreply = false → conn.m_requestKeys = routedKeys) ∧
    (noreply = true → conn.m_counter = 0 ∧ conn.m_requestKeys = []) ∧
    (routedKeys ≠ [] → conn.m_parserMode = some .MODE_COUNTING ∧ j ∈ after.m_activeConns)

/-- Postcondition on invalid keys: `after` counts `nInvalid` more invalid keys
than `before`, and its connections and active list are those of `afterValid`,
the pool obtained by dispatching the batch without its invalid keys. -/
def InvalidSkipped (before after afterValid : ConnectionPool) (nInvalid : Nat) : Prop :=
  after.m_nInvalidKey = before.m_nInvalidKey + (nInvalid : Int) ∧
    afterValid.m_nInvalidKey = before.m_nInvalidKey ∧
    after.m_conns = afterValid.m_conns ∧
    after.m_activeConns = afterValid.m_activeConns ∧
    after.m_nActiveConn = afterValid.m_nActiveConn

/-- At the start of the wait phase the counter of connection `j` is the number of
its queued request keys, which is `units`, the number of reply-bearing units. -/
def CounterIsReplies (units : Nat) (j : Nat) (after : ConnectionPool) : Prop :=
  ∃ conn, after.m_conns[j]? = some conn ∧
    conn.m_counter = (conn.m_requestKeys.length : Int) ∧ conn.m_requestKeys.length = units

/-- Connection `ci` is dead, and the delay handed to `markDead` was `delay`. -/
def deadWith (delay : Int) (conns : List Connection) (ci : Nat) : Prop :=
  ∃ conn, conns[ci]? = some conn ∧ conn.m_alive = false ∧ conn.m_deadDelay = delay

/-- According to the log, descriptor `fd_idx` of connection `ci` is still awaited:
no `send` on it has reported 0 bytes left or no `process` on it has returned
`RET_OK`, and the connection has not been marked dead during this wait. -/
def awaited (log : List IOCall) (fd_idx ci : Nat) : Prop :=
  (IOCall.send fd_idx 0 ∉ log ∨ IOCall.process fd_idx .RET_OK ∉ log) ∧
    ∀ delay, IOCall.markDead ci delay ∉ log

/-- How the requested events follow the log: as long as the connection of a
descriptor has not been marked dead, the descriptor asks for `POLLOUT` until a
`send` on it reports 0 bytes left, and from then on for `POLLIN` until a
`process` on it returns `RET_OK`. -/
def EventsTrack (st : WaitState) : Prop :=
  ∀ k ci pfd, st.pool.m_activeConns[k]? = some ci → st.pollfds[k]? = some pfd →
    (∀ delay, IOCall.markDead ci delay ∉ st.log) →
    (IOCall.send k 0 ∉ st.log → pfd.events &&& POLLOUT ≠ 0) ∧
    (IOCall.send k 0 ∈ st.log → IOCall.process k .RET_OK ∉ st.log →
      pfd.events &&& POLLIN ≠ 0)

/-- What the wait loop never changes: the active list, the number of connections
and the number of descriptors. -/
def SameShape (st0 st : WaitState) : Prop :=
  st.pool.m_activeConns = st0.pool.m_activeConns ∧
    st.pool.m_conns.length = st0.pool.m_conns.length ∧
    st.pollfds.length = st0.pollfds.length

/-- The retrieval results of the active connections whose value body is complete
(`bytesRemain` not greater than 0), in active-connection order and, within a
connection, in the order of its result list. -/
def completeRetrievals (pool : ConnectionPool) : List RetrievalResult :=
  pool.m_activeConns.flatMap (fun ci =>
    match pool.m_conns[ci]? with
    | some conn => conn.m_retrievalResults.filter (fun r => decide (r.bytesRemain ≤ 0))
    | none => [])

/-- All message results of the active connections, connection by connection in
active-connection order and in list order within a connection. -/
def allMessages (pool : ConnectionPool) : List MessageResult :=
  pool.m_activeConns.flatMap (fun ci =>
    match pool.m_conns[ci]? with
    | some conn => conn.m_messageResults
    | none => [])

/-- The lengths of the message-result lists of the active connections. -/
def messageCounts (pool : ConnectionPool) : List Nat :=
  pool.m_activeConns.map (fun ci =>
    match pool.m_conns[ci]? with
    | some conn => conn.m_messageResults.length
    | none => 0)

/-- The numeric output of the collect phase: one slot when exactly one connection
is active and it holds exactly one unsigned result (the slot is that result)
or, failing that, exactly one message result (the slot is absent); nothing in
every other case. -/
def unsignedSlot (pool : ConnectionPool) : List (Option UnsignedResult) :=
  match pool.m_activeConns with
  | [ci] =>
    match pool.m_conns[ci]? with
    | some conn =>
      match conn.m_unsignedResults with
      | [r] => [some r]
      | _ =>
        match conn.m_messageResults with
        | [_] => [none]
        | _ => []
    | none => []
  | _ => []

/-- The broadcast entry of one connection: its name as host, its lines in list
order with their lengths and `len` the number of lines; no arrays when it has
no line. -/
def broadcastEntryOf (conn : Connection) : broadcast_result_t :=
  { host := conn.m_name
    len := conn.m_lineResults.length
    lines := if conn.m_lineResults.isEmpty then none
             else some (conn.m_lineResults.map (fun r => r.line))
    line_lens := if conn.m_lineResults.isEmpty then none
                 else some (conn.m_lineResults.map (fun r => r.line.length)) }

/-- A per-connection failure between the states `before` and `after`: the return
code is `code`, the active counter went down by one, connection `ci` is dead
with delay `delay`, every other connection is as it was, and the active list
is unchanged. -/
def FailedConn (delay : Int) (code : err_code_t) (ci : Nat) (before after : WaitState) :
    Prop :=
  after.ret_code = code ∧
    after.pool.m_nActiveConn = before.pool.m_nActiveConn - 1 ∧
    deadWith delay after.pool.m_conns ci ∧
    (∀ cj, cj ≠ ci → after.pool.m_conns[cj]? = before.pool.m_conns[cj]?) ∧
    after.pool.m_activeConns = before.pool.m_activeConns

/-- How the return code follows the log while the loop runs: `ret_code` is
`RET_OK` exactly as long as no connection has been marked dead, and every poll
logged so far was a ready one. -/
def RetTrack (st : WaitState) : Prop :=
  (st.ret_code = .RET_OK ↔ ∀ ci delay, IOCall.markDead ci delay ∉ st.log) ∧
    ∀ rv, IOCall.poll rv ∈ st.log → rv ≠ -1 ∧ rv ≠ 0

/-- A log without poll failure, poll timeout or dead connection. -/
def cleanLog (log : List IOCall) : Prop :=
  (∀ ci delay, IOCall.markDead ci delay ∉ log) ∧ IOCall.poll (-1) ∉ log ∧
    IOCall.poll 0 ∉ log

/-- Connection `idx` is usable for a broadcast: it is alive, or `tryReconnect`
brings it back. -/
def usable (reconnect : Nat → Option Int) (idx : Nat) (conn : Connection) : Bool :=
  conn.alive || (reconnect idx).isSome

/-- The indices of the usable connections, in connection order. -/
def usableIndices (reconnect : Nat → Option Int) (conns : List Connection) : List Nat :=
  (conns.enum.filter (fun p => usable reconnect p.1 p.2)).map Prod.fst

/-- The active count is the length of the active list, the list has no
duplicates, and `waitPoll` therefore never indexes its descriptor arrays out
of bounds. -/
def ActiveWellFormed (pool : ConnectionPool) : Prop :=
  pool.m_nActiveConn = (pool.m_activeConns.length : Int) ∧ pool.m_activeConns.Nodup ∧
    ∀ retry script, waitPoll retry script pool ≠ .outOfBounds

end Spec

/-! ## Sample inputs -/

namespace Sample

open ConnectionPool

/-- A clean, connected connection on descriptor 5. -/
def conn : Connection :=
  { m_counter := 0, m_alive := true, m_deadDelay := 0, m_socketFd := 5, m_sendBuf := [],
    m_requestKeys := [], m_parserMode := none }

/-- A reset pool of two connections, on descriptors 5 and 6. -/
def pool : ConnectionPool :=
  { m_nActiveConn := 0, m_nInvalidKey := 0,
    m_conns := [conn, { conn with m_socketFd := 6 }], m_activeConns := [] }

/-- A reset pool of one connection. -/
def pool1 : ConnectionPool :=
  { m_nActiveConn := 0, m_nInvalidKey := 0, m_conns := [conn], m_activeConns := [] }

/-- A selector sending keys of even length to connection 0 and the others to
connection 1. -/
def sel : Selector := fun key => if key.length % 2 = 0 then some 0 else some 1

/-- A selector sending every key to connection 0. -/
def sel0 : Selector := fun _ => some 0

/-- Three storage inputs; the key of the last one contains a space. -/
def items : List StorageItem :=
  [ { key := ascii "k", flags := 0, cas_unique := 42, val := ascii "X" },
    { key := ascii "ab", flags := 7, cas_unique := 43, val := ascii "hello" },
    { key := ascii "k 2", flags := 0, cas_unique := 44, val := ascii "Y" } ]

/-- Four keys; the third one contains a space. -/
def keys : List Bytes := [ascii "foo", ascii "ab", ascii "b d", ascii "bar"]

/-- The sample pool after a `get` of the four sample keys: connections 0 and 1 are
active, the key with a space was counted as invalid. -/
def activePool : ConnectionPool := dispatchRetrieval sel .GET_OP keys pool

/-- The sample pool after a `get` of one key that contains a space. -/
def invalidOnlyPool : ConnectionPool := dispatchRetrieval sel .GET_OP [ascii "b d"] pool

/-- A ready round: both descriptors writable; the send on descriptor 0 reports
0 bytes left, the send on descriptor 1 reports 3 bytes left. -/
def readyRound : PollScript :=
  { rv := 2, errno := 0,
    fds := [ { revents := POLLOUT, nToSend := 0, nRecv := 0, err := .RET_OK },
             { revents := POLLOUT, nToSend := 3, nRecv := 0, err := .RET_OK } ] }

/-- A poll call that times out. -/
def timeoutRound : PollScript := { rv := 0, errno := 0, fds := [] }

/-- A poll call that fails with `errno = EINTR`. -/
def eintrRound : PollScript := { rv := -1, errno := EINTR, fds := [] }

/-- The state of the wait on `activePool` after `readyRound`. -/
def afterReady : WaitState :=
  ((waitPoll 1000 [readyRound] activePool).stateOf).getD (waitInit activePool)

/-- The one-connection sample pool after `delete k noreply`. -/
def noreplyPool : ConnectionPool := dispatchDeletion sel0 [ascii "k"] true pool1

/-- Two ready rounds on `noreplyPool`.  First the descriptor is writable and the
send leaves 3 bytes queued.  Then it is writable and readable: the send
reports 0 bytes left and `recv` reports end of file. -/
def noreplyScript : List PollScript :=
  [ { rv := 1, errno := 0,
      fds := [ { revents := POLLOUT, nToSend := 3, nRecv := 0, err := .RET_OK } ] },
    { rv := 1, errno := 0,
      fds := [ { revents := POLLOUT ||| POLLIN, nToSend := 0, nRecv := 0, err := .RET_OK } ] } ]

/-- A ready round in which the send on descriptor 0 fails and the send on
descriptor 1 leaves 3 bytes queued. -/
def failRound : PollScript :=
  { rv := 2, errno := 0,
    fds := [ { revents := POLLOUT, nToSend := -1, nRecv := 0, err := .RET_OK },
             { revents := POLLOUT, nToSend := 3, nRecv := 0, err := .RET_OK } ] }

/-- The state of the wait on `activePool` after `failRound`: connection 0 is dead
and `ret_code` is `RET_SEND_ERR`. -/
def afterFail : WaitState :=
  ((waitPoll 1000 [failRound] activePool).stateOf).getD (waitInit activePool)

/-- What the outside world answers for a descriptor that hung up. -/
def hangup : FdScript := { revents := POLLHUP, nToSend := 0, nRecv := 0, err := .RET_OK }

/-- The two-connection sample pool after `delete k ab` with noreply: connection 0
holds `delete ab noreply`, connection 1 holds `delete k noreply`, both counters
are 0 and both connections are active. -/
def noreplyPool2 : ConnectionPool := dispatchDeletion sel [ascii "k", ascii "ab"] true pool

/-- Two ready rounds on `noreplyPool2`.  First both descriptors are writable: the
send on descriptor 0 reports 0 bytes left, the send on descriptor 1 leaves 3
bytes queued.  Then descriptor 0 is readable: `recv` yields 7 bytes and
`process` reports `RET_OK`; descriptor 1 reports no event. -/
def earlyOkScript : List PollScript :=
  [ { rv := 2, errno := 0,
      fds := [ { revents := POLLOUT, nToSend := 0, nRecv := 0, err := .RET_OK },
               { revents := POLLOUT, nToSend := 3, nRecv := 0, err := .RET_OK } ] },
    { rv := 1, errno := 0,
      fds := [ { revents := POLLIN, nToSend := 0, nRecv := 7, err := .RET_OK },
               { revents := 0, nToSend := 0, nRecv := 0, err := .RET_OK } ] } ]

/-- Storage inputs whose keys are all invalid. -/
def badItems : List StorageItem :=
  [ { key := ascii "a b", flags := 0, cas_unique := 1, val := ascii "X" },
    { key := ascii "c\nd", flags := 0, cas_unique := 2, val := ascii "Y" } ]

/-- Keys that are all invalid. -/
def badKeys : List Bytes := [ascii "a b", ascii "x\r\ny", ascii "b d"]

/-- A connection that holds results of every kind. -/
def connWithResults : Connection :=
  { conn with
    m_name := ascii "h1:11211"
    m_retrievalResults :=
      [ { key := ascii "foo", flags := 0, cas_unique := 0, data := ascii "hello", bytesRemain := 0 },
        { key := ascii "bar", flags := 0, cas_unique := 0, data := ascii "he", bytesRemain := 3 } ]
    m_messageResults := [ { type := .MSG_NOT_FOUND, key := ascii "foo" } ]
    m_lineResults := [ { line := ascii "VERSION 1.6.9" } ] }

/-- A pool of two connections, the first one active and holding results. -/
def collectPool : ConnectionPool :=
  { m_nActiveConn := 0, m_nInvalidKey := 0,
    m_conns := [connWithResults, { conn with m_name := ascii "h2:11211" }],
    m_activeConns := [0] }

/-- A ready round in which both descriptors are writable and both sends report
0 bytes left. -/
def bothSentRound : PollScript :=
  { rv := 2, errno := 0,
    fds := [ { revents := POLLOUT, nToSend := 0, nRecv := 0, err := .RET_OK },
             { revents := POLLOUT, nToSend := 0, nRecv := 0, err := .RET_OK } ] }

/-- A ready round in which descriptor 0 is readable, `recv` yields 5 bytes and
`process` reports `RET_OK`; descriptor 1 reports no event. -/
def firstParsedRound : PollScript :=
  { rv := 1, errno := 0,
    fds := [ { revents := POLLIN, nToSend := 0, nRecv := 5, err := .RET_OK },
             { revents := 0, nToSend := 0, nRecv := 0, err := .RET_OK } ] }

/-- A ready round in which descriptor 0, already satisfied, hangs up, and
descriptor 1 is readable with `process` reporting `RET_OK`. -/
def hangupAndParsedRound : PollScript :=
  { rv := 2, errno := 0,
    fds := [ hangup,
             { revents := POLLIN, nToSend := 0, nRecv := 5, err := .RET_OK } ] }

/-- A wait on `activePool` (a `get` on two connections): both sends complete,
the reply of connection 0 is parsed, then connection 0 hangs up while the
reply of connection 1 is parsed. -/
def doubleCountScript : List PollScript :=
  [bothSentRound, firstParsedRound, hangupAndParsedRound]

/-- The first round of `earlyOkScript` followed by a poll that times out. -/
def drainThenTimeout : List PollScript :=
  [ { rv := 2, errno := 0,
      fds := [ { revents := POLLOUT, nToSend := 0, nRecv := 0, err := .RET_OK },
               { revents := POLLOUT, nToSend := 3, nRecv := 0, err := .RET_OK } ] },
    timeoutRound ]

/-- `Connection::init` for the samples: a dead, clean connection named after its
host, no failure. -/
def connInit : Bytes → Nat → Connection × Int :=
  fun host port =>
    ({ conn with m_alive := false, m_socketFd := -1,
                 m_name := host ++ ascii ":" ++ decimal port }, 0)

/-- A dead connection. -/
def deadConn : Connection := { conn with m_alive := false, m_socketFd := -1 }

/-- A reset pool of three connections; the middle one is dead. -/
def pool3 : ConnectionPool :=
  { m_nActiveConn := 0, m_nInvalidKey := 0,
    m_conns := [conn, deadConn, { conn with m_socketFd := 7 }], m_activeConns := [] }

end Sample

end Libmc

/-! # Theorems -/

namespace Libmc

/-! ## Key validation -/

theorem isValidKeyScan_iff (key : Bytes) :
    isValidKeyScan key = true ↔
      ∀ b ∈ key, b ≠ 0x20 ∧ b ≠ 0x0D ∧ b ≠ 0x0A ∧ b ≠ 0x00 := by
  induction key with
  | nil => simp [isValidKeyScan]
  | cons b rest ih =>
    unfold isValidKeyScan
    by_cases h1 : b = 0x20
    · simp [h1]
    by_cases h2 : b = 0x0D
    · simp [h2]
    by_cases h3 : b = 0x0A
    · simp [h3]
    by_cases h4 : b = 0x00
    · simp [h4]
    simp [h1, h2, h3, h4, ih]

/-- C1 (as stated, refuted): the empty key has length 0, so the claim calls for
`isValidKey` to reject it, yet `isValidKey` returns true on it. -/
theorem C1_empty_key_accepted :
    isValidKey [] = true ∧
      ¬ (1 ≤ ([] : Bytes).length ∧ ([] : Bytes).length ≤ 250 ∧
          ∀ b ∈ ([] : Bytes), b ≠ 0x20 ∧ b ≠ 0x0D ∧ b ≠ 0x0A ∧ b ≠ 0x00) := by
  refine ⟨by decide, ?_⟩
  simp

theorem isValidKey_iff (k : Bytes) :
    isValidKey k = true ↔
      k.length ≤ 250 ∧ ∀ b ∈ k, b ≠ 0x20 ∧ b ≠ 0x0D ∧ b ≠ 0x0A ∧ b ≠ 0x00 := by
  unfold isValidKey MC_MAX_KEY_LENGTH
  by_cases hlen : k.length > 250
  · simp [hlen]
  · simp only [hlen, if_false, isValidKeyScan_iff]
    constructor
    · intro h
      exact ⟨by omega, h⟩
    · intro h
      exact h.2

/-- C1 (amended): `isValidKey k` is true exactly when `k` has at most 250 bytes
and contains none of the bytes 0x20, 0x0D, 0x0A, 0x00; no lower bound on the
length is checked, so the empty key is accepted. -/
theorem C1_isValidKey_iff (k : Bytes) :
    isValidKey k = true ↔
      k.length ≤ 250 ∧ ∀ b ∈ k, b ≠ 0x20 ∧ b ≠ 0x0D ∧ b ≠ 0x0A ∧ b ≠ 0x00 :=
  isValidKey_iff k


/-! ## Dispatch: the per-key loop -/

theorem getElem?_updateAt {α : Type} (f : α → α) (idx j : Nat) (l : List α) :
    (updateAt f idx l)[j]? = if idx = j then l[j]?.map f else l[j]? := by
  induction l generalizing idx j with
  | nil => simp [updateAt]
  | cons x rest ih =>
    cases idx with
    | zero =>
      cases j with
      | zero => simp [updateAt]
      | succ j => simp [updateAt]
    | succ idx =>
      cases j with
      | zero => simp [updateAt]
      | succ j => simp [updateAt, ih]

theorem length_updateAt {α : Type} (f : α → α) (idx : Nat) (l : List α) :
    (updateAt f idx l).length = l.length := by
  induction l generalizing idx with
  | nil => simp [updateAt]
  | cons x rest ih => cases idx <;> simp [updateAt, ih]

open ConnectionPool Spec

theorem dispatchKey_nActive (sel : Selector) (key : Bytes) (unit : Connection → Connection)
    (pool : ConnectionPool) :
    (dispatchKey sel key unit pool).m_nActiveConn = pool.m_nActiveConn ∧
      (dispatchKey sel key unit pool).m_activeConns = pool.m_activeConns ∧
      (dispatchKey sel key unit pool).m_conns.length = pool.m_conns.length := by
  unfold dispatchKey
  split
  · simp
  · split <;> simp [updateConn, length_updateAt]

theorem dispatchLoop_frame {α : Type} (sel : Selector) (keyOf : α → Bytes)
    (unit : α → Connection → Connection) (items : List α) (pool : ConnectionPool) :
    (dispatchLoop sel keyOf unit items pool).m_nActiveConn = pool.m_nActiveConn ∧
      (dispatchLoop sel keyOf unit items pool).m_activeConns = pool.m_activeConns ∧
      (dispatchLoop sel keyOf unit items pool).m_conns.length = pool.m_conns.length := by
  induction items generalizing pool with
  | nil => simp [dispatchLoop]
  | cons it rest ih =>
    have h := dispatchKey_nActive sel (keyOf it) (unit it) pool
    have h2 := ih (dispatchKey sel (keyOf it) (unit it) pool)
    simp only [dispatchLoop]
    exact ⟨h2.1.trans h.1, h2.2.1.trans h.2.1, h2.2.2.trans h.2.2⟩

theorem dispatchLoop_nInvalidKey {α : Type} (sel : Selector) (keyOf : α → Bytes)
    (unit : α → Connection → Connection) (items : List α) (pool : ConnectionPool) :
    (dispatchLoop sel keyOf unit items pool).m_nInvalidKey =
      pool.m_nInvalidKey + ((invalid keyOf items).length : Int) := by
  induction items generalizing pool with
  | nil => simp [dispatchLoop, invalid]
  | cons it rest ih =>
    simp only [dispatchLoop, ih]
    unfold dispatchKey invalid
    by_cases hv : isValidKey (keyOf it) = true
    · simp only [hv, Bool.not_true, Bool.false_eq_true, if_false]
      cases sel (keyOf it) <;> simp [List.filter_cons, hv]
    · simp only [Bool.not_eq_true] at hv
      simp [List.filter_cons, hv]
      omega

theorem dispatchLoop_getElem? {α : Type} (sel : Selector) (keyOf : α → Bytes)
    (unit : α → Connection → Connection) (items : List α) (pool : ConnectionPool) (j : Nat) :
    (dispatchLoop sel keyOf unit items pool).m_conns[j]? =
      (pool.m_conns[j]?).map
        (fun conn => (routed sel keyOf j items).foldl (fun conn it => unit it conn) conn) := by
  induction items generalizing pool with
  | nil => simp [dispatchLoop, routed]
  | cons it rest ih =>
    simp only [dispatchLoop, ih]
    unfold dispatchKey routed
    by_cases hv : isValidKey (keyOf it) = true
    · simp only [hv, Bool.not_true, Bool.false_eq_true, if_false]
      cases hs : sel (keyOf it) with
      | none => simp [List.filter_cons, hv, hs]
      | some idx =>
        by_cases hj : idx = j
        · subst hj
          simp [List.filter_cons, hv, hs, updateConn, getElem?_updateAt]
          rfl
        · simp [List.filter_cons, hv, hs, updateConn, getElem?_updateAt, hj]
    · simp only [Bool.not_eq_true] at hv
      simp [List.filter_cons, hv]

theorem routed_valid {α : Type} (sel : Selector) (keyOf : α → Bytes) (j : Nat)
    (items : List α) : routed sel keyOf j (valid keyOf items) = routed sel keyOf j items := by
  unfold routed valid
  rw [List.filter_filter]
  congr 1
  funext it
  cases isValidKey (keyOf it) <;> simp

/-- Dispatching a batch touches the connections exactly as dispatching its valid
inputs alone does. -/
theorem dispatchLoop_valid {α : Type} (sel : Selector) (keyOf : α → Bytes)
    (unit : α → Connection → Connection) (items : List α) (pool : ConnectionPool) :
    (dispatchLoop sel keyOf unit items pool).m_conns =
      (dispatchLoop sel keyOf unit (valid keyOf items) pool).m_conns := by
  apply List.ext_getElem?
  intro j
  rw [dispatchLoop_getElem?, dispatchLoop_getElem?, routed_valid]

/-! ## Dispatch: the activation loops -/

theorem mem_positiveFrom (idx j : Nat) (conns : List Connection) :
    j ∈ positiveFrom idx conns ↔
      idx ≤ j ∧ ∃ conn, conns[j - idx]? = some conn ∧ conn.m_counter > 0 := by
  induction conns generalizing idx with
  | nil => simp [positiveFrom]
  | cons c rest ih =>
    unfold positiveFrom
    by_cases hc : c.m_counter > 0
    · simp only [hc, if_true, List.mem_cons, ih]
      constructor
      · rintro (h | ⟨h1, conn, h2, h3⟩)
        · subst h
          exact ⟨le_refl _, c, by simp, hc⟩
        · refine ⟨by omega, conn, ?_, h3⟩
          have : j - idx = (j - (idx + 1)) + 1 := by omega
          rw [this]
          simpa using h2
      · rintro ⟨h1, conn, h2, h3⟩
        by_cases hj : j = idx
        · exact Or.inl hj
        · right
          refine ⟨by omega, conn, ?_, h3⟩
          have : j - idx = (j - (idx + 1)) + 1 := by omega
          rw [this] at h2
          simpa using h2
    · simp only [hc, if_false, ih]
      constructor
      · rintro ⟨h1, conn, h2, h3⟩
        refine ⟨by omega, conn, ?_, h3⟩
        have : j - idx = (j - (idx + 1)) + 1 := by omega
        rw [this]
        simpa using h2
      · rintro ⟨h1, conn, h2, h3⟩
        by_cases hj : j = idx
        · subst hj
          simp at h2
          subst h2
          exact absurd h3 hc
        · refine ⟨by omega, conn, ?_, h3⟩
          have : j - idx = (j - (idx + 1)) + 1 := by omega
          rw [this] at h2
          simpa using h2

theorem countingLoop_conns (idx : Nat) (conns : List Connection) (nActive : Int)
    (active : List Nat) :
    (countingLoop idx conns nActive active).1 =
      conns.map (fun conn =>
        { (if conn.m_counter > 0 then conn.setParserMode .MODE_COUNTING else conn) with
          m_counter := conn.m_requestKeys.length }) := by
  induction conns generalizing idx nActive active with
  | nil => simp [countingLoop]
  | cons c rest ih =>
    simp only [countingLoop, List.map_cons, ih]
    by_cases hc : c.m_counter > 0 <;>
      simp [hc, Connection.requestKeyCount, Connection.setParserMode]

theorem countingLoop_active (idx : Nat) (conns : List Connection) (nActive : Int)
    (active : List Nat) :
    (countingLoop idx conns nActive active).2.2 = active ++ positiveFrom idx conns ∧
      (countingLoop idx conns nActive active).2.1 =
        nActive + ((positiveFrom idx conns).length : Int) := by
  induction conns generalizing idx nActive active with
  | nil => simp [countingLoop, positiveFrom]
  | cons c rest ih =>
    simp only [countingLoop, positiveFrom]
    by_cases hc : c.m_counter > 0
    · simp only [hc, decide_True, if_true, ih, List.append_assoc, List.singleton_append,
        List.length_cons, true_and]
      push_cast
      ring
    · simp [hc, ih]

theorem endStateLoop_conns (idx : Nat) (conns : List Connection) (nActive : Int)
    (active : List Nat) :
    (endStateLoop idx conns nActive active).1 =
      conns.map (fun conn =>
        if conn.m_counter > 0 then
          (conn.takeBuffer keywords.kCRLF 2).setParserMode .MODE_END_STATE
        else conn) := by
  induction conns generalizing idx nActive active with
  | nil => simp [endStateLoop]
  | cons c rest ih =>
    simp only [endStateLoop, List.map_cons, ih]
    by_cases hc : c.m_counter > 0 <;> simp [hc]

theorem endStateLoop_active (idx : Nat) (conns : List Connection) (nActive : Int)
    (active : List Nat) :
    (endStateLoop idx conns nActive active).2.2 = active ++ positiveFrom idx conns ∧
      (endStateLoop idx conns nActive active).2.1 =
        nActive + ((positiveFrom idx conns).length : Int) := by
  induction conns generalizing idx nActive active with
  | nil => simp [endStateLoop, positiveFrom]
  | cons c rest ih =>
    simp only [endStateLoop, positiveFrom]
    by_cases hc : c.m_counter > 0
    · simp only [hc, decide_True, if_true, ih, List.append_assoc, List.singleton_append,
        List.length_cons, true_and]
      push_cast
      ring
    · simp [hc, ih]

/-- What `isReset` says, field by field. -/
theorem isReset_iff (pool : ConnectionPool) :
    pool.isReset = true ↔
      pool.m_nActiveConn = 0 ∧ pool.m_nInvalidKey = 0 ∧ pool.m_activeConns = [] ∧
        ∀ conn ∈ pool.m_conns, conn.m_counter = 0 ∧ conn.m_sendBuf = [] ∧
          conn.m_requestKeys = [] ∧ conn.m_parserMode = none := by
  simp [ConnectionPool.isReset, Connection.isReset, and_assoc]

/-- Folding units that each add one to the counter, `wire it` to the send queue
and `rk it` to the request keys adds up over the list. -/
theorem foldl_unit {α : Type} (unit : α → Connection → Connection) (wire : α → Bytes)
    (rk : α → List Bytes)
    (hunit : ∀ it conn, unit it conn =
      { conn with m_counter := conn.m_counter + 1, m_sendBuf := conn.m_sendBuf ++ wire it,
                  m_requestKeys := conn.m_requestKeys ++ rk it })
    (l : List α) (conn : Connection) :
    l.foldl (fun conn it => unit it conn) conn =
      { conn with m_counter := conn.m_counter + l.length,
                  m_sendBuf := conn.m_sendBuf ++ l.flatMap wire,
                  m_requestKeys := conn.m_requestKeys ++ l.flatMap rk } := by
  induction l generalizing conn with
  | nil => simp
  | cons it rest ih =>
    rw [List.foldl_cons, ih, hunit]
    simp only [List.flatMap_cons, List.length_cons, List.append_assoc]
    congr 1
    push_cast
    ring

/-! ## Dispatch: what one unit queues -/

theorem take_kSPACE : keywords.kSPACE.take 1 = ascii " " := by decide
theorem take_kCRLF : keywords.kCRLF.take 2 = ascii "\r\n" := by decide
theorem take_k_NOREPLY : keywords.k_NOREPLY.take 8 = ascii " noreply" := by decide
theorem take_kSET_ : keywords.kSET_.take 4 = ascii "set" ++ ascii " " := by decide
theorem take_kADD_ : keywords.kADD_.take 4 = ascii "add" ++ ascii " " := by decide
theorem take_kREPLACE_ : keywords.kREPLACE_.take 8 = ascii "replace" ++ ascii " " := by decide
theorem take_kAPPEND_ : keywords.kAPPEND_.take 7 = ascii "append" ++ ascii " " := by decide
theorem take_kPREPEND_ : keywords.kPREPEND_.take 8 = ascii "prepend" ++ ascii " " := by decide
theorem take_kCAS_ : keywords.kCAS_.take 4 = ascii "cas" ++ ascii " " := by decide
theorem take_kGET : keywords.kGET.take 3 = ascii "get" := by decide
theorem take_kGETS : keywords.kGETS.take 4 = ascii "gets" := by decide
theorem take_kDELETE_ : keywords.kDELETE_.take 7 = ascii "delete " := by decide
theorem take_kTOUCH_ : keywords.kTOUCH_.take 6 = ascii "touch " := by decide
theorem take_kINCR_ : keywords.kINCR_.take 5 = ascii "incr " := by decide
theorem take_kDECR_ : keywords.kDECR_.take 5 = ascii "decr " := by decide

theorem storageUnit_eq (op : op_code_t) (exptime : Int) (noreply : Bool)
    (hop : isStorageOp op = true) (it : StorageItem) (conn : Connection) :
    storageUnit op exptime noreply it conn =
      { conn with m_counter := conn.m_counter + 1,
                  m_sendBuf := conn.m_sendBuf ++ storageWire op exptime noreply it,
                  m_requestKeys := conn.m_requestKeys ++ replyKeys noreply it.key } := by
  cases op <;> simp [isStorageOp] at hop <;> cases noreply <;>
    simp [storageUnit, storageKeyword, storageWire, storageCommand, replyKeys,
      Connection.takeBuffer, Connection.takeNumber, Connection.addRequestKey,
      take_kSPACE, take_kCRLF, take_k_NOREPLY, take_kSET_, take_kADD_, take_kREPLACE_,
      take_kAPPEND_, take_kPREPEND_, take_kCAS_, List.append_assoc]

theorem deletionUnit_eq (noreply : Bool) (key : Bytes) (conn : Connection) :
    deletionUnit noreply key conn =
      { conn with m_counter := conn.m_counter + 1,
                  m_sendBuf := conn.m_sendBuf ++ deletionWire noreply key,
                  m_requestKeys := conn.m_requestKeys ++ replyKeys noreply key } := by
  cases noreply <;>
    simp [deletionUnit, deletionWire, replyKeys, Connection.takeBuffer,
      Connection.addRequestKey, take_kCRLF, take_k_NOREPLY, take_kDELETE_, List.append_assoc]

theorem touchUnit_eq (exptime : Int) (noreply : Bool) (key : Bytes) (conn : Connection) :
    touchUnit exptime noreply key conn =
      { conn with m_counter := conn.m_counter + 1,
                  m_sendBuf := conn.m_sendBuf ++ touchWire exptime noreply key,
                  m_requestKeys := conn.m_requestKeys ++ replyKeys noreply key } := by
  cases noreply <;>
    simp [touchUnit, touchWire, replyKeys, Connection.takeBuffer, Connection.takeNumber,
      Connection.addRequestKey, take_kSPACE, take_kCRLF, take_k_NOREPLY, take_kTOUCH_,
      List.append_assoc]

theorem incrDecrUnit_eq (op : op_code_t) (delta : Nat) (noreply : Bool) (key : Bytes)
    (hop : op = .INCR_OP ∨ op = .DECR_OP) (conn : Connection) :
    incrDecrUnit op delta noreply key conn =
      { conn with m_counter := ((conn.m_requestKeys ++ replyKeys noreply key).length : Int),
                  m_sendBuf := conn.m_sendBuf ++ incrDecrWire op delta noreply key,
                  m_requestKeys := conn.m_requestKeys ++ replyKeys noreply key,
                  m_parserMode := some .MODE_COUNTING } := by
  rcases hop with h | h <;> subst h <;> cases noreply <;>
    simp [incrDecrUnit, incrDecrWire, incrDecrCommand, replyKeys, Connection.takeBuffer,
      Connection.takeNumber, Connection.addRequestKey, Connection.setParserMode,
      Connection.requestKeyCount, take_kSPACE, take_kCRLF, take_k_NOREPLY, take_kINCR_,
      take_kDECR_, List.append_assoc]

theorem flatMap_replyKeys {α : Type} (noreply : Bool) (keyOf : α → Bytes) (l : List α) :
    l.flatMap (fun it => replyKeys noreply (keyOf it)) =
      if noreply then [] else l.map keyOf := by
  cases noreply
  · induction l with
    | nil => simp
    | cons it rest ih => simp [List.flatMap_cons, replyKeys, ih] at ih ⊢; exact ih
  · simp [replyKeys]

/-! ## Dispatch: the counting family on a reset pool -/

theorem activateCounting_fields (pool : ConnectionPool) :
    (activateCounting pool).m_conns =
        pool.m_conns.map (fun conn =>
          { (if conn.m_counter > 0 then conn.setParserMode .MODE_COUNTING else conn) with
            m_counter := conn.m_requestKeys.length }) ∧
      (activateCounting pool).m_activeConns =
        pool.m_activeConns ++ positiveFrom 0 pool.m_conns ∧
      (activateCounting pool).m_nActiveConn =
        pool.m_nActiveConn + ((positiveFrom 0 pool.m_conns).length : Int) ∧
      (activateCounting pool).m_nInvalidKey = pool.m_nInvalidKey := by
  unfold activateCounting
  simp only [countingLoop_conns, countingLoop_active]
  exact ⟨trivial, trivial, trivial, trivial⟩

/-- The connection at `j` after a dispatch of the counting family on a reset pool. -/
theorem counting_dispatch {α : Type} (sel : Selector) (keyOf : α → Bytes)
    (unit : α → Connection → Connection) (wire : α → Bytes) (noreply : Bool)
    (hunit : ∀ it conn, unit it conn =
      { conn with m_counter := conn.m_counter + 1, m_sendBuf := conn.m_sendBuf ++ wire it,
                  m_requestKeys := conn.m_requestKeys ++ replyKeys noreply (keyOf it) })
    (items : List α) (pool : ConnectionPool) (hreset : pool.isReset = true) (j : Nat)
    (hj : j < pool.m_conns.length) :
    ∃ conn0, pool.m_conns[j]? = some conn0 ∧
      (activateCounting (dispatchLoop sel keyOf unit items pool)).m_conns[j]? =
        some { conn0 with
          m_counter := if noreply then 0 else ((routed sel keyOf j items).length : Int)
          m_sendBuf := (routed sel keyOf j items).flatMap wire
          m_requestKeys := if noreply then [] else (routed sel keyOf j items).map keyOf
          m_parserMode :=
            if (routed sel keyOf j items).isEmpty then none else some .MODE_COUNTING } ∧
      (j ∈ (activateCounting (dispatchLoop sel keyOf unit items pool)).m_activeConns ↔
        routed sel keyOf j items ≠ []) := by
  have hget : pool.m_conns[j]? = some pool.m_conns[j] := List.getElem?_eq_getElem hj
  obtain ⟨-, -, hact, hconns⟩ := (isReset_iff pool).1 hreset
  obtain ⟨h1, h2, h3, h4⟩ := hconns _ (List.getElem_mem hj)
  have hfold := foldl_unit unit wire (fun it => replyKeys noreply (keyOf it)) hunit
    (routed sel keyOf j items) pool.m_conns[j]
  have hloop := dispatchLoop_getElem? sel keyOf unit items pool j
  rw [hget, Option.map_some', hfold, h1, h2, h3, flatMap_replyKeys] at hloop
  simp only [List.nil_append, zero_add] at hloop
  obtain ⟨hc, ha, -, -⟩ := activateCounting_fields (dispatchLoop sel keyOf unit items pool)
  refine ⟨pool.m_conns[j], hget, ?_, ?_⟩
  · rw [hc, List.getElem?_map, hloop, Option.map_some']
    cases hr : routed sel keyOf j items with
    | nil => cases noreply <;> simp [h4]
    | cons it rest =>
      have : (0 : Int) < (rest.length : Int) + 1 := by positivity
      cases noreply <;> simp [Connection.setParserMode, this]
  · rw [ha, (dispatchLoop_frame sel keyOf unit items pool).2.1, hact, List.nil_append,
      mem_positiveFrom]
    simp only [Nat.zero_le, true_and, Nat.sub_zero, hloop, Option.some.injEq]
    constructor
    · rintro ⟨conn, rfl, hpos⟩ hnil
      simp [hnil] at hpos
    · intro hne
      refine ⟨_, rfl, ?_⟩
      cases hr : routed sel keyOf j items with
      | nil => exact absurd hr hne
      | cons it rest =>
        simp only [List.length_cons]
        push_cast
        positivity

/-- C2: after `dispatchStorage` on a reset pool with a storage operation, the bytes
queued on connection `j` are the concatenation, in input order over the valid
inputs routed to `j`, of `<cmd> <key> <flags> <exptime> <bytes>[ <cas>][ noreply]`
CRLF `<value>` CRLF, and the pool keeps its connections. -/
theorem C2_dispatchStorage_bytes (sel : Selector) (op : op_code_t)
    (items : List StorageItem) (exptime : Int) (noreply : Bool) (pool : ConnectionPool)
    (j : Nat) (hop : isStorageOp op = true) (hreset : pool.isReset = true)
    (hj : j < pool.m_conns.length) :
    ((dispatchStorage sel op items exptime noreply pool).m_conns[j]?).map
        Connection.m_sendBuf =
      some ((routed sel StorageItem.key j items).flatMap (storageWire op exptime noreply)) ∧
    (dispatchStorage sel op items exptime noreply pool).m_conns.length =
      pool.m_conns.length := by
  obtain ⟨conn0, -, h, -⟩ := counting_dispatch sel StorageItem.key
    (storageUnit op exptime noreply) (storageWire op exptime noreply) noreply
    (storageUnit_eq op exptime noreply hop) items pool hreset j hj
  constructor
  · unfold dispatchStorage
    rw [h]
    rfl
  · unfold dispatchStorage
    rw [(activateCounting_fields _).1, List.length_map]
    exact (dispatchLoop_frame _ _ _ _ _).2.2

/-- C2 (witness): a `cas` batch of three inputs on the two-connection sample pool;
connection 1 receives `cas k 0 0 1 42` CRLF `X` CRLF. -/
theorem C2_dispatchStorage_bytes_witness :
    ((dispatchStorage Sample.sel .CAS_OP Sample.items 0 false Sample.pool).m_conns[1]?).map
        Connection.m_sendBuf =
      some ((routed Sample.sel StorageItem.key 1 Sample.items).flatMap
        (storageWire .CAS_OP 0 false)) ∧
    (dispatchStorage Sample.sel .CAS_OP Sample.items 0 false Sample.pool).m_conns.length =
      Sample.pool.m_conns.length :=
  C2_dispatchStorage_bytes Sample.sel .CAS_OP Sample.items 0 false Sample.pool 1
    (by decide) (by decide) (by decide)

/-- The counting postcondition follows from the shape of the connection. -/
theorem countingPost_of_dispatch {α : Type} (sel : Selector) (keyOf : α → Bytes)
    (unit : α → Connection → Connection) (wire : α → Bytes) (noreply : Bool)
    (hunit : ∀ it conn, unit it conn =
      { conn with m_counter := conn.m_counter + 1, m_sendBuf := conn.m_sendBuf ++ wire it,
                  m_requestKeys := conn.m_requestKeys ++ replyKeys noreply (keyOf it) })
    (items : List α) (pool : ConnectionPool) (hreset : pool.isReset = true) (j : Nat)
    (hj : j < pool.m_conns.length) :
    CountingPost noreply ((routed sel keyOf j items).map keyOf) j
      (activateCounting (dispatchLoop sel keyOf unit items pool)) := by
  obtain ⟨conn0, -, h, hact⟩ :=
    counting_dispatch sel keyOf unit wire noreply hunit items pool hreset j hj
  refine ⟨_, h, ?_, ?_, ?_, ?_⟩
  · cases noreply <;> simp
  · intro hn
    simp [hn]
  · intro hn
    simp [hn]
  · intro hne
    have hne' : routed sel keyOf j items ≠ [] := by
      intro h0
      exact hne (by simp [h0])
    refine ⟨?_, hact.2 hne'⟩
    cases hr : routed sel keyOf j items with
    | nil => exact absurd hr hne'
    | cons it rest => simp

theorem dispatchIncrDecr_invalid (sel : Selector) (op : op_code_t) (key : Bytes) (delta : Nat)
    (noreply : Bool) (pool : ConnectionPool) (hv : isValidKey key = false) :
    dispatchIncrDecr sel op key delta noreply pool =
      { pool with m_nInvalidKey := pool.m_nInvalidKey + 1 } := by
  simp [dispatchIncrDecr, hv]

theorem dispatchIncrDecr_unrouted (sel : Selector) (op : op_code_t) (key : Bytes) (delta : Nat)
    (noreply : Bool) (pool : ConnectionPool) (hv : isValidKey key = true)
    (hs : sel key = none) :
    dispatchIncrDecr sel op key delta noreply pool = pool := by
  simp [dispatchIncrDecr, hv, hs]

theorem dispatchIncrDecr_routed (sel : Selector) (op : op_code_t) (key : Bytes) (delta : Nat)
    (noreply : Bool) (pool : ConnectionPool) (idx : Nat) (hv : isValidKey key = true)
    (hs : sel key = some idx) :
    dispatchIncrDecr sel op key delta noreply pool =
      { pool with
        m_conns := updateConn (incrDecrUnit op delta noreply key) idx pool.m_conns
        m_nActiveConn := pool.m_nActiveConn + 1
        m_activeConns := pool.m_activeConns ++ [idx] } := by
  simp [dispatchIncrDecr, hv, hs]

/-- C8: after `dispatchStorage`, `dispatchDeletion`, `dispatchTouch` or
`dispatchIncrDecr` on a reset pool, the counter of every connection equals the
number of request keys queued on it; without noreply these are the valid keys
routed to it, in input order; with noreply the counter is 0 and no request key
is queued; and a connection that was given a command is active in counting
mode. -/
theorem C8_counter_is_request_keys (sel : Selector) (sop iop : op_code_t)
    (items : List StorageItem) (keys : List Bytes) (key : Bytes) (exptime : Int)
    (delta : Nat) (noreply : Bool) (pool : ConnectionPool) (j : Nat)
    (hsop : isStorageOp sop = true) (hiop : iop = .INCR_OP ∨ iop = .DECR_OP)
    (hreset : pool.isReset = true) (hj : j < pool.m_conns.length) :
    CountingPost noreply ((routed sel StorageItem.key j items).map StorageItem.key) j
        (dispatchStorage sel sop items exptime noreply pool) ∧
      CountingPost noreply (routed sel id j keys) j (dispatchDeletion sel keys noreply pool) ∧
      CountingPost noreply (routed sel id j keys) j
        (dispatchTouch sel keys exptime noreply pool) ∧
      CountingPost noreply (routed sel id j [key]) j
        (dispatchIncrDecr sel iop key delta noreply pool) := by
  refine ⟨?_, ?_, ?_, ?_⟩
  · exact countingPost_of_dispatch sel StorageItem.key (storageUnit sop exptime noreply)
      (storageWire sop exptime noreply) noreply (storageUnit_eq sop exptime noreply hsop)
      items pool hreset j hj
  · have h := countingPost_of_dispatch sel id (deletionUnit noreply) (deletionWire noreply)
      noreply (deletionUnit_eq noreply) keys pool hreset j hj
    simpa [dispatchDeletion] using h
  · have h := countingPost_of_dispatch sel id (touchUnit exptime noreply)
      (touchWire exptime noreply) noreply (touchUnit_eq exptime noreply) keys pool hreset j hj
    simpa [dispatchTouch] using h
  · have hget : pool.m_conns[j]? = some pool.m_conns[j] := List.getElem?_eq_getElem hj
    obtain ⟨-, -, hact, hconns⟩ := (isReset_iff pool).1 hreset
    obtain ⟨h1, h2, h3, h4⟩ := hconns _ (List.getElem_mem hj)
    unfold routed CountingPost
    by_cases hv : isValidKey key = true
    · cases hs : sel key with
      | none =>
        rw [dispatchIncrDecr_unrouted sel iop key delta noreply pool hv hs]
        refine ⟨_, hget, ?_⟩
        simp [h1, h3, hs, hv]
      | some idx =>
        rw [dispatchIncrDecr_routed sel iop key delta noreply pool idx hv hs]
        by_cases hidx : idx = j
        · subst hidx
          refine ⟨incrDecrUnit iop delta noreply key pool.m_conns[idx], ?_, ?_⟩
          · simp only [updateConn, getElem?_updateAt, if_true, hget, Option.map_some']
          · rw [incrDecrUnit_eq iop delta noreply key hiop]
            cases noreply <;> simp [h3, hs, hv, replyKeys, hact]
        · refine ⟨pool.m_conns[j], ?_, ?_⟩
          · simp only [updateConn, getElem?_updateAt, hidx, if_false, hget]
          · simp [h1, h3, hs, hv, hidx]
    · simp only [Bool.not_eq_true] at hv
      rw [dispatchIncrDecr_invalid sel iop key delta noreply pool hv]
      refine ⟨_, hget, ?_⟩
      simp [h1, h3, hv]

/-- C8 (witness): the sample pool, a `set` batch, a three-key deletion and touch
batch and an `incr`, all without noreply, observed on connection 1. -/
theorem C8_counter_is_request_keys_witness :
    CountingPost false
        ((routed Sample.sel StorageItem.key 1 Sample.items).map StorageItem.key) 1
        (dispatchStorage Sample.sel .SET_OP Sample.items 0 false Sample.pool) ∧
      CountingPost false (routed Sample.sel id 1 Sample.keys) 1
        (dispatchDeletion Sample.sel Sample.keys false Sample.pool) ∧
      CountingPost false (routed Sample.sel id 1 Sample.keys) 1
        (dispatchTouch Sample.sel Sample.keys 0 false Sample.pool) ∧
      CountingPost false (routed Sample.sel id 1 [ascii "foo"]) 1
        (dispatchIncrDecr Sample.sel .INCR_OP (ascii "foo") 1 false Sample.pool) :=
  C8_counter_is_request_keys Sample.sel .SET_OP .INCR_OP Sample.items Sample.keys
    (ascii "foo") 0 1 false Sample.pool 1 (by decide) (by decide) (by decide) (by decide)

/-! ## Dispatch: invalid keys -/

theorem valid_valid {α : Type} (keyOf : α → Bytes) (items : List α) :
    valid keyOf (valid keyOf items) = valid keyOf items := by
  unfold valid
  rw [List.filter_filter]
  congr 1
  funext it
  cases isValidKey (keyOf it) <;> simp

theorem invalid_valid {α : Type} (keyOf : α → Bytes) (items : List α) :
    invalid keyOf (valid keyOf items) = [] := by
  unfold valid invalid
  rw [List.filter_filter]
  apply List.filter_eq_nil_iff.2
  intro it _
  cases isValidKey (keyOf it) <;> simp

theorem activateCounting_invalidSkipped {α : Type} (sel : Selector) (keyOf : α → Bytes)
    (unit : α → Connection → Connection) (items : List α) (pool : ConnectionPool) :
    InvalidSkipped pool (activateCounting (dispatchLoop sel keyOf unit items pool))
      (activateCounting (dispatchLoop sel keyOf unit (valid keyOf items) pool))
      (invalid keyOf items).length := by
  have hv := dispatchLoop_valid sel keyOf unit items pool
  obtain ⟨a1, a2, a3, a4⟩ := activateCounting_fields (dispatchLoop sel keyOf unit items pool)
  obtain ⟨b1, b2, b3, b4⟩ :=
    activateCounting_fields (dispatchLoop sel keyOf unit (valid keyOf items) pool)
  obtain ⟨f1, f2, -⟩ := dispatchLoop_frame sel keyOf unit items pool
  obtain ⟨g1, g2, -⟩ := dispatchLoop_frame sel keyOf unit (valid keyOf items) pool
  refine ⟨?_, ?_, ?_, ?_, ?_⟩
  · rw [a4, dispatchLoop_nInvalidKey]
  · rw [b4, dispatchLoop_nInvalidKey, invalid_valid]
    simp
  · rw [a1, b1, hv]
  · rw [a2, b2, hv, f2, g2]
  · rw [a3, b3, hv, f1, g1]

theorem dispatchRetrieval_fields (sel : Selector) (op : op_code_t) (keys : List Bytes)
    (pool : ConnectionPool) :
    (dispatchRetrieval sel op keys pool).m_conns =
        (dispatchLoop sel id (retrievalUnit op) keys pool).m_conns.map (fun conn =>
          if conn.m_counter > 0 then
            (conn.takeBuffer keywords.kCRLF 2).setParserMode .MODE_END_STATE
          else conn) ∧
      (dispatchRetrieval sel op keys pool).m_activeConns =
        pool.m_activeConns ++
          positiveFrom 0 (dispatchLoop sel id (retrievalUnit op) keys pool).m_conns ∧
      (dispatchRetrieval sel op keys pool).m_nActiveConn =
        pool.m_nActiveConn +
          ((positiveFrom 0 (dispatchLoop sel id (retrievalUnit op) keys pool).m_conns).length :
            Int) ∧
      (dispatchRetrieval sel op keys pool).m_nInvalidKey =
        pool.m_nInvalidKey + ((invalid id keys).length : Int) := by
  obtain ⟨f1, f2, -⟩ := dispatchLoop_frame sel id (retrievalUnit op) keys pool
  unfold dispatchRetrieval
  simp only [endStateLoop_conns, endStateLoop_active, f1, f2, dispatchLoop_nInvalidKey]
  exact ⟨trivial, trivial, trivial, trivial⟩

/-- C10: for each dispatch operation that takes keys, the invalid-key count grows
by the number of keys of the batch that fail `isValidKey`, and connections and
active list come out exactly as if those keys had not been in the batch: no
bytes, request key or counter increment are queued for them. -/
theorem C10_invalid_keys_counted_and_skipped (sel : Selector) (sop rop iop : op_code_t)
    (items : List StorageItem) (keys : List Bytes) (key : Bytes) (exptime : Int)
    (delta : Nat) (noreply : Bool) (pool : ConnectionPool) :
    InvalidSkipped pool (dispatchStorage sel sop items exptime noreply pool)
        (dispatchStorage sel sop (valid StorageItem.key items) exptime noreply pool)
        (invalid StorageItem.key items).length ∧
      InvalidSkipped pool (dispatchRetrieval sel rop keys pool)
        (dispatchRetrieval sel rop (valid id keys) pool) (invalid id keys).length ∧
      InvalidSkipped pool (dispatchDeletion sel keys noreply pool)
        (dispatchDeletion sel (valid id keys) noreply pool) (invalid id keys).length ∧
      InvalidSkipped pool (dispatchTouch sel keys exptime noreply pool)
        (dispatchTouch sel (valid id keys) exptime noreply pool) (invalid id keys).length ∧
      InvalidSkipped pool (dispatchIncrDecr sel iop key delta noreply pool)
        (if isValidKey key then dispatchIncrDecr sel iop key delta noreply pool else pool)
        (invalid id [key]).length := by
  refine ⟨?_, ?_, ?_, ?_, ?_⟩
  · exact activateCounting_invalidSkipped sel StorageItem.key _ items pool
  · obtain ⟨a1, a2, a3, a4⟩ := dispatchRetrieval_fields sel rop keys pool
    obtain ⟨b1, b2, b3, b4⟩ := dispatchRetrieval_fields sel rop (valid id keys) pool
    have hv := dispatchLoop_valid sel id (retrievalUnit rop) keys pool
    refine ⟨a4, ?_, ?_, ?_, ?_⟩
    · rw [b4, invalid_valid]
      simp
    · rw [a1, b1, hv]
    · rw [a2, b2, hv]
    · rw [a3, b3, hv]
  · exact activateCounting_invalidSkipped sel id _ keys pool
  · exact activateCounting_invalidSkipped sel id _ keys pool
  · unfold InvalidSkipped invalid
    by_cases hv : isValidKey key = true
    · have hn : (dispatchIncrDecr sel iop key delta noreply pool).m_nInvalidKey =
          pool.m_nInvalidKey := by
        cases hs : sel key with
        | none => rw [dispatchIncrDecr_unrouted sel iop key delta noreply pool hv hs]
        | some idx => rw [dispatchIncrDecr_routed sel iop key delta noreply pool idx hv hs]
      simp [hv, hn]
    · simp only [Bool.not_eq_true] at hv
      rw [dispatchIncrDecr_invalid sel iop key delta noreply pool hv]
      simp [hv]

/-! ## Dispatch: retrieval on a reset pool -/

theorem retrievalUnit_started (op : op_code_t) (key : Bytes) (conn : Connection)
    (h : 0 < conn.m_counter) :
    retrievalUnit op key conn =
      { conn with m_counter := conn.m_counter + 1,
                  m_sendBuf := conn.m_sendBuf ++ (ascii " " ++ key),
                  m_requestKeys := conn.m_requestKeys ++ [key] } := by
  have hne : ¬ conn.m_counter + 1 = 1 := by omega
  simp [retrievalUnit, hne, Connection.takeBuffer, Connection.addRequestKey, take_kSPACE,
    List.append_assoc]

theorem retrievalUnit_first (op : op_code_t) (key : Bytes) (conn : Connection)
    (hop : op = .GET_OP ∨ op = .GETS_OP) (h : conn.m_counter = 0) :
    retrievalUnit op key conn =
      { conn with m_counter := 1,
                  m_sendBuf := conn.m_sendBuf ++ (retrievalCommand op ++ (ascii " " ++ key)),
                  m_requestKeys := conn.m_requestKeys ++ [key] } := by
  rcases hop with hop | hop <;> subst hop <;>
    simp [retrievalUnit, h, Connection.takeBuffer, Connection.addRequestKey, take_kSPACE,
      take_kGET, take_kGETS, retrievalCommand, List.append_assoc]

theorem foldl_retrievalUnit_started (op : op_code_t) (l : List Bytes) (conn : Connection)
    (h : 0 < conn.m_counter) :
    l.foldl (fun conn key => retrievalUnit op key conn) conn =
      { conn with m_counter := conn.m_counter + l.length,
                  m_sendBuf := conn.m_sendBuf ++ l.flatMap (fun key => ascii " " ++ key),
                  m_requestKeys := conn.m_requestKeys ++ l } := by
  induction l generalizing conn with
  | nil => simp
  | cons key rest ih =>
    rw [List.foldl_cons, retrievalUnit_started op key conn h, ih _ (by simp; omega)]
    simp only [List.flatMap_cons, List.length_cons, List.append_assoc, List.singleton_append]
    congr 1
    push_cast
    ring

theorem foldl_retrievalUnit (op : op_code_t) (l : List Bytes) (conn : Connection)
    (hop : op = .GET_OP ∨ op = .GETS_OP) (h : conn.m_counter = 0) :
    l.foldl (fun conn key => retrievalUnit op key conn) conn =
      { conn with m_counter := l.length,
                  m_sendBuf := conn.m_sendBuf ++
                    (if l.isEmpty then [] else retrievalLine op l),
                  m_requestKeys := conn.m_requestKeys ++ l } := by
  cases l with
  | nil => simp [← h]
  | cons key rest =>
    rw [List.foldl_cons, retrievalUnit_first op key conn hop h,
      foldl_retrievalUnit_started op rest _ (by simp)]
    simp only [List.isEmpty_cons, Bool.false_eq_true, if_false, retrievalLine,
      List.flatMap_cons, List.length_cons, List.append_assoc, List.singleton_append]
    congr 1
    push_cast
    ring

theorem isValidKey_no_line_break (key : Bytes) (h : isValidKey key = true) :
    ∀ b ∈ key, b ≠ 0x0D ∧ b ≠ 0x0A := by
  intro b hb
  have := ((isValidKey_iff key).1 h).2 b hb
  exact ⟨this.2.1, this.2.2.1⟩

theorem retrievalLine_no_line_break (sel : Selector) (op : op_code_t) (j : Nat)
    (keys : List Bytes) :
    ∀ b ∈ retrievalLine op (routed sel id j keys), b ≠ 0x0D ∧ b ≠ 0x0A := by
  intro b hb
  unfold retrievalLine at hb
  rw [List.mem_append] at hb
  rcases hb with hb | hb
  · revert b
    cases op <;> decide
  · rw [List.mem_flatMap] at hb
    obtain ⟨key, hkey, hmem⟩ := hb
    rw [List.mem_append] at hmem
    rcases hmem with hmem | hmem
    · revert b
      decide
    · unfold routed at hkey
      rw [List.mem_filter] at hkey
      have hv : isValidKey key = true := by
        have := hkey.2
        simp only [id, Bool.and_eq_true] at this
        exact this.1
      exact isValidKey_no_line_break key hv b hmem

/-- C3: after `dispatchRetrieval` (get or gets) on a reset pool, a connection that
receives no valid key has nothing queued; a connection that receives at least
one has exactly the line `get k1 k2 ...` (or `gets ...`), its keys in input
order each preceded by one space, followed by one CRLF, with no CR or LF
before that CRLF; and it is in parser mode END_STATE. -/
theorem C3_dispatchRetrieval_line (sel : Selector) (op : op_code_t) (keys : List Bytes)
    (pool : ConnectionPool) (j : Nat) (hop : op = .GET_OP ∨ op = .GETS_OP)
    (hreset : pool.isReset = true) (hj : j < pool.m_conns.length) :
    ∃ conn, (dispatchRetrieval sel op keys pool).m_conns[j]? = some conn ∧
      (routed sel id j keys = [] → conn.m_sendBuf = []) ∧
      (routed sel id j keys ≠ [] →
        conn.m_sendBuf = retrievalLine op (routed sel id j keys) ++ ascii "\r\n" ∧
        (∀ b ∈ retrievalLine op (routed sel id j keys), b ≠ 0x0D ∧ b ≠ 0x0A) ∧
        conn.m_parserMode = some .MODE_END_STATE) := by
  have hget : pool.m_conns[j]? = some pool.m_conns[j] := List.getElem?_eq_getElem hj
  obtain ⟨-, -, -, hconns⟩ := (isReset_iff pool).1 hreset
  obtain ⟨h1, h2, h3, h4⟩ := hconns _ (List.getElem_mem hj)
  have hloop := dispatchLoop_getElem? sel id (retrievalUnit op) keys pool j
  rw [hget, Option.map_some', foldl_retrievalUnit op _ _ hop h1, h2, h3] at hloop
  simp only [List.nil_append] at hloop
  obtain ⟨hc, -, -, -⟩ := dispatchRetrieval_fields sel op keys pool
  have hfinal := congrArg (fun l => l[j]?) hc
  simp only [List.getElem?_map, hloop, Option.map_some'] at hfinal
  refine ⟨_, hfinal, ?_, ?_⟩
  · intro hr
    simp [hr]
  · intro hr
    cases hl : routed sel id j keys with
    | nil => exact absurd hl hr
    | cons key rest =>
      have hpos : (0 : Int) < (rest.length : Int) + 1 := by positivity
      refine ⟨?_, ?_, ?_⟩
      · simp [hpos, Connection.takeBuffer, Connection.setParserMode, take_kCRLF]
      · rw [← hl]
        exact retrievalLine_no_line_break sel op j keys
      · simp [hpos, Connection.takeBuffer, Connection.setParserMode]

/-- C3 (witness): a `gets` of four keys on the sample pool; connection 1 receives
`gets foo bar` CRLF. -/
theorem C3_dispatchRetrieval_line_witness :
    ∃ conn, (dispatchRetrieval Sample.sel .GETS_OP Sample.keys Sample.pool).m_conns[1]? =
        some conn ∧
      (routed Sample.sel id 1 Sample.keys = [] → conn.m_sendBuf = []) ∧
      (routed Sample.sel id 1 Sample.keys ≠ [] →
        conn.m_sendBuf =
          retrievalLine .GETS_OP (routed Sample.sel id 1 Sample.keys) ++ ascii "\r\n" ∧
        (∀ b ∈ retrievalLine .GETS_OP (routed Sample.sel id 1 Sample.keys),
          b ≠ 0x0D ∧ b ≠ 0x0A) ∧
        conn.m_parserMode = some .MODE_END_STATE) :=
  C3_dispatchRetrieval_line Sample.sel .GETS_OP Sample.keys Sample.pool 1
    (by decide) (by decide) (by decide)

/-! ## Dispatch: counter and request keys at the start of the wait phase -/

theorem broadcastLoop_getElem? (reconnect : Nat → Option Int) (cmd : Bytes) (idx : Nat)
    (conns : List Connection) (nActive : Int) (active : List Nat) (j : Nat) :
    (broadcastLoop reconnect cmd idx conns nActive active).1[j]? =
      (conns[j]?).map (fun conn => (broadcastUnit (reconnect (idx + j)) cmd conn).1) := by
  induction conns generalizing idx nActive active j with
  | nil => simp [broadcastLoop]
  | cons c rest ih =>
    cases j with
    | zero => simp [broadcastLoop]
    | succ j =>
      simp only [broadcastLoop, List.getElem?_cons_succ, ih]
      have : idx + 1 + j = idx + (j + 1) := by omega
      rw [this]

theorem broadcastUnit_counter (outcome : Option Int) (cmd : Bytes) (conn : Connection) :
    (broadcastUnit outcome cmd conn).1.m_requestKeys = conn.m_requestKeys ∧
      (broadcastUnit outcome cmd conn).1.m_counter =
        conn.m_counter + (if conn.alive || outcome.isSome then 1 else 0) := by
  unfold broadcastUnit
  cases ha : conn.alive <;> cases outcome <;>
    simp [Connection.tryReconnect, Connection.takeBuffer, Connection.setParserMode]

theorem counterIsReplies_of_dispatch {α : Type} (sel : Selector) (keyOf : α → Bytes)
    (unit : α → Connection → Connection) (wire : α → Bytes) (noreply : Bool)
    (hunit : ∀ it conn, unit it conn =
      { conn with m_counter := conn.m_counter + 1, m_sendBuf := conn.m_sendBuf ++ wire it,
                  m_requestKeys := conn.m_requestKeys ++ replyKeys noreply (keyOf it) })
    (items : List α) (pool : ConnectionPool) (hreset : pool.isReset = true) (j : Nat)
    (hj : j < pool.m_conns.length) :
    CounterIsReplies (replyBearing noreply (routed sel keyOf j items).length) j
      (activateCounting (dispatchLoop sel keyOf unit items pool)) := by
  obtain ⟨conn0, -, h, -⟩ :=
    counting_dispatch sel keyOf unit wire noreply hunit items pool hreset j hj
  refine ⟨_, h, ?_, ?_⟩ <;> cases noreply <;> simp [replyBearing]

/-- C9 (as stated, refuted): `version` broadcast on a reset pool of one live
connection leaves that connection with counter 1 and no request key, so its
counter is not the number of its request keys. -/
theorem C9_broadcast_counter_differs :
    Sample.pool1.isReset = true ∧
      ¬ ∃ units, CounterIsReplies units 0
          (broadcastCommand (fun _ => none) (ascii "version") Sample.pool1) := by
  refine ⟨by decide, ?_⟩
  rintro ⟨units, conn, h1, h2, -⟩
  have hc : (broadcastCommand (fun _ => none) (ascii "version") Sample.pool1).m_conns[0]? =
      some { Sample.conn with m_counter := 1, m_sendBuf := ascii "version\r\n",
                              m_parserMode := some .MODE_END_STATE } := by decide
  rw [hc] at h1
  cases h1
  simp [Sample.conn] at h2

/-- C9 (amended): for every dispatch operation that takes keys (storage,
retrieval, deletion, touch, incr/decr) on a reset pool, when the wait phase
begins the counter of each connection equals the number of request keys queued
on it, which is the number of reply-bearing units queued on it; for broadcast
no request key is queued and the counter is 1 on a connection the command was
queued on and 0 on the others. -/
theorem C9_counter_at_wait_start (sel : Selector) (sop rop iop : op_code_t)
    (items : List StorageItem) (keys : List Bytes) (key : Bytes) (exptime : Int)
    (delta : Nat) (noreply : Bool) (reconnect : Nat → Option Int) (cmd : Bytes)
    (pool : ConnectionPool) (j : Nat)
    (hsop : isStorageOp sop = true) (hrop : rop = .GET_OP ∨ rop = .GETS_OP)
    (hiop : iop = .INCR_OP ∨ iop = .DECR_OP)
    (hreset : pool.isReset = true) (hj : j < pool.m_conns.length) :
    CounterIsReplies (replyBearing noreply (routed sel StorageItem.key j items).length) j
        (dispatchStorage sel sop items exptime noreply pool) ∧
      CounterIsReplies (routed sel id j keys).length j (dispatchRetrieval sel rop keys pool) ∧
      CounterIsReplies (replyBearing noreply (routed sel id j keys).length) j
        (dispatchDeletion sel keys noreply pool) ∧
      CounterIsReplies (replyBearing noreply (routed sel id j keys).length) j
        (dispatchTouch sel keys exptime noreply pool) ∧
      CounterIsReplies (replyBearing noreply (routed sel id j [key]).length) j
        (dispatchIncrDecr sel iop key delta noreply pool) ∧
      ∃ conn0 conn, pool.m_conns[j]? = some conn0 ∧
        (broadcastCommand reconnect cmd pool).m_conns[j]? = some conn ∧
        conn.m_requestKeys = [] ∧
        conn.m_counter = if conn0.alive || (reconnect j).isSome then 1 else 0 := by
  have hget : pool.m_conns[j]? = some pool.m_conns[j] := List.getElem?_eq_getElem hj
  obtain ⟨-, -, hact, hconns⟩ := (isReset_iff pool).1 hreset
  obtain ⟨h1, h2, h3, h4⟩ := hconns _ (List.getElem_mem hj)
  refine ⟨?_, ?_, ?_, ?_, ?_, ?_⟩
  · exact counterIsReplies_of_dispatch sel StorageItem.key (storageUnit sop exptime noreply)
      (storageWire sop exptime noreply) noreply (storageUnit_eq sop exptime noreply hsop)
      items pool hreset j hj
  · have hloop := dispatchLoop_getElem? sel id (retrievalUnit rop) keys pool j
    rw [hget, Option.map_some', foldl_retrievalUnit rop _ _ hrop h1, h2, h3] at hloop
    simp only [List.nil_append] at hloop
    obtain ⟨hc, -, -, -⟩ := dispatchRetrieval_fields sel rop keys pool
    have hfinal := congrArg (fun l => l[j]?) hc
    simp only [List.getElem?_map, hloop, Option.map_some'] at hfinal
    refine ⟨_, hfinal, ?_, ?_⟩
    · split <;> simp [Connection.takeBuffer, Connection.setParserMode]
    · split <;> simp [Connection.takeBuffer, Connection.setParserMode]
  · have h := counterIsReplies_of_dispatch sel id (deletionUnit noreply)
      (deletionWire noreply) noreply (deletionUnit_eq noreply) keys pool hreset j hj
    simpa [dispatchDeletion] using h
  · have h := counterIsReplies_of_dispatch sel id (touchUnit exptime noreply)
      (touchWire exptime noreply) noreply (touchUnit_eq exptime noreply) keys pool hreset j hj
    simpa [dispatchTouch] using h
  · unfold routed CounterIsReplies
    by_cases hv : isValidKey key = true
    · cases hs : sel key with
      | none =>
        rw [dispatchIncrDecr_unrouted sel iop key delta noreply pool hv hs]
        refine ⟨_, hget, ?_⟩
        simp [h1, h3, hs, hv, replyBearing]
      | some idx =>
        rw [dispatchIncrDecr_routed sel iop key delta noreply pool idx hv hs]
        by_cases hidx : idx = j
        · subst hidx
          refine ⟨incrDecrUnit iop delta noreply key pool.m_conns[idx], ?_, ?_⟩
          · simp only [updateConn, getElem?_updateAt, if_true, hget, Option.map_some']
          · rw [incrDecrUnit_eq iop delta noreply key hiop]
            cases noreply <;> simp [h3, hs, hv, replyKeys, replyBearing]
        · refine ⟨pool.m_conns[j], ?_, ?_⟩
          · simp only [updateConn, getElem?_updateAt, hidx, if_false, hget]
          · simp [h1, h3, hs, hv, hidx, replyBearing]
    · simp only [Bool.not_eq_true] at hv
      rw [dispatchIncrDecr_invalid sel iop key delta noreply pool hv]
      refine ⟨_, hget, ?_⟩
      simp [h1, h3, hv, replyBearing]
  · refine ⟨pool.m_conns[j], (broadcastUnit (reconnect j) cmd pool.m_conns[j]).1, hget,
      ?_, ?_, ?_⟩
    · unfold broadcastCommand
      simp only [broadcastLoop_getElem?, hget, Option.map_some', Nat.zero_add]
    · rw [(broadcastUnit_counter _ _ _).1, h3]
    · rw [(broadcastUnit_counter _ _ _).2, h1]
      simp

/-- C9 (amended, witness): the sample pool, observed on connection 1. -/
theorem C9_counter_at_wait_start_witness :
    CounterIsReplies (replyBearing false (routed Sample.sel StorageItem.key 1 Sample.items).length)
        1 (dispatchStorage Sample.sel .SET_OP Sample.items 0 false Sample.pool) ∧
      CounterIsReplies (routed Sample.sel id 1 Sample.keys).length 1
        (dispatchRetrieval Sample.sel .GET_OP Sample.keys Sample.pool) ∧
      CounterIsReplies (replyBearing false (routed Sample.sel id 1 Sample.keys).length) 1
        (dispatchDeletion Sample.sel Sample.keys false Sample.pool) ∧
      CounterIsReplies (replyBearing false (routed Sample.sel id 1 Sample.keys).length) 1
        (dispatchTouch Sample.sel Sample.keys 0 false Sample.pool) ∧
      CounterIsReplies (replyBearing false (routed Sample.sel id 1 [ascii "foo"]).length) 1
        (dispatchIncrDecr Sample.sel .INCR_OP (ascii "foo") 1 false Sample.pool) ∧
      ∃ conn0 conn, Sample.pool.m_conns[1]? = some conn0 ∧
        (broadcastCommand (fun _ => none) (ascii "version") Sample.pool).m_conns[1]? =
          some conn ∧
        conn.m_requestKeys = [] ∧
        conn.m_counter = if conn0.alive || ((fun _ => none : Nat → Option Int) 1).isSome
          then 1 else 0 :=
  C9_counter_at_wait_start Sample.sel .SET_OP .GET_OP .INCR_OP Sample.items Sample.keys
    (ascii "foo") 0 1 false (fun _ => none) (ascii "version") Sample.pool 1
    (by decide) (by decide) (by decide) (by decide) (by decide)

/-! ## Wait loop: event flags -/

theorem and_two_pow_ne_zero (e i : Nat) : e &&& 2 ^ i ≠ 0 ↔ e.testBit i = true := by
  constructor
  · intro h
    by_contra hb
    apply h
    apply Nat.eq_of_testBit_eq
    intro j
    simp only [Nat.testBit_and, Nat.testBit_two_pow, Nat.zero_testBit]
    by_cases hij : i = j
    · subst hij
      simp at hb
      simp [hb]
    · simp [hij]
  · intro hb h
    have := congrArg (fun x => x.testBit i) h
    simp [hb] at this

theorem and_POLLOUT_ne_zero (e : Nat) : e &&& POLLOUT ≠ 0 ↔ e.testBit 2 = true := by
  have h := and_two_pow_ne_zero e 2
  simpa [POLLOUT] using h

theorem and_POLLIN_ne_zero (e : Nat) : e &&& POLLIN ≠ 0 ↔ e.testBit 0 = true := by
  have h := and_two_pow_ne_zero e 0
  simpa only [POLLIN, pow_zero] using h

theorem or_eq_zero_left (a b : Nat) (h : a ||| b = 0) : a = 0 := by
  apply Nat.eq_of_testBit_eq
  intro j
  have := congrArg (fun x => x.testBit j) h
  simp only [Nat.testBit_or, Nat.zero_testBit, Bool.or_eq_false_iff] at this
  simpa using this.1

theorem or_eq_zero_right (a b : Nat) (h : a ||| b = 0) : b = 0 := by
  apply Nat.eq_of_testBit_eq
  intro j
  have := congrArg (fun x => x.testBit j) h
  simp only [Nat.testBit_or, Nat.zero_testBit, Bool.or_eq_false_iff] at this
  simpa using this.2

theorem wants_of_POLLOUT (e : Nat) (h : e &&& POLLOUT ≠ 0) :
    e &&& (POLLOUT ||| POLLIN) ≠ 0 := by
  intro h0
  rw [Nat.and_or_distrib_left] at h0
  exact h (or_eq_zero_left _ _ h0)

theorem wants_of_POLLIN (e : Nat) (h : e &&& POLLIN ≠ 0) :
    e &&& (POLLOUT ||| POLLIN) ≠ 0 := by
  intro h0
  rw [Nat.and_or_distrib_left] at h0
  exact h (or_eq_zero_right _ _ h0)

theorem dead_events_want_nothing :
    (bitNot16 POLLOUT &&& bitNot16 POLLIN) &&& (POLLOUT ||| POLLIN) = 0 := by decide

theorem POLLOUT_keeps_after_or (e : Nat) (h : e &&& POLLOUT ≠ 0) :
    (e ||| POLLIN) &&& POLLOUT ≠ 0 := by
  rw [and_POLLOUT_ne_zero] at h ⊢
  simp [h]

theorem POLLIN_after_or (e : Nat) : (e ||| POLLIN) &&& POLLIN ≠ 0 := by
  rw [and_POLLIN_ne_zero]
  simp [POLLIN]

theorem POLLIN_after_send_done (e : Nat) :
    ((e ||| POLLIN) &&& bitNot16 POLLOUT) &&& POLLIN ≠ 0 := by
  rw [and_POLLIN_ne_zero]
  have : bitNot16 POLLOUT = 0xFFFB := by decide
  simp [POLLIN, this]

theorem POLLOUT_keeps_after_clear_in (e : Nat) (h : e &&& POLLOUT ≠ 0) :
    (e &&& bitNot16 POLLIN) &&& POLLOUT ≠ 0 := by
  rw [and_POLLOUT_ne_zero] at h ⊢
  have h2 : bitNot16 POLLIN = 0xFFFE := by decide
  have h3 : Nat.testBit 0xFFFE 2 = true := by decide
  simp [h, h2, h3]

/-! ## Wait loop: the events follow the log -/

theorem eventsTrack_log (st : WaitState) (call : IOCall) (hcall : ∀ k, call ≠ IOCall.send k 0)
    (h : EventsTrack st) : EventsTrack { st with log := st.log ++ [call] } := by
  intro k ci pfd hk hp hdead
  have hdead' : ∀ delay, IOCall.markDead ci delay ∉ st.log := by
    intro d hd
    exact hdead d (List.mem_append_left _ hd)
  obtain ⟨h1, h2⟩ := h k ci pfd hk hp hdead'
  constructor
  · intro hs
    exact h1 (fun hm => hs (List.mem_append_left _ hm))
  · intro hs hproc
    have hs' : IOCall.send k 0 ∈ st.log := by
      rcases List.mem_append.1 hs with hm | hm
      · exact hm
      · simp only [List.mem_singleton] at hm
        exact absurd hm.symm (hcall k)
    exact h2 hs' (fun hm => hproc (List.mem_append_left _ hm))

theorem eventsTrack_markDeadConn (st : WaitState) (ci0 k0 : Nat) (delay : Int)
    (hk0 : st.pool.m_activeConns[k0]? = some ci0) (h : EventsTrack st) :
    EventsTrack (markDeadConn ci0 k0 delay st) := by
  intro k ci pfd hk hp hdead
  have hci : ci ≠ ci0 := by
    intro hc
    subst hc
    exact hdead delay (by simp [markDeadConn])
  have hkk : k0 ≠ k := by
    intro hc
    subst hc
    simp only [markDeadConn] at hk
    rw [hk0] at hk
    exact hci (Option.some.inj hk).symm
  have hp' : st.pollfds[k]? = some pfd := by
    simpa [markDeadConn, getElem?_updateAt, hkk] using hp
  have hdead' : ∀ d, IOCall.markDead ci d ∉ st.log := by
    intro d hd
    exact hdead d (by simp [markDeadConn, hd])
  obtain ⟨h1, h2⟩ := h k ci pfd hk hp' hdead'
  constructor
  · intro hs
    exact h1 (fun hm => hs (by simp [markDeadConn, hm]))
  · intro hs hproc
    have hs' : IOCall.send k 0 ∈ st.log := by
      simpa [markDeadConn] using hs
    exact h2 hs' (fun hm => hproc (by simp [markDeadConn, hm]))

theorem eventsTrack_orIn (st : WaitState) (k0 : Nat) (h : EventsTrack st) :
    EventsTrack (setEvents (fun e => e ||| POLLIN) k0 st) := by
  intro k ci pfd hk hp hdead
  simp only [setEvents, getElem?_updateAt] at hp
  by_cases hkk : k0 = k
  · subst hkk
    simp only [if_true] at hp
    cases hq : st.pollfds[k0]? with
    | none => simp [hq] at hp
    | some pfd0 =>
      simp only [hq, Option.map_some', Option.some.injEq] at hp
      subst hp
      obtain ⟨h1, h2⟩ := h k0 ci pfd0 hk hq hdead
      exact ⟨fun hs => POLLOUT_keeps_after_or _ (h1 hs), fun _ _ => POLLIN_after_or _⟩
  · simp only [hkk, if_false] at hp
    exact h k ci pfd hk hp hdead

theorem eventsTrack_sendDone (st : WaitState) (k0 : Nat) (h : EventsTrack st) :
    EventsTrack
      (setEvents (fun e => e &&& bitNot16 POLLOUT) k0
        (setEvents (fun e => e ||| POLLIN) k0
          { st with log := st.log ++ [IOCall.send k0 0] })) := by
  intro k ci pfd hk hp hdead
  simp only [setEvents, getElem?_updateAt] at hp hk hdead ⊢
  by_cases hkk : k0 = k
  · subst hkk
    simp only [if_true] at hp
    cases hq : st.pollfds[k0]? with
    | none => simp [hq] at hp
    | some pfd0 =>
      simp only [hq, Option.map_some', Option.some.injEq] at hp
      subst hp
      constructor
      · intro hs
        exact absurd (by simp) hs
      · intro _ _
        exact POLLIN_after_send_done _
  · simp only [hkk, if_false] at hp
    have hdead' : ∀ d, IOCall.markDead ci d ∉ st.log := by
      intro d hd
      exact hdead d (List.mem_append_left _ hd)
    obtain ⟨h1, h2⟩ := h k ci pfd hk hp hdead'
    constructor
    · intro hs
      exact h1 (fun hm => hs (List.mem_append_left _ hm))
    · intro hs hproc
      have hs' : IOCall.send k 0 ∈ st.log := by
        rcases List.mem_append.1 hs with hm | hm
        · exact hm
        · simp only [List.mem_singleton, IOCall.send.injEq] at hm
          exact absurd hm.1.symm hkk
      exact h2 hs' (fun hm => hproc (List.mem_append_left _ hm))

theorem eventsTrack_processOK (st : WaitState) (k0 : Nat) (h : EventsTrack st) :
    EventsTrack
      (setEvents (fun e => e &&& bitNot16 POLLIN) k0
        { st with log := st.log ++ [IOCall.process k0 .RET_OK] }) := by
  intro k ci pfd hk hp hdead
  simp only [setEvents, getElem?_updateAt] at hp hk hdead ⊢
  have hdead' : ∀ d, IOCall.markDead ci d ∉ st.log := by
    intro d hd
    exact hdead d (List.mem_append_left _ hd)
  have hsend : IOCall.send k 0 ∈ st.log ++ [IOCall.process k0 .RET_OK] →
      IOCall.send k 0 ∈ st.log := by
    intro hs
    rcases List.mem_append.1 hs with hm | hm
    · exact hm
    · simp at hm
  by_cases hkk : k0 = k
  · subst hkk
    simp only [if_true] at hp
    cases hq : st.pollfds[k0]? with
    | none => simp [hq] at hp
    | some pfd0 =>
      simp only [hq, Option.map_some', Option.some.injEq] at hp
      subst hp
      obtain ⟨h1, -⟩ := h k0 ci pfd0 hk hq hdead'
      constructor
      · intro hs
        exact POLLOUT_keeps_after_clear_in _ (h1 (fun hm => hs (List.mem_append_left _ hm)))
      · intro _ hproc
        exact absurd (by simp) hproc
  · simp only [hkk, if_false] at hp
    obtain ⟨h1, h2⟩ := h k ci pfd hk hp hdead'
    constructor
    · intro hs
      exact h1 (fun hm => hs (List.mem_append_left _ hm))
    · intro hs hproc
      exact h2 (hsend hs) (fun hm => hproc (List.mem_append_left _ hm))

theorem eventsTrack_congr (st st' : WaitState)
    (ha : st'.pool.m_activeConns = st.pool.m_activeConns) (hp : st'.pollfds = st.pollfds)
    (hl : st'.log = st.log) (h : EventsTrack st) : EventsTrack st' := by
  unfold EventsTrack at h ⊢
  rw [ha, hp, hl]
  exact h

theorem eventsTrack_sendBlock (st : WaitState) (ci k : Nat) (io : FdScript)
    (hk : st.pool.m_activeConns[k]? = some ci) (h : EventsTrack st) :
    EventsTrack (sendBlock ci k io st).1 := by
  unfold sendBlock
  by_cases hout : io.revents &&& POLLOUT ≠ 0
  · rw [if_pos hout]
    have hlog : ∀ n : Int, n ≠ 0 →
        EventsTrack { st with log := st.log ++ [IOCall.send k n] } := by
      intro n hn
      apply eventsTrack_log st _ _ h
      intro k' hc
      simp only [IOCall.send.injEq] at hc
      exact hn hc.2
    by_cases hm1 : io.nToSend = -1
    · rw [if_pos hm1]
      have h1 := eventsTrack_markDeadConn
        { st with log := st.log ++ [IOCall.send k io.nToSend] } ci k 0 hk
        (hlog _ (by rw [hm1]; decide))
      exact eventsTrack_congr _ _ rfl rfl rfl h1
    · rw [if_neg hm1]
      by_cases h0 : io.nToSend = 0
      · rw [if_pos h0]
        have h1 := eventsTrack_sendDone st k h
        rw [h0]
        dsimp only
        split
        · exact eventsTrack_congr _ _ rfl rfl rfl h1
        · exact h1
      · rw [if_neg h0]
        exact eventsTrack_orIn _ k (hlog _ h0)
  · rw [if_neg hout]
    exact h

theorem eventsTrack_recvBlock (st : WaitState) (retry : Int) (ci k : Nat) (io : FdScript)
    (hk : st.pool.m_activeConns[k]? = some ci) (h : EventsTrack st) :
    EventsTrack (recvBlock retry ci k io st) := by
  unfold recvBlock
  by_cases hin : io.revents &&& POLLIN ≠ 0
  · rw [if_pos hin]
    have hrecv : EventsTrack { st with log := st.log ++ [IOCall.recv k io.nRecv] } :=
      eventsTrack_log st _ (by intro k' hc; cases hc) h
    by_cases hr : io.nRecv = -1 ∨ io.nRecv = 0
    · rw [if_pos hr]
      have h1 := eventsTrack_markDeadConn
        { st with log := st.log ++ [IOCall.recv k io.nRecv] } ci k 0 hk hrecv
      exact eventsTrack_congr _ _ rfl rfl rfl h1
    · rw [if_neg hr]
      have hproc : EventsTrack
          { st with log := st.log ++ [IOCall.recv k io.nRecv] ++ [IOCall.process k io.err] } :=
        eventsTrack_log { st with log := st.log ++ [IOCall.recv k io.nRecv] } _
          (by intro k' hc; cases hc) hrecv
      cases herr : io.err with
      | RET_OK =>
        have h1 := eventsTrack_processOK
          { st with log := st.log ++ [IOCall.recv k io.nRecv] } k hrecv
        exact eventsTrack_congr _ _ rfl rfl rfl h1
      | RET_PROGRAMMING_ERR =>
        rw [herr] at hproc
        have h1 := eventsTrack_markDeadConn
          { st with log := st.log ++ [IOCall.recv k io.nRecv] ++
              [IOCall.process k .RET_PROGRAMMING_ERR] } ci k retry hk hproc
        exact eventsTrack_congr _ _ rfl rfl rfl h1
      | RET_MC_SERVER_ERR =>
        rw [herr] at hproc
        have h1 := eventsTrack_markDeadConn
          { st with log := st.log ++ [IOCall.recv k io.nRecv] ++
              [IOCall.process k .RET_MC_SERVER_ERR] } ci k 0 hk hproc
        exact eventsTrack_congr _ _ rfl rfl rfl h1
      | _ =>
        rw [herr] at hproc
        exact hproc
  · rw [if_neg hin]
    exact h

theorem sendBlock_shape (st : WaitState) (ci k : Nat) (io : FdScript) :
    SameShape st (sendBlock ci k io st).1 := by
  unfold sendBlock SameShape
  split
  · split
    · simp [decrActive, markDeadConn, updateConn, length_updateAt]
    · split
      · dsimp only
        split <;> simp [decrActive, setEvents, length_updateAt]
      · simp [setEvents, length_updateAt]
  · simp

theorem recvBlock_shape (st : WaitState) (retry : Int) (ci k : Nat) (io : FdScript) :
    SameShape st (recvBlock retry ci k io st) := by
  unfold recvBlock SameShape
  split
  · split
    · simp [decrActive, markDeadConn, updateConn, length_updateAt]
    · split <;>
        simp [decrActive, markDeadConn, setEvents, updateConn, length_updateAt]
  · simp

theorem sameShape_trans (a b c : WaitState) (h1 : SameShape a b) (h2 : SameShape b c) :
    SameShape a c :=
  ⟨h2.1.trans h1.1, h2.2.1.trans h1.2.1, h2.2.2.trans h1.2.2⟩

theorem processFd_shape (retry : Int) (io : FdScript) (k : Nat) (st : WaitState) :
    SameShape st (processFd retry io k st) := by
  unfold processFd
  split
  · exact ⟨rfl, rfl, rfl⟩
  · split
    · simp [SameShape, decrActive, markDeadConn, updateConn, length_updateAt]
    · dsimp only
      split
      · exact sameShape_trans _ _ _ (sendBlock_shape st _ k io) (recvBlock_shape _ retry _ k io)
      · exact sendBlock_shape st _ k io

theorem eventsTrack_processFd (retry : Int) (io : FdScript) (k : Nat) (st : WaitState)
    (h : EventsTrack st) : EventsTrack (processFd retry io k st) := by
  unfold processFd
  split
  · exact h
  · rename_i ci hk
    split
    · have h1 := eventsTrack_markDeadConn st ci k retry hk h
      exact eventsTrack_congr _ _ rfl rfl rfl h1
    · have hs := eventsTrack_sendBlock st ci k io hk h
      dsimp only
      split
      · apply eventsTrack_recvBlock _ retry ci k io _ hs
        rw [(sendBlock_shape st ci k io).1]
        exact hk
      · exact hs

theorem processFds_inv (retry : Int) (round : PollScript) (n_fds : Nat) (st : WaitState)
    (h : EventsTrack st) :
    EventsTrack (processFds retry round n_fds st) ∧
      SameShape st (processFds retry round n_fds st) := by
  unfold processFds
  generalize List.range n_fds = l
  induction l generalizing st with
  | nil => exact ⟨h, rfl, rfl, rfl⟩
  | cons k rest ih =>
    simp only [List.foldl_cons]
    obtain ⟨h1, h2⟩ := ih _ (eventsTrack_processFd retry (round.fdAt k) k st h)
    exact ⟨h1, sameShape_trans _ _ _ (processFd_shape retry (round.fdAt k) k st) h2⟩

/-! ## Wait loop: poll-level failures -/

theorem waitLoop_cons_ready (retry : Int) (n_fds : Nat) (round : PollScript)
    (rest : List PollScript) (st : WaitState) (hn : st.pool.m_nActiveConn ≠ 0)
    (h1 : round.rv ≠ -1) (h2 : round.rv ≠ 0) :
    waitLoop retry n_fds (round :: rest) st =
      waitLoop retry n_fds rest
        (processFds retry round n_fds { st with log := st.log ++ [IOCall.poll round.rv] }) := by
  rw [waitLoop]
  simp [hn, h1, h2]

theorem waitLoop_blocked (retry : Int) (n_fds : Nat) (pre rest : List PollScript)
    (st0 st : WaitState) (h0 : EventsTrack st0)
    (hpre : waitLoop retry n_fds pre st0 = .blocked st) :
    waitLoop retry n_fds (pre ++ rest) st0 = waitLoop retry n_fds rest st ∧
      EventsTrack st ∧ SameShape st0 st ∧ st.pool.m_nActiveConn ≠ 0 := by
  induction pre generalizing st0 with
  | nil =>
    rw [waitLoop] at hpre
    by_cases hn : st0.pool.m_nActiveConn = 0
    · simp [hn] at hpre
    · simp only [hn, if_false, WaitOutcome.blocked.injEq] at hpre
      subst hpre
      exact ⟨rfl, h0, ⟨rfl, rfl, rfl⟩, hn⟩
  | cons round pre ih =>
    simp only [List.cons_append]
    by_cases hn : st0.pool.m_nActiveConn = 0
    · rw [waitLoop] at hpre
      simp [hn] at hpre
    · by_cases h1 : round.rv = -1
      · rw [waitLoop] at hpre
        simp [hn, h1] at hpre
      · by_cases h2 : round.rv = 0
        · rw [waitLoop] at hpre
          simp [hn, h2] at hpre
        · rw [waitLoop_cons_ready retry n_fds round _ st0 hn h1 h2] at hpre ⊢
          have hlog : EventsTrack { st0 with log := st0.log ++ [IOCall.poll round.rv] } :=
            eventsTrack_log st0 _ (by intro k hc; cases hc) h0
          obtain ⟨hi, hs⟩ := processFds_inv retry round n_fds _ hlog
          obtain ⟨r1, r2, r3, r4⟩ := ih _ hi hpre
          exact ⟨r1, r2, sameShape_trans _ _ _ hs r3, r4⟩

theorem deadWith_updateConn (delay : Int) (conns : List Connection) (ci cj : Nat)
    (h : deadWith delay conns ci) :
    deadWith delay (updateConn (fun conn => conn.markDead delay) cj conns) ci := by
  obtain ⟨conn, hc, ha, hd⟩ := h
  unfold deadWith updateConn
  rw [getElem?_updateAt]
  by_cases hj : cj = ci
  · subst hj
    exact ⟨conn.markDead delay, by simp [hc], rfl, rfl⟩
  · exact ⟨conn, by simp [hj, hc], ha, hd⟩

theorem markDeadAllLoop_keeps (delay : Int) (active : List Nat) (pollfds : List pollfd_t)
    (conns : List Connection) (log : List IOCall) (ci : Nat) (h : deadWith delay conns ci) :
    deadWith delay (markDeadAllLoop delay active pollfds conns log).1 ci := by
  induction active generalizing pollfds conns log with
  | nil => simpa [markDeadAllLoop] using h
  | cons cj active ih =>
    cases pollfds with
    | nil => simpa [markDeadAllLoop] using h
    | cons pfd pollfds =>
      unfold markDeadAllLoop
      split
      · exact ih _ _ _ (deadWith_updateConn delay conns ci cj h)
      · exact ih _ _ _ h

theorem markDeadAllLoop_dead (delay : Int) (active : List Nat) (pollfds : List pollfd_t)
    (conns : List Connection) (log : List IOCall) (k ci : Nat) (pfd : pollfd_t)
    (hk : active[k]? = some ci) (hp : pollfds[k]? = some pfd)
    (hw : pfd.events &&& (POLLOUT ||| POLLIN) ≠ 0) (hci : ci < conns.length) :
    deadWith delay (markDeadAllLoop delay active pollfds conns log).1 ci := by
  induction active generalizing pollfds conns log k with
  | nil => simp at hk
  | cons cj active ih =>
    cases pollfds with
    | nil => simp at hp
    | cons pfd0 pollfds =>
      unfold markDeadAllLoop
      cases k with
      | zero =>
        simp only [List.getElem?_cons_zero, Option.some.injEq] at hk hp
        subst hk
        subst hp
        rw [if_pos hw]
        apply markDeadAllLoop_keeps
        refine ⟨(conns[cj]).markDead delay, ?_, rfl, rfl⟩
        simp [updateConn, getElem?_updateAt, List.getElem?_eq_getElem hci]
      | succ k =>
        simp only [List.getElem?_cons_succ] at hk hp
        split
        · exact ih _ _ _ k hk hp (by simpa [updateConn, length_updateAt] using hci)
        · exact ih _ _ _ k hk hp hci

theorem eventsTrack_waitInit (pool : ConnectionPool) : EventsTrack (waitInit pool) := by
  intro k ci pfd _ hp _
  simp only [waitInit, List.getElem?_map] at hp ⊢
  cases hq : pool.m_activeConns[k]? with
  | none => simp [hq] at hp
  | some cj =>
    simp only [hq, Option.map_some', Option.some.injEq] at hp
    subst hp
    refine ⟨fun _ => ?_, fun hs => by simp at hs⟩
    show POLLOUT &&& POLLOUT ≠ 0
    decide

/-- A poll-level failure after the ready rounds `pre`: the wait returns `code` at
once and every descriptor still awaited has its connection dead with delay 0. -/
theorem waitPoll_poll_failure (retry : Int) (pre post : List PollScript) (round : PollScript)
    (pool : ConnectionPool) (st : WaitState) (code : err_code_t)
    (hvalid : ∀ ci ∈ pool.m_activeConns, ci < pool.m_conns.length)
    (hpre : waitPoll retry pre pool = .blocked st)
    (hrv : (round.rv = -1 ∧ code = .RET_POLL_ERR) ∨
      (round.rv = 0 ∧ code = .RET_POLL_TIMEOUT_ERR)) :
    waitPoll retry (pre ++ round :: post) pool =
        .returned code
          { markDeadAll 0 { st with log := st.log ++ [IOCall.poll round.rv] } with
            ret_code := code } ∧
      ∀ fd_idx ci, st.pool.m_activeConns[fd_idx]? = some ci → awaited st.log fd_idx ci →
        deadWith 0
          (markDeadAll 0 { st with log := st.log ++ [IOCall.poll round.rv] }).pool.m_conns
          ci := by
  unfold waitPoll at hpre ⊢
  by_cases hn : pool.m_nActiveConn = 0
  · rw [if_pos hn] at hpre
    split at hpre <;> cases hpre
  · rw [if_neg hn] at hpre ⊢
    by_cases hlen : pool.m_nActiveConn ≠ (pool.m_activeConns.length : Int)
    · rw [if_pos hlen] at hpre
      cases hpre
    · rw [if_neg hlen] at hpre ⊢
      obtain ⟨happ, htrack, hshape, hact⟩ :=
        waitLoop_blocked retry _ pre (round :: post) _ st (eventsTrack_waitInit pool) hpre
      constructor
      · rw [happ, waitLoop]
        rcases hrv with ⟨hr, hc⟩ | ⟨hr, hc⟩
        · subst hc
          simp [hr, hact]
        · subst hc
          simp [hr, hact]
      · intro fd_idx ci hk haw
        have hk' : pool.m_activeConns[fd_idx]? = some ci := by
          have := hk
          rw [hshape.1] at this
          exact this
        obtain ⟨hl, he⟩ := List.getElem?_eq_some_iff.1 hk'
        have hlt : fd_idx < st.pollfds.length := by
          rw [hshape.2.2]
          simp only [waitInit, List.length_map]
          exact hl
        have hp : st.pollfds[fd_idx]? = some st.pollfds[fd_idx] := List.getElem?_eq_getElem hlt
        obtain ⟨h1, h2⟩ := htrack fd_idx ci _ hk hp haw.2
        have hw : st.pollfds[fd_idx].events &&& (POLLOUT ||| POLLIN) ≠ 0 := by
          by_cases hs : IOCall.send fd_idx 0 ∈ st.log
          · rcases haw.1 with hns | hnp
            · exact absurd hs hns
            · exact wants_of_POLLIN _ (h2 hs hnp)
          · exact wants_of_POLLOUT _ (h1 hs)
        have hci : ci < st.pool.m_conns.length := by
          rw [hshape.2.1]
          apply hvalid
          rw [← he]
          exact List.getElem_mem hl
        unfold markDeadAll
        exact markDeadAllLoop_dead 0 _ _ _ _ fd_idx ci _ hk hp hw hci

/-- C4: entered with `m_nActiveConn = 0`, `waitPoll` returns at once, with
`RET_INVALID_KEY_ERR` when an invalid key was counted and `RET_MC_SERVER_ERR`
otherwise; it makes no call (empty log) and leaves the pool as it was,
whatever the script holds. -/
theorem C4_waitPoll_no_active (retry : Int) (script : List PollScript) (pool : ConnectionPool)
    (h : pool.m_nActiveConn = 0) :
    waitPoll retry script pool =
      .returned
        (if pool.m_nInvalidKey > 0 then .RET_INVALID_KEY_ERR else .RET_MC_SERVER_ERR)
        { pool := pool, pollfds := [], log := [],
          ret_code :=
            if pool.m_nInvalidKey > 0 then .RET_INVALID_KEY_ERR else .RET_MC_SERVER_ERR } := by
  unfold waitPoll
  rw [if_pos h]
  split <;> rfl

/-- C4 (witness): after a `get` whose only key is invalid nothing is active and
one invalid key is counted. -/
theorem C4_waitPoll_no_active_witness :
    Sample.invalidOnlyPool.m_nActiveConn = 0 ∧
      waitPoll 1000 [Sample.readyRound] Sample.invalidOnlyPool =
        .returned
          (if Sample.invalidOnlyPool.m_nInvalidKey > 0 then .RET_INVALID_KEY_ERR
            else .RET_MC_SERVER_ERR)
          { pool := Sample.invalidOnlyPool, pollfds := [], log := [],
            ret_code :=
              if Sample.invalidOnlyPool.m_nInvalidKey > 0 then .RET_INVALID_KEY_ERR
              else .RET_MC_SERVER_ERR } :=
  ⟨by decide, C4_waitPoll_no_active 1000 [Sample.readyRound] Sample.invalidOnlyPool (by decide)⟩

/-- C5 (as stated, refuted): the first poll of a wait on two active connections
fails with `errno = EINTR`; `waitPoll` returns `RET_POLL_ERR` after that one
poll, having marked both connections dead, and never reaches the ready round
that follows in the script. -/
theorem C5_eintr_is_fatal :
    Sample.eintrRound.rv = -1 ∧ Sample.eintrRound.errno = EINTR ∧
      (waitPoll 1000 [Sample.eintrRound, Sample.readyRound] Sample.activePool).retOf =
        some .RET_POLL_ERR ∧
      ((waitPoll 1000 [Sample.eintrRound, Sample.readyRound] Sample.activePool).stateOf.map
          (fun st => st.log)) =
        some [IOCall.poll (-1), IOCall.markDead 0 0, IOCall.markDead 1 0] ∧
      ((waitPoll 1000 [Sample.eintrRound, Sample.readyRound] Sample.activePool).stateOf.map
          (fun st => st.pool.m_conns.map Connection.m_alive)) =
        some [false, false] := by
  decide

/-- C5 (amended): when the poll call in `waitPoll` fails with -1, whatever `errno`
is (EINTR included), `waitPoll` returns `RET_POLL_ERR` without another poll,
and every connection still awaited (send not drained or reply not parsed, and
not marked dead before) is dead with delay 0. -/
theorem C5_poll_error_is_fatal (retry : Int) (pre post : List PollScript)
    (round : PollScript) (pool : ConnectionPool) (st : WaitState)
    (hvalid : ∀ ci ∈ pool.m_activeConns, ci < pool.m_conns.length)
    (hpre : waitPoll retry pre pool = .blocked st) (hrv : round.rv = -1) :
    waitPoll retry (pre ++ round :: post) pool =
        .returned .RET_POLL_ERR
          { markDeadAll 0 { st with log := st.log ++ [IOCall.poll round.rv] } with
            ret_code := .RET_POLL_ERR } ∧
      ∀ fd_idx ci, st.pool.m_activeConns[fd_idx]? = some ci → awaited st.log fd_idx ci →
        deadWith 0
          (markDeadAll 0 { st with log := st.log ++ [IOCall.poll round.rv] }).pool.m_conns
          ci :=
  waitPoll_poll_failure retry pre post round pool st .RET_POLL_ERR hvalid hpre
    (Or.inl ⟨hrv, rfl⟩)

/-- C5 (amended, witness): one ready round, then a poll failing with EINTR. -/
theorem C5_poll_error_is_fatal_witness :
    waitPoll 1000 ([Sample.readyRound] ++ Sample.eintrRound :: [Sample.readyRound])
          Sample.activePool =
        .returned .RET_POLL_ERR
          { markDeadAll 0
              { Sample.afterReady with
                log := Sample.afterReady.log ++ [IOCall.poll Sample.eintrRound.rv] } with
            ret_code := .RET_POLL_ERR } ∧
      ∀ fd_idx ci, Sample.afterReady.pool.m_activeConns[fd_idx]? = some ci →
        awaited Sample.afterReady.log fd_idx ci →
        deadWith 0
          (markDeadAll 0
            { Sample.afterReady with
              log := Sample.afterReady.log ++ [IOCall.poll Sample.eintrRound.rv] }).pool.m_conns
          ci :=
  C5_poll_error_is_fatal 1000 [Sample.readyRound] [Sample.readyRound] Sample.eintrRound
    Sample.activePool Sample.afterReady (by decide) (by decide) (by decide)

/-- C6: when poll returns 0 inside `waitPoll`, `waitPoll` returns
`RET_POLL_TIMEOUT_ERR` without another call to poll, send or recv, and every
connection still awaited at that moment (send not fully drained or reply not
fully parsed, and not already marked dead) is dead with delay 0. -/
theorem C6_poll_timeout (retry : Int) (pre post : List PollScript)
    (round : PollScript) (pool : ConnectionPool) (st : WaitState)
    (hvalid : ∀ ci ∈ pool.m_activeConns, ci < pool.m_conns.length)
    (hpre : waitPoll retry pre pool = .blocked st) (hrv : round.rv = 0) :
    waitPoll retry (pre ++ round :: post) pool =
        .returned .RET_POLL_TIMEOUT_ERR
          { markDeadAll 0 { st with log := st.log ++ [IOCall.poll round.rv] } with
            ret_code := .RET_POLL_TIMEOUT_ERR } ∧
      ∀ fd_idx ci, st.pool.m_activeConns[fd_idx]? = some ci → awaited st.log fd_idx ci →
        deadWith 0
          (markDeadAll 0 { st with log := st.log ++ [IOCall.poll round.rv] }).pool.m_conns
          ci :=
  waitPoll_poll_failure retry pre post round pool st .RET_POLL_TIMEOUT_ERR hvalid hpre
    (Or.inr ⟨hrv, rfl⟩)

/-- C6 (witness): one ready round, then a poll that times out. -/
theorem C6_poll_timeout_witness :
    waitPoll 1000 ([Sample.readyRound] ++ Sample.timeoutRound :: []) Sample.activePool =
        .returned .RET_POLL_TIMEOUT_ERR
          { markDeadAll 0
              { Sample.afterReady with
                log := Sample.afterReady.log ++ [IOCall.poll Sample.timeoutRound.rv] } with
            ret_code := .RET_POLL_TIMEOUT_ERR } ∧
      ∀ fd_idx ci, Sample.afterReady.pool.m_activeConns[fd_idx]? = some ci →
        awaited Sample.afterReady.log fd_idx ci →
        deadWith 0
          (markDeadAll 0
            { Sample.afterReady with
              log := Sample.afterReady.log ++ [IOCall.poll Sample.timeoutRound.rv] }).pool.m_conns
          ci :=
  C6_poll_timeout 1000 [Sample.readyRound] [] Sample.timeoutRound
    Sample.activePool Sample.afterReady (by decide) (by decide) (by decide)

/-- C7 (the code at the failing input): `delete k noreply` on one connection.  The
first send is partial, so `POLLIN` is requested; in the second round the
descriptor is writable and readable, the send reports 0 bytes left and the
active counter drops to 0, yet the loop body goes on to call `recv`, marks the
connection dead and drops the counter to -1, so the loop is still waiting when
the script ends. -/
theorem C7_noreply_recv_called :
    Sample.noreplyPool.m_conns.map Connection.m_counter = [0] ∧
      Sample.noreplyPool.m_conns.map Connection.m_requestKeys = [[]] ∧
      (waitPoll 1000 Sample.noreplyScript Sample.noreplyPool).retOf = none ∧
      ((waitPoll 1000 Sample.noreplyScript Sample.noreplyPool).stateOf.map
          (fun st => st.log)) =
        some [IOCall.poll 1, IOCall.send 0 3, IOCall.poll 1, IOCall.send 0 0,
              IOCall.recv 0 0, IOCall.markDead 0 0] ∧
      ((waitPoll 1000 Sample.noreplyScript Sample.noreplyPool).stateOf.map
          (fun st => st.pool.m_nActiveConn)) = some (-1) := by
  decide

/-! ## Worked examples -/

/-- A `cas` batch on the sample pool: the input with the invalid key is skipped,
the two others go to their connections in wire format. -/
theorem sample_cas_bytes :
    (dispatchStorage Sample.sel .CAS_OP Sample.items 0 false Sample.pool).m_conns.map
        Connection.m_sendBuf =
      [ascii "cas ab 7 0 5 43\r\nhello\r\n", ascii "cas k 0 0 1 42\r\nX\r\n"] := by
  decide

/-- A `set` batch with noreply on the sample pool: no request key is queued and
both counters are 0, yet both connections are active. -/
theorem sample_set_noreply :
    (dispatchStorage Sample.sel .SET_OP Sample.items 0 true Sample.pool).m_conns.map
        Connection.m_sendBuf =
      [ascii "set ab 7 0 5 noreply\r\nhello\r\n", ascii "set k 0 0 1 noreply\r\nX\r\n"] ∧
    (dispatchStorage Sample.sel .SET_OP Sample.items 0 true Sample.pool).m_conns.map
        Connection.m_counter = [0, 0] ∧
    (dispatchStorage Sample.sel .SET_OP Sample.items 0 true Sample.pool).m_activeConns =
      [0, 1] := by
  decide

/-- A `get` of the four sample keys: one coalesced line per connection. -/
theorem sample_get_bytes :
    Sample.activePool.m_conns.map Connection.m_sendBuf =
      [ascii "get ab\r\n", ascii "get foo bar\r\n"] ∧
    Sample.activePool.m_nInvalidKey = 1 ∧ Sample.activePool.m_nActiveConn = 2 := by
  decide

/-- The state of the sample wait after its ready round: descriptor 0 has drained
its send and asks for `POLLIN` only, descriptor 1 asks for both events. -/
theorem sample_after_ready :
    waitPoll 1000 [Sample.readyRound] Sample.activePool = .blocked Sample.afterReady ∧
      Sample.afterReady.pollfds.map pollfd_t.events = [POLLIN, POLLOUT ||| POLLIN] ∧
      Sample.afterReady.log =
        [IOCall.poll 2, IOCall.send 0 0, IOCall.send 1 3] := by
  decide

/-! ## Collect phase -/

theorem collectRetrievalInner_eq (rst results : List RetrievalResult) :
    collectRetrievalInner rst results =
      results ++ rst.filter (fun r => decide (r.bytesRemain ≤ 0)) := by
  induction rst generalizing results with
  | nil => simp [collectRetrievalInner]
  | cons r1 rst ih =>
    unfold collectRetrievalInner
    by_cases h : r1.bytesRemain > 0
    · have h2 : ¬ r1.bytesRemain ≤ 0 := by omega
      simp [h, h2, ih]
    · have h2 : r1.bytesRemain ≤ 0 := by omega
      simp [h, h2, ih]

theorem collectRetrievalLoop_eq (conns : List Connection) (active : List Nat)
    (results : List RetrievalResult) :
    collectRetrievalLoop conns active results =
      results ++ active.flatMap (fun ci =>
        match conns[ci]? with
        | some conn => conn.m_retrievalResults.filter (fun r => decide (r.bytesRemain ≤ 0))
        | none => []) := by
  induction active generalizing results with
  | nil => simp [collectRetrievalLoop]
  | cons ci active ih =>
    unfold collectRetrievalLoop connOf
    cases h : conns[ci]? with
    | none => simp [ih, h]
    | some conn =>
      simp [ih, h, collectRetrievalInner_eq, Connection.getRetrievalResults]

/-- C16: `collectRetrievalResult` leaves the entries already in the output in
place and appends exactly the retrieval results of the active connections
whose `bytesRemain` is not greater than 0, in active-connection order and in
list order within a connection; no appended entry has `bytesRemain > 0`. -/
theorem C16_collectRetrievalResult (pool : ConnectionPool) (results : List RetrievalResult) :
    collectRetrievalResult pool results = results ++ completeRetrievals pool ∧
      ∀ r ∈ completeRetrievals pool, ¬ r.bytesRemain > 0 := by
  constructor
  · exact collectRetrievalLoop_eq pool.m_conns pool.m_activeConns results
  · intro r hr
    unfold completeRetrievals at hr
    rw [List.mem_flatMap] at hr
    obtain ⟨ci, -, hmem⟩ := hr
    cases h : pool.m_conns[ci]? with
    | none => simp [h] at hmem
    | some conn =>
      simp only [h, List.mem_filter, decide_eq_true_eq] at hmem
      omega

theorem collectMessageInner_eq (rst results : List MessageResult) :
    collectMessageInner rst results = results ++ rst := by
  induction rst generalizing results with
  | nil => simp [collectMessageInner]
  | cons r1 rst ih => simp [collectMessageInner, ih]

theorem collectMessageLoop_eq (conns : List Connection) (active : List Nat)
    (results : List MessageResult) :
    collectMessageLoop conns active results =
      results ++ active.flatMap (fun ci =>
        match conns[ci]? with
        | some conn => conn.m_messageResults
        | none => []) := by
  induction active generalizing results with
  | nil => simp [collectMessageLoop]
  | cons ci active ih =>
    unfold collectMessageLoop connOf
    cases h : conns[ci]? with
    | none => simp [ih, h]
    | some conn => simp [ih, h, collectMessageInner_eq, Connection.getMessageResults]

theorem length_flatMap_eq_sum {α β : Type} (l : List α) (f : α → List β) :
    (l.flatMap f).length = (l.map (fun a => (f a).length)).sum := by
  induction l with
  | nil => simp
  | cons a l ih => simp [List.flatMap_cons, ih]

/-- C19: `collectMessageResult` appends to the output every message result of every
active connection, connection by connection in active-connection order and in
list order within a connection; the number of entries appended is the sum of
the lengths of the active connections' message-result lists. -/
theorem C19_collectMessageResult (pool : ConnectionPool) (results : List MessageResult) :
    collectMessageResult pool results = results ++ allMessages pool ∧
      (collectMessageResult pool results).length =
        results.length + (messageCounts pool).sum := by
  have h : collectMessageResult pool results = results ++ allMessages pool :=
    collectMessageLoop_eq pool.m_conns pool.m_activeConns results
  refine ⟨h, ?_⟩
  rw [h, List.length_append]
  congr 1
  unfold allMessages messageCounts
  rw [length_flatMap_eq_sum]
  congr 1
  apply List.map_congr_left
  intro ci _
  cases pool.m_conns[ci]? <;> simp

/-- C17: `collectUnsignedResult` appends one slot when exactly one connection is
active and it holds exactly one unsigned result (the slot is that result) or,
failing that, exactly one message result (the slot is absent); in every other
case it appends nothing. -/
theorem C17_collectUnsignedResult (pool : ConnectionPool)
    (results : List (Option UnsignedResult)) :
    collectUnsignedResult pool results = results ++ unsignedSlot pool := by
  unfold collectUnsignedResult unsignedSlot connOf
  rcases hact : pool.m_activeConns with _ | ⟨ci, _ | ⟨cj, rest⟩⟩
  · simp
  · simp only [List.length_singleton, if_true, List.head?_cons]
    cases hc : pool.m_conns[ci]? with
    | none => simp
    | some front =>
      simp only [Connection.getUnsignedResults, Connection.getMessageResults]
      have hmsg : ∀ msgRst : List MessageResult,
          (if msgRst.length = 1 then results ++ [none] else results) =
            results ++ (match msgRst with
              | [_] => [none]
              | _ => ([] : List (Option UnsignedResult))) := by
        intro msgRst
        rcases msgRst with _ | ⟨m, _ | ⟨m2, ms⟩⟩ <;> simp
      rcases hu : front.m_unsignedResults with _ | ⟨r, _ | ⟨r2, rs⟩⟩
      · simpa using hmsg front.m_messageResults
      · simp
      · simpa using hmsg front.m_messageResults
  · simp

theorem collectLines_eq (rst : List LineResult) (lines : List Bytes) (line_lens : List Nat) :
    collectLines rst lines line_lens =
      (lines ++ rst.map (fun r => r.line), line_lens ++ rst.map (fun r => r.line.length)) := by
  induction rst generalizing lines line_lens with
  | nil => simp [collectLines]
  | cons r1 rst ih => simp [collectLines, ih, LineResult.inner]

theorem collectBroadcastEntry_eq (conn : Connection) (conn_result : broadcast_result_t) :
    collectBroadcastEntry conn conn_result = broadcastEntryOf conn := by
  unfold collectBroadcastEntry broadcastEntryOf
  rcases h : conn.m_lineResults with _ | ⟨r1, rst⟩
  · simp [Connection.getLineResults, Connection.name, h]
  · simp [Connection.getLineResults, Connection.name, h, collectLines_eq]

theorem updateAt_append_length {α : Type} (f : α → α) (done : List α) (x : α)
    (rest : List α) :
    updateAt f done.length (done ++ x :: rest) = done ++ f x :: rest := by
  induction done with
  | nil => simp [updateAt]
  | cons d done ih => simp [updateAt, ih]

theorem collectBroadcastLoop_eq (conns : List Connection) (done todo : List broadcast_result_t)
    (hlen : todo.length = conns.length) :
    collectBroadcastLoop done.length conns (done ++ todo) =
      done ++ conns.map broadcastEntryOf := by
  induction conns generalizing done todo with
  | nil =>
    have : todo = [] := List.length_eq_zero.1 hlen
    simp [collectBroadcastLoop, this]
  | cons conn rest ih =>
    cases todo with
    | nil => simp at hlen
    | cons r todo =>
      unfold collectBroadcastLoop
      rw [updateAt_append_length, collectBroadcastEntry_eq]
      have h := ih (done ++ [broadcastEntryOf conn]) todo (by simpa using hlen)
      simp only [List.length_append, List.length_singleton, List.append_assoc,
        List.singleton_append] at h
      rw [h]
      simp

theorem length_resize {α : Type} (n : Nat) (dflt : α) (v : List α) :
    (resize n dflt v).length = n := by
  unfold resize
  simp only [List.length_append, List.length_take, List.length_replicate]
  omega

/-- C18: whatever the output vector held, `collectBroadcastResult` makes it hold
exactly one entry per connection of the pool, in connection order, active or
not; entry `i` carries the name of connection `i` as host, `len` equal to the
size of its line-result list and its lines in list order, or `len = 0` and no
line arrays when the list is empty. -/
theorem C18_collectBroadcastResult (pool : ConnectionPool)
    (results : List broadcast_result_t) :
    collectBroadcastResult pool results = pool.m_conns.map broadcastEntryOf ∧
      (collectBroadcastResult pool results).length = pool.m_conns.length ∧
      ∀ conn ∈ pool.m_conns, conn.m_lineResults = [] →
        (broadcastEntryOf conn).len = 0 ∧ (broadcastEntryOf conn).lines = none ∧
          (broadcastEntryOf conn).line_lens = none := by
  have h : collectBroadcastResult pool results = pool.m_conns.map broadcastEntryOf := by
    unfold collectBroadcastResult
    have := collectBroadcastLoop_eq pool.m_conns []
      (resize pool.m_conns.length { host := [], lines := none, line_lens := none, len := 0 }
        results) (length_resize _ _ _)
    simpa using this
  refine ⟨h, ?_, ?_⟩
  · rw [h, List.length_map]
  · intro conn _ hempty
    simp [broadcastEntryOf, hempty]

/-! ## Dispatch: delete, touch, incr/decr and all-invalid batches -/

/-- C14: after `dispatchDeletion` (respectively `dispatchTouch`) on a reset pool the
bytes queued on connection `j` are the concatenation, in input order over the
valid keys routed to `j`, of `delete <key>` (respectively
`touch <key> <exptime>`, exptime in decimal), ` noreply` only when noreply is
set, and CRLF. -/
theorem C14_delete_touch_bytes (sel : Selector) (keys : List Bytes) (exptime : Int)
    (noreply : Bool) (pool : ConnectionPool) (j : Nat) (hreset : pool.isReset = true)
    (hj : j < pool.m_conns.length) :
    ((dispatchDeletion sel keys noreply pool).m_conns[j]?).map Connection.m_sendBuf =
        some ((routed sel id j keys).flatMap (deletionWire noreply)) ∧
      ((dispatchTouch sel keys exptime noreply pool).m_conns[j]?).map Connection.m_sendBuf =
        some ((routed sel id j keys).flatMap (touchWire exptime noreply)) := by
  obtain ⟨c1, -, h1, -⟩ := counting_dispatch sel id (deletionUnit noreply)
    (deletionWire noreply) noreply (deletionUnit_eq noreply) keys pool hreset j hj
  obtain ⟨c2, -, h2, -⟩ := counting_dispatch sel id (touchUnit exptime noreply)
    (touchWire exptime noreply) noreply (touchUnit_eq exptime noreply) keys pool hreset j hj
  constructor
  · unfold dispatchDeletion
    rw [h1]
    rfl
  · unfold dispatchTouch
    rw [h2]
    rfl

/-- C14 (witness): the four sample keys on the sample pool, with noreply, observed
on connection 1. -/
theorem C14_delete_touch_bytes_witness :
    ((dispatchDeletion Sample.sel Sample.keys true Sample.pool).m_conns[1]?).map
          Connection.m_sendBuf =
        some ((routed Sample.sel id 1 Sample.keys).flatMap (deletionWire true)) ∧
      ((dispatchTouch Sample.sel Sample.keys 3600 true Sample.pool).m_conns[1]?).map
          Connection.m_sendBuf =
        some ((routed Sample.sel id 1 Sample.keys).flatMap (touchWire 3600 true)) :=
  C14_delete_touch_bytes Sample.sel Sample.keys 3600 true Sample.pool 1 (by decide) (by decide)

/-- C15: for a valid key that the selector routes to connection `idx`,
`dispatchIncrDecr` appends `incr <key> <delta>` or `decr <key> <delta>` (delta
in decimal), ` noreply` only when noreply is set, and CRLF to the send queue of
connection `idx`, puts it in counting mode, touches no other connection and
adds exactly `idx` to the active list; for an invalid key or an absent
connection it queues nothing and activates nothing. -/
theorem C15_dispatchIncrDecr (sel : Selector) (op : op_code_t) (key : Bytes) (delta : Nat)
    (noreply : Bool) (pool : ConnectionPool) (hop : op = .INCR_OP ∨ op = .DECR_OP) :
    (∀ idx conn0, isValidKey key = true → sel key = some idx →
        pool.m_conns[idx]? = some conn0 →
        (dispatchIncrDecr sel op key delta noreply pool).m_conns[idx]? =
            some { conn0 with
              m_sendBuf := conn0.m_sendBuf ++ incrDecrWire op delta noreply key
              m_requestKeys := conn0.m_requestKeys ++ replyKeys noreply key
              m_counter := ((conn0.m_requestKeys ++ replyKeys noreply key).length : Int)
              m_parserMode := some .MODE_COUNTING } ∧
          (∀ j, j ≠ idx →
            (dispatchIncrDecr sel op key delta noreply pool).m_conns[j]? = pool.m_conns[j]?) ∧
          (dispatchIncrDecr sel op key delta noreply pool).m_activeConns =
            pool.m_activeConns ++ [idx] ∧
          (dispatchIncrDecr sel op key delta noreply pool).m_nActiveConn =
            pool.m_nActiveConn + 1) ∧
      ((isValidKey key = false ∨ sel key = none) →
        (dispatchIncrDecr sel op key delta noreply pool).m_conns = pool.m_conns ∧
          (dispatchIncrDecr sel op key delta noreply pool).m_activeConns =
            pool.m_activeConns ∧
          (dispatchIncrDecr sel op key delta noreply pool).m_nActiveConn =
            pool.m_nActiveConn) := by
  constructor
  · intro idx conn0 hv hs hc
    rw [dispatchIncrDecr_routed sel op key delta noreply pool idx hv hs]
    refine ⟨?_, ?_, rfl, rfl⟩
    · simp only [updateConn, getElem?_updateAt, if_true, hc, Option.map_some']
      rw [incrDecrUnit_eq op delta noreply key hop]
    · intro j hj
      simp only [updateConn, getElem?_updateAt]
      rw [if_neg (fun h => hj h.symm)]
  · intro h
    by_cases hv : isValidKey key = true
    · rcases h with h | h
      · rw [hv] at h
        cases h
      · rw [dispatchIncrDecr_unrouted sel op key delta noreply pool hv h]
        exact ⟨rfl, rfl, rfl⟩
    · simp only [Bool.not_eq_true] at hv
      rw [dispatchIncrDecr_invalid sel op key delta noreply pool hv]
      exact ⟨rfl, rfl, rfl⟩

/-- C15 (witness): `incr foo 5` on the sample pool goes to connection 1, which
becomes the only active connection. -/
theorem C15_dispatchIncrDecr_witness :
    (dispatchIncrDecr Sample.sel .INCR_OP (ascii "foo") 5 false Sample.pool).m_conns[1]? =
        some { Sample.conn with
          m_socketFd := 6
          m_sendBuf := [] ++ incrDecrWire .INCR_OP 5 false (ascii "foo")
          m_requestKeys := [] ++ replyKeys false (ascii "foo")
          m_counter := ((([] : List Bytes) ++ replyKeys false (ascii "foo")).length : Int)
          m_parserMode := some .MODE_COUNTING } ∧
      (∀ j, j ≠ 1 →
        (dispatchIncrDecr Sample.sel .INCR_OP (ascii "foo") 5 false Sample.pool).m_conns[j]? =
          Sample.pool.m_conns[j]?) ∧
      (dispatchIncrDecr Sample.sel .INCR_OP (ascii "foo") 5 false Sample.pool).m_activeConns =
        Sample.pool.m_activeConns ++ [1] ∧
      (dispatchIncrDecr Sample.sel .INCR_OP (ascii "foo") 5 false Sample.pool).m_nActiveConn =
        Sample.pool.m_nActiveConn + 1 :=
  (C15_dispatchIncrDecr Sample.sel .INCR_OP (ascii "foo") 5 false Sample.pool
    (by decide)).1 1 { Sample.conn with m_socketFd := 6 } (by decide) (by decide) (by decide)

theorem dispatchLoop_all_invalid {α : Type} (sel : Selector) (keyOf : α → Bytes)
    (unit : α → Connection → Connection) (items : List α) (pool : ConnectionPool)
    (hall : ∀ it ∈ items, isValidKey (keyOf it) = false) :
    dispatchLoop sel keyOf unit items pool =
      { pool with m_nInvalidKey := pool.m_nInvalidKey + (items.length : Int) } := by
  induction items generalizing pool with
  | nil => simp [dispatchLoop]
  | cons it rest ih =>
    have hv : isValidKey (keyOf it) = false := hall it (List.mem_cons_self _ _)
    have hrest : ∀ it' ∈ rest, isValidKey (keyOf it') = false :=
      fun it' h => hall it' (List.mem_cons_of_mem _ h)
    simp only [dispatchLoop, dispatchKey, hv, Bool.not_false, if_true, ih _ hrest,
      List.length_cons]
    congr 1
    push_cast
    ring

theorem positiveFrom_of_zero (idx : Nat) (conns : List Connection)
    (h : ∀ conn ∈ conns, conn.m_counter = 0) : positiveFrom idx conns = [] := by
  induction conns generalizing idx with
  | nil => simp [positiveFrom]
  | cons c rest ih =>
    have hc : c.m_counter = 0 := h c (List.mem_cons_self _ _)
    unfold positiveFrom
    simp only [hc, gt_iff_lt, lt_self_iff_false, if_false]
    exact ih _ (fun conn hm => h conn (List.mem_cons_of_mem _ hm))

theorem activateCounting_of_reset (pool : ConnectionPool)
    (h : ∀ conn ∈ pool.m_conns, conn.m_counter = 0 ∧ conn.m_sendBuf = [] ∧
      conn.m_requestKeys = [] ∧ conn.m_parserMode = none) :
    activateCounting pool = pool := by
  obtain ⟨h1, h2, h3, h4⟩ := activateCounting_fields pool
  have hpos := positiveFrom_of_zero 0 pool.m_conns (fun conn hm => (h conn hm).1)
  have hconns : (activateCounting pool).m_conns = pool.m_conns := by
    rw [h1]
    conv_rhs => rw [← List.map_id pool.m_conns]
    apply List.map_congr_left
    intro conn hm
    obtain ⟨hc, -, hk, -⟩ := h conn hm
    cases conn
    simp_all
  rw [hpos] at h2 h3
  cases hp : activateCounting pool
  cases pool
  simp_all

theorem dispatchRetrieval_of_reset (sel : Selector) (op : op_code_t) (keys : List Bytes)
    (pool : ConnectionPool)
    (h : ∀ conn ∈ pool.m_conns, conn.m_counter = 0 ∧ conn.m_sendBuf = [] ∧
      conn.m_requestKeys = [] ∧ conn.m_parserMode = none)
    (hall : ∀ key ∈ keys, isValidKey key = false) :
    dispatchRetrieval sel op keys pool =
      { pool with m_nInvalidKey := pool.m_nInvalidKey + (keys.length : Int) } := by
  unfold dispatchRetrieval
  rw [dispatchLoop_all_invalid sel id (retrievalUnit op) keys pool hall]
  simp only [endStateLoop_conns, endStateLoop_active]
  have hpos := positiveFrom_of_zero 0 pool.m_conns (fun conn hm => (h conn hm).1)
  rw [hpos]
  have hconns : pool.m_conns.map (fun conn =>
      if conn.m_counter > 0 then
        (conn.takeBuffer keywords.kCRLF 2).setParserMode .MODE_END_STATE
      else conn) = pool.m_conns := by
    conv_rhs => rw [← List.map_id pool.m_conns]
    apply List.map_congr_left
    intro conn hm
    simp [(h conn hm).1]
  rw [hconns]
  simp

/-- C20: on a reset pool, a batch in which every key is invalid leaves every
connection as it was (send queue, request keys, counter, parser mode, liveness
and all the rest), activates no connection, and changes the pool only in its
invalid-key count, which grows by the size of the batch; this holds for
storage, retrieval, deletion, touch and incr/decr. -/
theorem C20_all_invalid_batch (sel : Selector) (sop rop iop : op_code_t)
    (items : List StorageItem) (keys : List Bytes) (key : Bytes) (exptime : Int)
    (delta : Nat) (noreply : Bool) (pool : ConnectionPool)
    (hreset : pool.isReset = true)
    (hitems : ∀ it ∈ items, isValidKey it.key = false)
    (hkeys : ∀ k ∈ keys, isValidKey k = false) (hkey : isValidKey key = false) :
    dispatchStorage sel sop items exptime noreply pool =
        { pool with m_nInvalidKey := pool.m_nInvalidKey + (items.length : Int) } ∧
      dispatchRetrieval sel rop keys pool =
        { pool with m_nInvalidKey := pool.m_nInvalidKey + (keys.length : Int) } ∧
      dispatchDeletion sel keys noreply pool =
        { pool with m_nInvalidKey := pool.m_nInvalidKey + (keys.length : Int) } ∧
      dispatchTouch sel keys exptime noreply pool =
        { pool with m_nInvalidKey := pool.m_nInvalidKey + (keys.length : Int) } ∧
      dispatchIncrDecr sel iop key delta noreply pool =
        { pool with m_nInvalidKey := pool.m_nInvalidKey + 1 } := by
  obtain ⟨-, -, -, hconns⟩ := (isReset_iff pool).1 hreset
  refine ⟨?_, ?_, ?_, ?_, ?_⟩
  · unfold dispatchStorage
    rw [dispatchLoop_all_invalid sel StorageItem.key _ items pool hitems]
    exact activateCounting_of_reset _ hconns
  · exact dispatchRetrieval_of_reset sel rop keys pool hconns hkeys
  · unfold dispatchDeletion
    rw [dispatchLoop_all_invalid sel id _ keys pool hkeys]
    exact activateCounting_of_reset _ hconns
  · unfold dispatchTouch
    rw [dispatchLoop_all_invalid sel id _ keys pool hkeys]
    exact activateCounting_of_reset _ hconns
  · exact dispatchIncrDecr_invalid sel iop key delta noreply pool hkey

/-! ## Wait loop: return code and per-connection failures -/

theorem waitPoll_poll_failure_code (retry : Int) (pre post : List PollScript)
    (round : PollScript) (pool : ConnectionPool) (st : WaitState) (code : err_code_t)
    (hpre : waitPoll retry pre pool = .blocked st)
    (hrv : (round.rv = -1 ∧ code = .RET_POLL_ERR) ∨
      (round.rv = 0 ∧ code = .RET_POLL_TIMEOUT_ERR)) :
    waitPoll retry (pre ++ round :: post) pool =
      .returned code
        { markDeadAll 0 { st with log := st.log ++ [IOCall.poll round.rv] } with
          ret_code := code } := by
  unfold waitPoll at hpre ⊢
  by_cases hn : pool.m_nActiveConn = 0
  · rw [if_pos hn] at hpre
    split at hpre <;> cases hpre
  · rw [if_neg hn] at hpre ⊢
    by_cases hlen : pool.m_nActiveConn ≠ (pool.m_activeConns.length : Int)
    · rw [if_pos hlen] at hpre
      cases hpre
    · rw [if_neg hlen] at hpre ⊢
      obtain ⟨happ, -, -, hact⟩ :=
        waitLoop_blocked retry _ pre (round :: post) _ st (eventsTrack_waitInit pool) hpre
      rw [happ, waitLoop]
      rcases hrv with ⟨hr, hc⟩ | ⟨hr, hc⟩
      · subst hc
        simp [hr, hact]
      · subst hc
        simp [hr, hact]

/-- C11: if a poll call of `waitPoll` fails (-1) or times out (0), `waitPoll`
returns `RET_POLL_ERR`, respectively `RET_POLL_TIMEOUT_ERR`, whatever return
code the earlier rounds of the same wait had recorded in the state `st`. -/
theorem C11_poll_failure_supersedes (retry : Int) (pre post : List PollScript)
    (round : PollScript) (pool : ConnectionPool) (st : WaitState)
    (hpre : waitPoll retry pre pool = .blocked st)
    (hrv : round.rv = -1 ∨ round.rv = 0) :
    (waitPoll retry (pre ++ round :: post) pool).retOf =
        some (if round.rv = -1 then .RET_POLL_ERR else .RET_POLL_TIMEOUT_ERR) ∧
      (waitPoll retry (pre ++ round :: post) pool).stateOf.map (fun s => s.ret_code) =
        some (if round.rv = -1 then .RET_POLL_ERR else .RET_POLL_TIMEOUT_ERR) := by
  rcases hrv with hr | hr
  · rw [waitPoll_poll_failure_code retry pre post round pool st .RET_POLL_ERR hpre
      (Or.inl ⟨hr, rfl⟩)]
    simp [WaitOutcome.retOf, WaitOutcome.stateOf, hr]
  · rw [waitPoll_poll_failure_code retry pre post round pool st .RET_POLL_TIMEOUT_ERR hpre
      (Or.inr ⟨hr, rfl⟩)]
    simp [WaitOutcome.retOf, WaitOutcome.stateOf, hr]

/-- C11 (witness): the first round records `RET_SEND_ERR` for connection 0, the
second poll times out; the wait returns `RET_POLL_TIMEOUT_ERR`. -/
theorem C11_poll_failure_supersedes_witness :
    Sample.afterFail.ret_code = .RET_SEND_ERR ∧
      (waitPoll 1000 ([Sample.failRound] ++ Sample.timeoutRound :: []) Sample.activePool).retOf =
        some (if Sample.timeoutRound.rv = -1 then .RET_POLL_ERR else .RET_POLL_TIMEOUT_ERR) ∧
      (waitPoll 1000 ([Sample.failRound] ++ Sample.timeoutRound :: [])
          Sample.activePool).stateOf.map (fun s => s.ret_code) =
        some (if Sample.timeoutRound.rv = -1 then .RET_POLL_ERR else .RET_POLL_TIMEOUT_ERR) :=
  ⟨by decide,
    C11_poll_failure_supersedes 1000 [Sample.failRound] [] Sample.timeoutRound
      Sample.activePool Sample.afterFail (by decide) (by decide)⟩

theorem failedConn_of_markDeadConn (delay : Int) (code : err_code_t) (ci k : Nat)
    (before st : WaitState) (hpool : st.pool = before.pool)
    (hci : ci < before.pool.m_conns.length) :
    FailedConn delay code ci before
      (decrActive { markDeadConn ci k delay st with ret_code := code }) := by
  refine ⟨rfl, ?_, ?_, ?_, ?_⟩
  · simp [decrActive, markDeadConn, hpool]
  · refine ⟨(before.pool.m_conns[ci]).markDead delay, ?_, rfl, rfl⟩
    simp [decrActive, markDeadConn, updateConn, getElem?_updateAt, hpool,
      List.getElem?_eq_getElem hci]
  · intro cj hcj
    simp only [decrActive, markDeadConn, updateConn, getElem?_updateAt, hpool]
    rw [if_neg (fun h => hcj h.symm)]
  · simp [decrActive, markDeadConn, hpool]

theorem processFds_split (retry : Int) (round : PollScript) (k m : Nat) (st0 : WaitState) :
    processFds retry round (k + 1 + m) st0 =
      ((List.range m).map (fun i => k + 1 + i)).foldl
        (fun s fd_idx => processFd retry (round.fdAt fd_idx) fd_idx s)
        (processFd retry (round.fdAt k) k (processFds retry round k st0)) := by
  unfold processFds
  rw [List.range_add, List.foldl_append, List.range_succ, List.foldl_append]
  rfl

theorem sendBlock_failed (ci k : Nat) (io : FdScript) (st : WaitState)
    (hout : io.revents &&& POLLOUT ≠ 0) (hm1 : io.nToSend = -1) :
    sendBlock ci k io st =
      (decrActive
        { markDeadConn ci k 0 { st with log := st.log ++ [IOCall.send k io.nToSend] } with
          ret_code := .RET_SEND_ERR }, false) := by
  unfold sendBlock
  rw [if_pos hout]
  simp [hm1]

theorem sendBlock_continues (ci k : Nat) (io : FdScript) (st : WaitState)
    (h : ¬ (io.revents &&& POLLOUT ≠ 0 ∧ io.nToSend = -1)) :
    (sendBlock ci k io st).2 = true := by
  unfold sendBlock
  by_cases hout : io.revents &&& POLLOUT ≠ 0
  · rw [if_pos hout]
    have hm1 : ¬ io.nToSend = -1 := fun hc => h ⟨hout, hc⟩
    dsimp only
    rw [if_neg hm1]
    split
    · split <;> rfl
    · rfl
  · rw [if_neg hout]

theorem processFd_of_clean (retry : Int) (io : FdScript) (k ci : Nat) (st : WaitState)
    (hk : st.pool.m_activeConns[k]? = some ci)
    (herr : ¬ io.revents &&& (POLLERR ||| POLLHUP ||| POLLNVAL) ≠ 0) :
    processFd retry io k st =
      if (sendBlock ci k io st).2 then recvBlock retry ci k io (sendBlock ci k io st).1
      else (sendBlock ci k io st).1 := by
  unfold processFd
  rw [hk]
  dsimp only
  rw [if_neg herr]

/-- C12: each per-connection failure in the descriptor loop marks exactly the
offending connection dead and takes one off the active counter, with the
return code and delay of the taxonomy: an error event gives `RET_CONN_POLL_ERR`
with the retry delay, `send` returning -1 gives `RET_SEND_ERR` with delay 0,
`recv` returning 0 or -1 gives `RET_RECV_ERR` with delay 0, `process` reporting
`RET_PROGRAMMING_ERR` gives that code with the retry delay and `process`
reporting `RET_MC_SERVER_ERR` gives that code with delay 0; and the descriptor
loop goes on with the descriptors after `k`. -/
theorem C12_per_connection_failure (retry : Int) (io : FdScript) (k ci : Nat)
    (st : WaitState) (hk : st.pool.m_activeConns[k]? = some ci)
    (hci : ci < st.pool.m_conns.length) :
    (io.revents &&& (POLLERR ||| POLLHUP ||| POLLNVAL) ≠ 0 →
        FailedConn retry .RET_CONN_POLL_ERR ci st (processFd retry io k st)) ∧
      (¬ io.revents &&& (POLLERR ||| POLLHUP ||| POLLNVAL) ≠ 0 →
        io.revents &&& POLLOUT ≠ 0 → io.nToSend = -1 →
        FailedConn 0 .RET_SEND_ERR ci st (processFd retry io k st)) ∧
      (¬ io.revents &&& (POLLERR ||| POLLHUP ||| POLLNVAL) ≠ 0 →
        ¬ (io.revents &&& POLLOUT ≠ 0 ∧ io.nToSend = -1) →
        io.revents &&& POLLIN ≠ 0 →
        ((io.nRecv = -1 ∨ io.nRecv = 0) →
          FailedConn 0 .RET_RECV_ERR ci (sendBlock ci k io st).1 (processFd retry io k st)) ∧
        (¬ (io.nRecv = -1 ∨ io.nRecv = 0) → io.err = .RET_PROGRAMMING_ERR →
          FailedConn retry .RET_PROGRAMMING_ERR ci (sendBlock ci k io st).1
            (processFd retry io k st)) ∧
        (¬ (io.nRecv = -1 ∨ io.nRecv = 0) → io.err = .RET_MC_SERVER_ERR →
          FailedConn 0 .RET_MC_SERVER_ERR ci (sendBlock ci k io st).1
            (processFd retry io k st))) ∧
      (∀ (round : PollScript) (m : Nat) (st0 : WaitState),
        processFds retry round (k + 1 + m) st0 =
          ((List.range m).map (fun i => k + 1 + i)).foldl
            (fun s fd_idx => processFd retry (round.fdAt fd_idx) fd_idx s)
            (processFd retry (round.fdAt k) k (processFds retry round k st0))) := by
  refine ⟨?_, ?_, ?_, ?_⟩
  · intro herr
    have : processFd retry io k st =
        decrActive { markDeadConn ci k retry st with ret_code := .RET_CONN_POLL_ERR } := by
      unfold processFd
      rw [hk]
      dsimp only
      rw [if_pos herr]
    rw [this]
    exact failedConn_of_markDeadConn retry _ ci k st st rfl hci
  · intro herr hout hm1
    rw [processFd_of_clean retry io k ci st hk herr, sendBlock_failed ci k io st hout hm1]
    exact failedConn_of_markDeadConn 0 _ ci k st _ rfl hci
  · intro herr hsend hin
    have hflag := sendBlock_continues ci k io st hsend
    have hci' : ci < (sendBlock ci k io st).1.pool.m_conns.length := by
      rw [(sendBlock_shape st ci k io).2.1]
      exact hci
    rw [processFd_of_clean retry io k ci st hk herr, if_pos hflag]
    refine ⟨?_, ?_, ?_⟩
    · intro hr
      have : recvBlock retry ci k io (sendBlock ci k io st).1 =
          decrActive
            { markDeadConn ci k 0
                { (sendBlock ci k io st).1 with
                  log := (sendBlock ci k io st).1.log ++ [IOCall.recv k io.nRecv] } with
              ret_code := .RET_RECV_ERR } := by
        unfold recvBlock
        rw [if_pos hin]
        dsimp only
        rw [if_pos hr]
      rw [this]
      exact failedConn_of_markDeadConn 0 _ ci k _ _ rfl hci'
    · intro hr he
      have : recvBlock retry ci k io (sendBlock ci k io st).1 =
          decrActive
            { markDeadConn ci k retry
                { (sendBlock ci k io st).1 with
                  log := (sendBlock ci k io st).1.log ++ [IOCall.recv k io.nRecv] ++
                    [IOCall.process k io.err] } with
              ret_code := .RET_PROGRAMMING_ERR } := by
        unfold recvBlock
        rw [if_pos hin]
        dsimp only
        rw [if_neg hr]
        simp [he]
      rw [this]
      exact failedConn_of_markDeadConn retry _ ci k _ _ rfl hci'
    · intro hr he
      have : recvBlock retry ci k io (sendBlock ci k io st).1 =
          decrActive
            { markDeadConn ci k 0
                { (sendBlock ci k io st).1 with
                  log := (sendBlock ci k io st).1.log ++ [IOCall.recv k io.nRecv] ++
                    [IOCall.process k io.err] } with
              ret_code := .RET_MC_SERVER_ERR } := by
        unfold recvBlock
        rw [if_pos hin]
        dsimp only
        rw [if_neg hr]
        simp [he]
      rw [this]
      exact failedConn_of_markDeadConn 0 _ ci k _ _ rfl hci'
  · intro round m st0
    exact processFds_split retry round k m st0

/-- C12 (witness): descriptor 0 of the sample wait hangs up in the first round;
connection 0 is marked dead with the retry delay, the return code is
`RET_CONN_POLL_ERR` and the active counter goes from 2 to 1. -/
theorem C12_per_connection_failure_witness :
    FailedConn 1000 .RET_CONN_POLL_ERR 0 (waitInit Sample.activePool)
      (processFd 1000 Sample.hangup 0 (waitInit Sample.activePool)) :=
  (C12_per_connection_failure 1000 Sample.hangup 0 0 (waitInit Sample.activePool)
    (by decide) (by decide)).1 (by decide)

/-- C13 (the code at the failing input): `delete k ab` with noreply on two
connections.  In the first round the send on descriptor 0 drains and the
active counter drops from 2 to 1, while 3 bytes stay queued on descriptor 1.
In the second round descriptor 0 is readable and `process` reports `RET_OK`,
which drops the counter to 0: `waitPoll` returns `RET_OK` with no connection
marked dead although no send on descriptor 1 ever reported 0 bytes left. -/
theorem C13_ok_with_unsent_bytes :
    Sample.noreplyPool2.m_activeConns = [0, 1] ∧ Sample.noreplyPool2.m_nActiveConn = 2 ∧
      (waitPoll 1000 Sample.earlyOkScript Sample.noreplyPool2).retOf = some .RET_OK ∧
      ((waitPoll 1000 Sample.earlyOkScript Sample.noreplyPool2).stateOf.map
          (fun st => st.log)) =
        some [IOCall.poll 2, IOCall.send 0 0, IOCall.send 1 3, IOCall.poll 1,
              IOCall.recv 0 7, IOCall.process 0 .RET_OK] ∧
      ((waitPoll 1000 Sample.earlyOkScript Sample.noreplyPool2).stateOf.map
          (fun st => st.pool.m_conns.map Connection.m_alive)) = some [true, true] ∧
      ((waitPoll 1000 Sample.earlyOkScript Sample.noreplyPool2).stateOf.map
          (fun st => st.pollfds.map pollfd_t.events)) = some [0, POLLOUT ||| POLLIN] := by
  decide

/-- C20 (witness): batches made of invalid keys only, on the sample pool. -/
theorem C20_all_invalid_batch_witness :
    dispatchStorage Sample.sel .SET_OP Sample.badItems 0 false Sample.pool =
        { Sample.pool with
          m_nInvalidKey := Sample.pool.m_nInvalidKey + (Sample.badItems.length : Int) } ∧
      dispatchRetrieval Sample.sel .GET_OP Sample.badKeys Sample.pool =
        { Sample.pool with
          m_nInvalidKey := Sample.pool.m_nInvalidKey + (Sample.badKeys.length : Int) } ∧
      dispatchDeletion Sample.sel Sample.badKeys false Sample.pool =
        { Sample.pool with
          m_nInvalidKey := Sample.pool.m_nInvalidKey + (Sample.badKeys.length : Int) } ∧
      dispatchTouch Sample.sel Sample.badKeys 0 false Sample.pool =
        { Sample.pool with
          m_nInvalidKey := Sample.pool.m_nInvalidKey + (Sample.badKeys.length : Int) } ∧
      dispatchIncrDecr Sample.sel .INCR_OP (ascii "b d") 1 false Sample.pool =
        { Sample.pool with m_nInvalidKey := Sample.pool.m_nInvalidKey + 1 } :=
  C20_all_invalid_batch Sample.sel .SET_OP .GET_OP .INCR_OP Sample.badItems Sample.badKeys
    (ascii "b d") 0 1 false Sample.pool (by decide) (by decide) (by decide) (by decide)

/-! ## Worked examples of the collect phase -/

/-- The retrieval result with an incomplete body is passed over; the output keeps
its first entry. -/
theorem sample_collect_retrieval :
    collectRetrievalResult Sample.collectPool
        [{ key := ascii "old", flags := 0, cas_unique := 0, data := [], bytesRemain := 0 }] =
      [ { key := ascii "old", flags := 0, cas_unique := 0, data := [], bytesRemain := 0 },
        { key := ascii "foo", flags := 0, cas_unique := 0, data := ascii "hello",
          bytesRemain := 0 } ] := by
  decide

/-- One active connection holding no unsigned result and one message: the numeric
output is one absent slot (scenario S5 of the specification). -/
theorem sample_collect_unsigned :
    collectUnsignedResult Sample.collectPool [] = [none] := by
  decide

/-- One entry per connection, active or not; the second connection has no line. -/
theorem sample_collect_broadcast :
    collectBroadcastResult Sample.collectPool [] =
      [ { host := ascii "h1:11211", lines := some [ascii "VERSION 1.6.9"],
          line_lens := some [13], len := 1 },
        { host := ascii "h2:11211", lines := none, line_lens := none, len := 0 } ] := by
  decide

/-! ## Wait loop: when the return code is `RET_OK` -/

theorem retTrack_log (st : WaitState) (call : IOCall)
    (hmark : ∀ ci delay, call ≠ IOCall.markDead ci delay)
    (hpoll : ∀ rv, call = IOCall.poll rv → rv ≠ -1 ∧ rv ≠ 0)
    (h : RetTrack st) : RetTrack { st with log := st.log ++ [call] } := by
  obtain ⟨h1, h2⟩ := h
  constructor
  · show st.ret_code = .RET_OK ↔ _
    rw [h1]
    constructor
    · intro hno ci d hm
      rcases List.mem_append.1 hm with hm | hm
      · exact hno ci d hm
      · simp only [List.mem_singleton] at hm
        exact hmark ci d hm.symm
    · intro hno ci d hm
      exact hno ci d (List.mem_append_left _ hm)
  · intro rv hm
    rcases List.mem_append.1 hm with hm | hm
    · exact h2 rv hm
    · simp only [List.mem_singleton] at hm
      exact hpoll rv hm.symm

theorem retTrack_fail (st : WaitState) (ci k : Nat) (delay : Int) (code : err_code_t)
    (hcode : code ≠ .RET_OK) (h : ∀ rv, IOCall.poll rv ∈ st.log → rv ≠ -1 ∧ rv ≠ 0) :
    RetTrack (decrActive { markDeadConn ci k delay st with ret_code := code }) := by
  constructor
  · show code = .RET_OK ↔ _
    constructor
    · intro hc
      exact absurd hc hcode
    · intro hno
      exact absurd (by simp [decrActive, markDeadConn]) (hno ci delay)
  · intro rv hm
    apply h rv
    simpa [decrActive, markDeadConn] using hm

theorem retTrack_congr (st st' : WaitState) (hr : st'.ret_code = st.ret_code)
    (hl : st'.log = st.log) (h : RetTrack st) : RetTrack st' := by
  unfold RetTrack at h ⊢
  rw [hr, hl]
  exact h

theorem retTrack_sendBlock (st : WaitState) (ci k : Nat) (io : FdScript) (h : RetTrack st) :
    RetTrack (sendBlock ci k io st).1 := by
  have hlog : RetTrack { st with log := st.log ++ [IOCall.send k io.nToSend] } :=
    retTrack_log st _ (by intro _ _ hc; cases hc) (by intro _ hc; cases hc) h
  unfold sendBlock
  by_cases hout : io.revents &&& POLLOUT ≠ 0
  · rw [if_pos hout]
    by_cases hm1 : io.nToSend = -1
    · rw [if_pos hm1]
      exact retTrack_fail _ ci k 0 _ (by decide) hlog.2
    · rw [if_neg hm1]
      by_cases h0 : io.nToSend = 0
      · rw [if_pos h0]
        dsimp only
        split
        · exact retTrack_congr _ _ rfl rfl hlog
        · exact retTrack_congr _ _ rfl rfl hlog
      · rw [if_neg h0]
        exact retTrack_congr _ _ rfl rfl hlog
  · rw [if_neg hout]
    exact h

theorem retTrack_recvBlock (st : WaitState) (retry : Int) (ci k : Nat) (io : FdScript)
    (h : RetTrack st) : RetTrack (recvBlock retry ci k io st) := by
  have hrecv : RetTrack { st with log := st.log ++ [IOCall.recv k io.nRecv] } :=
    retTrack_log st _ (by intro _ _ hc; cases hc) (by intro _ hc; cases hc) h
  have hproc : RetTrack
      { st with log := st.log ++ [IOCall.recv k io.nRecv] ++ [IOCall.process k io.err] } :=
    retTrack_log { st with log := st.log ++ [IOCall.recv k io.nRecv] } _
      (by intro _ _ hc; cases hc) (by intro _ hc; cases hc) hrecv
  unfold recvBlock
  by_cases hin : io.revents &&& POLLIN ≠ 0
  · rw [if_pos hin]
    by_cases hr : io.nRecv = -1 ∨ io.nRecv = 0
    · rw [if_pos hr]
      exact retTrack_fail _ ci k 0 _ (by decide) hrecv.2
    · rw [if_neg hr]
      cases herr : io.err with
      | RET_OK =>
        rw [herr] at hproc
        exact retTrack_congr _ _ rfl rfl hproc
      | RET_PROGRAMMING_ERR =>
        rw [herr] at hproc
        exact retTrack_fail _ ci k retry _ (by decide) hproc.2
      | RET_MC_SERVER_ERR =>
        rw [herr] at hproc
        exact retTrack_fail _ ci k 0 _ (by decide) hproc.2
      | _ =>
        rw [herr] at hproc
        exact hproc
  · rw [if_neg hin]
    exact h

theorem retTrack_processFd (retry : Int) (io : FdScript) (k : Nat) (st : WaitState)
    (h : RetTrack st) : RetTrack (processFd retry io k st) := by
  unfold processFd
  split
  · exact h
  · rename_i ci hk
    split
    · exact retTrack_fail st ci k retry _ (by decide) h.2
    · dsimp only
      split
      · exact retTrack_recvBlock _ retry ci k io (retTrack_sendBlock st ci k io h)
      · exact retTrack_sendBlock st ci k io h

theorem retTrack_processFds (retry : Int) (round : PollScript) (n_fds : Nat) (st : WaitState)
    (h : RetTrack st) : RetTrack (processFds retry round n_fds st) := by
  unfold processFds
  generalize List.range n_fds = l
  induction l generalizing st with
  | nil => exact h
  | cons k rest ih =>
    simp only [List.foldl_cons]
    exact ih _ (retTrack_processFd retry (round.fdAt k) k st h)

theorem markDeadAllLoop_log (delay : Int) (active : List Nat) (pollfds : List pollfd_t)
    (conns : List Connection) (log : List IOCall) (call : IOCall) (h : call ∈ log) :
    call ∈ (markDeadAllLoop delay active pollfds conns log).2 := by
  induction active generalizing pollfds conns log with
  | nil => simpa [markDeadAllLoop] using h
  | cons cj active ih =>
    cases pollfds with
    | nil => simpa [markDeadAllLoop] using h
    | cons pfd pollfds =>
      unfold markDeadAllLoop
      split
      · exact ih _ _ _ (List.mem_append_left _ h)
      · exact ih _ _ _ h

theorem waitLoop_ok_iff (retry : Int) (n_fds : Nat) (script : List PollScript)
    (st0 st : WaitState) (ret : err_code_t) (h0 : RetTrack st0)
    (h : waitLoop retry n_fds script st0 = .returned ret st) :
    ret = .RET_OK ↔ cleanLog st.log := by
  induction script generalizing st0 with
  | nil =>
    rw [waitLoop] at h
    split at h
    · simp only [WaitOutcome.returned.injEq] at h
      obtain ⟨hr, hs⟩ := h
      subst hs
      subst hr
      rw [h0.1]
      exact ⟨fun hno => ⟨hno, fun hm => (h0.2 _ hm).1 rfl, fun hm => (h0.2 _ hm).2 rfl⟩,
        fun hc => hc.1⟩
    · cases h
  | cons round rest ih =>
    by_cases hn : st0.pool.m_nActiveConn = 0
    · rw [waitLoop] at h
      simp only [hn, if_true, WaitOutcome.returned.injEq] at h
      obtain ⟨hr, hs⟩ := h
      subst hs
      subst hr
      rw [h0.1]
      exact ⟨fun hno => ⟨hno, fun hm => (h0.2 _ hm).1 rfl, fun hm => (h0.2 _ hm).2 rfl⟩,
        fun hc => hc.1⟩
    · by_cases h1 : round.rv = -1
      · rw [waitLoop] at h
        simp only [hn, h1, if_true, if_false, WaitOutcome.returned.injEq] at h
        obtain ⟨hr, hs⟩ := h
        subst hs
        subst hr
        constructor
        · intro hc
          cases hc
        · intro hc
          exfalso
          apply hc.2.1
          unfold markDeadAll
          exact markDeadAllLoop_log 0 _ _ _ _ _ (by simp)
      · by_cases h2 : round.rv = 0
        · rw [waitLoop, if_neg hn] at h
          dsimp only at h
          rw [if_neg h1, if_pos h2] at h
          simp only [WaitOutcome.returned.injEq] at h
          obtain ⟨hr, hs⟩ := h
          subst hs
          subst hr
          constructor
          · intro hc
            simp at hc
          · intro hc
            exfalso
            apply hc.2.2
            unfold markDeadAll
            exact markDeadAllLoop_log 0 _ _ _ _ _ (by simp [h2])
        · rw [waitLoop_cons_ready retry n_fds round rest st0 hn h1 h2] at h
          apply ih _ _ h
          apply retTrack_processFds
          apply retTrack_log st0 _ (by intro _ _ hc; cases hc) _ h0
          intro rv hc
          simp only [IOCall.poll.injEq] at hc
          rw [← hc]
          exact ⟨h1, h2⟩

/-- Entered with an active connection, `waitPoll` returns `RET_OK` exactly when
no poll call failed or timed out and no connection was marked dead. -/
theorem waitPoll_ok_iff (retry : Int) (script : List PollScript) (pool : ConnectionPool)
    (ret : err_code_t) (st : WaitState) (hn : pool.m_nActiveConn ≠ 0)
    (h : waitPoll retry script pool = .returned ret st) :
    ret = .RET_OK ↔ cleanLog st.log := by
  unfold waitPoll at h
  rw [if_neg hn] at h
  split at h
  · cases h
  · apply waitLoop_ok_iff retry _ script (waitInit pool) st ret _ h
    constructor
    · simp [waitInit]
    · intro rv hm
      simp [waitInit] at hm


/-! ## Broadcast: usable connections -/

/-- The indices kept by a filter of an enumeration increase strictly. -/
theorem pairwise_enumFrom_filter {α : Type} (p : Nat × α → Bool) (idx : Nat) (l : List α) :
    (((l.enumFrom idx).filter p).map Prod.fst).Pairwise (· < ·) := by
  have hsub : (((l.enumFrom idx).filter p).map Prod.fst).Sublist
      ((l.enumFrom idx).map Prod.fst) :=
    List.Sublist.map _ (List.filter_sublist _)
  rw [List.enumFrom_map_fst] at hsub
  exact List.Pairwise.sublist hsub (List.pairwise_lt_range' idx l.length)

theorem nodup_enumFrom_filter {α : Type} (p : Nat × α → Bool) (idx : Nat) (l : List α) :
    (((l.enumFrom idx).filter p).map Prod.fst).Nodup :=
  (pairwise_enumFrom_filter p idx l).imp (fun h => Nat.ne_of_lt h)

theorem positiveFrom_eq (idx : Nat) (conns : List Connection) :
    positiveFrom idx conns =
      ((conns.enumFrom idx).filter (fun p => decide (p.2.m_counter > 0))).map Prod.fst := by
  induction conns generalizing idx with
  | nil => simp [positiveFrom]
  | cons c rest ih =>
    simp only [positiveFrom, List.enumFrom_cons, List.filter_cons]
    by_cases hc : c.m_counter > 0
    · simp [hc, ih]
    · simp [hc, ih]

theorem nodup_positiveFrom (idx : Nat) (conns : List Connection) :
    (positiveFrom idx conns).Nodup := by
  rw [positiveFrom_eq]
  exact nodup_enumFrom_filter _ idx conns

/-- The flag of `broadcastUnit` tells whether the connection is usable. -/
theorem broadcastUnit_flag (outcome : Option Int) (cmd : Bytes) (conn : Connection) :
    (broadcastUnit outcome cmd conn).2 = (conn.alive || outcome.isSome) := by
  unfold broadcastUnit
  cases ha : conn.alive <;> cases outcome <;> simp [Connection.tryReconnect]

/-- An unusable connection is left as it was. -/
theorem broadcastUnit_unusable (outcome : Option Int) (cmd : Bytes) (conn : Connection)
    (h : (conn.alive || outcome.isSome) = false) :
    (broadcastUnit outcome cmd conn).1 = conn := by
  unfold broadcastUnit
  cases ha : conn.alive <;> cases outcome <;> simp_all [Connection.tryReconnect]

/-- A usable connection gets the command and CRLF, one more on its counter and
the END_STATE parser mode. -/
theorem broadcastUnit_usable (outcome : Option Int) (cmd : Bytes) (conn : Connection)
    (h : (conn.alive || outcome.isSome) = true) :
    (broadcastUnit outcome cmd conn).1.m_sendBuf = conn.m_sendBuf ++ cmd ++ ascii "\r\n" ∧
      (broadcastUnit outcome cmd conn).1.m_counter = conn.m_counter + 1 ∧
      (broadcastUnit outcome cmd conn).1.m_parserMode = some .MODE_END_STATE ∧
      (broadcastUnit outcome cmd conn).1.m_requestKeys = conn.m_requestKeys ∧
      (broadcastUnit outcome cmd conn).1.alive = true := by
  have hcrlf : (ascii "\r\n").take 2 = ascii "\r\n" := by decide
  unfold broadcastUnit
  cases ha : conn.alive <;> cases outcome <;>
    simp_all [Connection.tryReconnect, Connection.takeBuffer, Connection.setParserMode,
      Connection.alive, keywords.kCRLF, -List.take_eq_self_iff]

theorem broadcastLoop_active (reconnect : Nat → Option Int) (cmd : Bytes) (idx : Nat)
    (conns : List Connection) (nActive : Int) (active : List Nat) :
    (broadcastLoop reconnect cmd idx conns nActive active).2.2 =
        active ++ ((conns.enumFrom idx).filter
          (fun p => Spec.usable reconnect p.1 p.2)).map Prod.fst ∧
      (broadcastLoop reconnect cmd idx conns nActive active).2.1 =
        nActive + ((((conns.enumFrom idx).filter
          (fun p => Spec.usable reconnect p.1 p.2)).map Prod.fst).length : Int) := by
  induction conns generalizing idx nActive active with
  | nil => simp [broadcastLoop]
  | cons c rest ih =>
    simp only [broadcastLoop, broadcastUnit_flag, List.enumFrom_cons, List.filter_cons]
    by_cases hu : (c.alive || (reconnect idx).isSome) = true
    · have hu2 : Spec.usable reconnect idx c = true := hu
      simp only [hu, hu2, if_true, ih, List.map_cons, List.append_assoc,
        List.singleton_append, List.length_cons, true_and]
      push_cast
      ring
    · have hu2 : ¬ Spec.usable reconnect idx c = true := hu
      simp only [hu, hu2, if_false, ih, true_and]
      trivial

theorem broadcastCommand_active (reconnect : Nat → Option Int) (cmd : Bytes)
    (pool : ConnectionPool) :
    (broadcastCommand reconnect cmd pool).m_activeConns =
        pool.m_activeConns ++ Spec.usableIndices reconnect pool.m_conns ∧
      (broadcastCommand reconnect cmd pool).m_nActiveConn =
        pool.m_nActiveConn + ((Spec.usableIndices reconnect pool.m_conns).length : Int) := by
  unfold broadcastCommand Spec.usableIndices List.enum
  exact broadcastLoop_active reconnect cmd 0 pool.m_conns _ _

/-- C21: `broadcastCommand` queues the command followed by CRLF on every
connection that is alive or that `tryReconnect` brings back, adds one to its
counter and puts it in parser mode END_STATE; every other connection is left
as it was; the usable connections are appended to the active list once each,
in connection order, and the active count grows by their number. -/
theorem C21_broadcastCommand (reconnect : Nat → Option Int) (cmd : Bytes)
    (pool : ConnectionPool) :
    (∀ j conn0, pool.m_conns[j]? = some conn0 →
      ∃ conn, (broadcastCommand reconnect cmd pool).m_conns[j]? = some conn ∧
        (Spec.usable reconnect j conn0 = true →
          conn.m_sendBuf = conn0.m_sendBuf ++ cmd ++ ascii "\r\n" ∧
            conn.m_counter = conn0.m_counter + 1 ∧
            conn.m_parserMode = some .MODE_END_STATE ∧
            conn.alive = true ∧
            j ∈ Spec.usableIndices reconnect pool.m_conns) ∧
        (Spec.usable reconnect j conn0 = false →
          conn = conn0 ∧ j ∉ Spec.usableIndices reconnect pool.m_conns)) ∧
      (broadcastCommand reconnect cmd pool).m_conns.length = pool.m_conns.length ∧
      (broadcastCommand reconnect cmd pool).m_activeConns =
        pool.m_activeConns ++ Spec.usableIndices reconnect pool.m_conns ∧
      (Spec.usableIndices reconnect pool.m_conns).Pairwise (· < ·) ∧
      (Spec.usableIndices reconnect pool.m_conns).Nodup ∧
      (broadcastCommand reconnect cmd pool).m_nActiveConn =
        pool.m_nActiveConn + ((Spec.usableIndices reconnect pool.m_conns).length : Int) := by
  have hmem : ∀ j conn0, pool.m_conns[j]? = some conn0 →
      (j ∈ Spec.usableIndices reconnect pool.m_conns ↔ Spec.usable reconnect j conn0 = true) := by
    intro j conn0 hj
    unfold Spec.usableIndices
    simp only [List.mem_map, List.mem_filter, Prod.exists, exists_and_right, exists_eq_right,
      List.mk_mem_enum_iff_getElem?]
    constructor
    · rintro ⟨c, hc, hu⟩
      rw [hj] at hc
      cases hc
      exact hu
    · intro hu
      exact ⟨conn0, hj, hu⟩
  refine ⟨?_, ?_, (broadcastCommand_active reconnect cmd pool).1, ?_, ?_,
    (broadcastCommand_active reconnect cmd pool).2⟩
  · intro j conn0 hj
    refine ⟨(broadcastUnit (reconnect j) cmd conn0).1, ?_, ?_, ?_⟩
    · unfold broadcastCommand
      simp only [broadcastLoop_getElem?, hj, Option.map_some', Nat.zero_add]
    · intro hu
      obtain ⟨h1, h2, h3, -, h5⟩ := broadcastUnit_usable (reconnect j) cmd conn0 hu
      exact ⟨h1, h2, h3, h5, (hmem j conn0 hj).2 hu⟩
    · intro hu
      refine ⟨broadcastUnit_unusable (reconnect j) cmd conn0 hu, ?_⟩
      intro hin
      rw [(hmem j conn0 hj).1 hin] at hu
      cases hu
  · have h : ∀ (idx : Nat) (conns : List Connection) (n : Int) (a : List Nat),
        (broadcastLoop reconnect cmd idx conns n a).1.length = conns.length := by
      intro idx conns
      induction conns generalizing idx with
      | nil => intro n a; simp [broadcastLoop]
      | cons c rest ih => intro n a; simp [broadcastLoop, ih]
    exact h 0 pool.m_conns _ _
  · exact pairwise_enumFrom_filter _ 0 pool.m_conns
  · exact nodup_enumFrom_filter _ 0 pool.m_conns

/-- A broadcast on a pool whose middle connection is dead and cannot be
brought back: connections 0 and 2 become active, connection 1 is untouched. -/
theorem sample_broadcast_skips_dead :
    (broadcastCommand (fun _ => none) (ascii "version") Sample.pool3).m_activeConns = [0, 2] ∧
      (broadcastCommand (fun _ => none) (ascii "version") Sample.pool3).m_nActiveConn = 2 ∧
      (broadcastCommand (fun _ => none) (ascii "version") Sample.pool3).m_conns.map
          (fun conn => (conn.m_sendBuf, conn.m_counter, conn.m_parserMode)) =
        [(ascii "version\r\n", 1, some .MODE_END_STATE), ([], 0, none),
         (ascii "version\r\n", 1, some .MODE_END_STATE)] ∧
      (broadcastCommand (fun idx => if idx = 1 then some 9 else none) (ascii "version")
          Sample.pool3).m_activeConns = [0, 1, 2] := by
  decide

/-! ## init -/

theorem initLoop_length (connInit : Bytes → Nat → Connection × Int) (hosts : List Bytes)
    (ports : List Nat) (i k : Nat) :
    (initLoop connInit hosts ports i k).1.length = k := by
  induction k generalizing i with
  | zero => simp [initLoop]
  | succ k ih => simp [initLoop, ih]

theorem initLoop_getElem? (connInit : Bytes → Nat → Connection × Int) (hosts : List Bytes)
    (ports : List Nat) (i k j : Nat) (hj : j < k) :
    (initLoop connInit hosts ports i k).1[j]? =
      some (connInit (hosts.getD (i + j) []) (ports.getD (i + j) 0)).1 := by
  induction k generalizing i j with
  | zero => omega
  | succ k ih =>
    cases j with
    | zero => simp [initLoop]
    | succ j =>
      simp only [initLoop, List.getElem?_cons_succ]
      rw [ih (i + 1) j (by omega)]
      have : i + 1 + j = i + (j + 1) := by omega
      rw [this]

/-- C22 (counterexample): `init` with weights `[1, 1]` and with weights `[1, 100]`
leaves the same pool, hands the same servers to the selector and returns the
same value. -/
theorem C22_init_same_for_other_weights :
    init Sample.connInit [ascii "a", ascii "b"] [11211, 11212] 2 [1, 1] Sample.pool =
      init Sample.connInit [ascii "a", ascii "b"] [11211, 11212] 2 [1, 100] Sample.pool := by
  decide

/-- C22 (amended): the weights passed to `init` take no part in what it builds.
Connection `i` is made from `hosts[i]` and `ports[i]` alone, the selector is
handed exactly the `n` connections of the pool, and the pool, the servers of
the selector and the return value are the same for every weights argument. -/
theorem C22_init_independent_of_weights (connInit : Bytes → Nat → Connection × Int)
    (hosts : List Bytes) (ports : List Nat) (n : Nat) (weights weights2 : List Nat)
    (pool : ConnectionPool) :
    init connInit hosts ports n weights pool = init connInit hosts ports n weights2 pool ∧
      (init connInit hosts ports n weights pool).selectorServers =
        (init connInit hosts ports n weights pool).pool.m_conns ∧
      (init connInit hosts ports n weights pool).pool.m_conns.length = n ∧
      ∀ i, i < n →
        (init connInit hosts ports n weights pool).pool.m_conns[i]? =
          some (connInit (hosts.getD i []) (ports.getD i 0)).1 := by
  refine ⟨rfl, rfl, initLoop_length connInit hosts ports 0 n, ?_⟩
  intro i hi
  have h := initLoop_getElem? connInit hosts ports 0 n i hi
  simpa [init] using h

/-! ## The active counter during a wait -/

/-- C23 (the code at the failing input): a `get` on two connections.  Both sends
drain in the first round and the reply of connection 0 is parsed in the
second, which takes the active counter from 2 to 1 and leaves descriptor 0
asking for nothing.  In the third round descriptor 0 reports `POLLHUP`: the
satisfied connection is marked dead and the counter is decremented a second
time for it, down to 0; the reply of connection 1 is parsed in the same round
and the counter ends at -1, so the loop does not return. -/
theorem C23_counter_decremented_twice :
    Sample.activePool.m_activeConns = [0, 1] ∧ Sample.activePool.m_nActiveConn = 2 ∧
      ((waitPoll 1000 (Sample.doubleCountScript.take 2) Sample.activePool).stateOf.map
          (fun st => (st.pool.m_nActiveConn, st.pollfds.map pollfd_t.events))) =
        some (1, [0, POLLIN]) ∧
      ((waitPoll 1000 Sample.doubleCountScript Sample.activePool).stateOf.map
          (fun st => st.log)) =
        some [IOCall.poll 2, IOCall.send 0 0, IOCall.send 1 0, IOCall.poll 1,
              IOCall.recv 0 5, IOCall.process 0 .RET_OK, IOCall.poll 2,
              IOCall.markDead 0 1000, IOCall.recv 1 5, IOCall.process 1 .RET_OK] ∧
      ((waitPoll 1000 Sample.doubleCountScript Sample.activePool).stateOf.map
          (fun st => st.pool.m_nActiveConn)) = some (-1) ∧
      (waitPoll 1000 Sample.doubleCountScript Sample.activePool).retOf = none := by
  decide

/-- A timeout after the reply of connection 0 was parsed with `RET_OK`:
`markDeadAll` marks only connection 1, which is still awaited. -/
theorem sample_timeout_spares_parsed :
    ((waitPoll 1000 [Sample.bothSentRound, Sample.firstParsedRound, Sample.timeoutRound]
          Sample.activePool).stateOf.map
        (fun st => (st.ret_code, st.pool.m_conns.map Connection.m_alive))) =
      some (.RET_POLL_TIMEOUT_ERR, [true, false]) := by
  decide

/-- C25 (the code at the failing input): `delete k ab` with noreply on two
connections, both counters 0.  In the first round the send on descriptor 0
drains, which satisfies connection 0 and takes the active counter from 2 to
1, but descriptor 0 keeps asking for `POLLIN`; 3 bytes stay queued on
descriptor 1.  The next poll times out and `markDeadAll` marks connection 0
dead together with connection 1. -/
theorem C25_satisfied_noreply_marked_dead :
    Sample.noreplyPool2.m_activeConns = [0, 1] ∧
      Sample.noreplyPool2.m_conns.map (fun conn => (conn.m_counter, conn.m_alive)) =
        [(0, true), (0, true)] ∧
      ((waitPoll 1000 (Sample.drainThenTimeout.take 1) Sample.noreplyPool2).stateOf.map
          (fun st => (st.log, st.pool.m_nActiveConn, st.pollfds.map pollfd_t.events,
            st.pool.m_conns.map Connection.m_alive))) =
        some ([IOCall.poll 2, IOCall.send 0 0, IOCall.send 1 3], 1,
              [POLLIN, POLLOUT ||| POLLIN], [true, true]) ∧
      (waitPoll 1000 Sample.drainThenTimeout Sample.noreplyPool2).retOf =
        some .RET_POLL_TIMEOUT_ERR ∧
      ((waitPoll 1000 Sample.drainThenTimeout Sample.noreplyPool2).stateOf.map
          (fun st => st.log)) =
        some [IOCall.poll 2, IOCall.send 0 0, IOCall.send 1 3, IOCall.poll 0,
              IOCall.markDead 0 0, IOCall.markDead 1 0] ∧
      ((waitPoll 1000 Sample.drainThenTimeout Sample.noreplyPool2).stateOf.map
          (fun st => st.pool.m_conns.map Connection.m_alive)) = some [false, false] := by
  decide

/-! ## The active list and the descriptor arrays -/

theorem waitLoop_ne_outOfBounds (retry : Int) (n_fds : Nat) (script : List PollScript)
    (st : WaitState) : waitLoop retry n_fds script st ≠ .outOfBounds := by
  induction script generalizing st with
  | nil =>
    rw [waitLoop]
    split <;> simp
  | cons round rest ih =>
    rw [waitLoop]
    dsimp only
    split
    · simp
    · split
      · simp
      · split
        · simp
        · exact ih _

/-- Entered with the count equal to the length of the active list, `waitPoll`
stays inside its descriptor arrays. -/
theorem waitPoll_ne_outOfBounds (retry : Int) (script : List PollScript)
    (pool : ConnectionPool)
    (h : pool.m_nActiveConn = (pool.m_activeConns.length : Int)) :
    waitPoll retry script pool ≠ .outOfBounds := by
  unfold waitPoll
  split
  · split <;> simp
  · rw [if_neg (not_not.2 h)]
    exact waitLoop_ne_outOfBounds retry _ script _

theorem activeWellFormed_of (pool : ConnectionPool)
    (h : pool.m_nActiveConn = (pool.m_activeConns.length : Int))
    (hd : pool.m_activeConns.Nodup) : Spec.ActiveWellFormed pool :=
  ⟨h, hd, fun retry script => waitPoll_ne_outOfBounds retry script pool h⟩

theorem activeWellFormed_activateCounting (pool : ConnectionPool)
    (h0 : pool.m_nActiveConn = 0) (ha : pool.m_activeConns = []) :
    Spec.ActiveWellFormed (activateCounting pool) := by
  obtain ⟨-, h2, h3, -⟩ := activateCounting_fields pool
  apply activeWellFormed_of
  · rw [h3, h2, h0, ha]
    simp
  · rw [h2, ha]
    simpa using nodup_positiveFrom 0 pool.m_conns

theorem activeWellFormed_counting {α : Type} (sel : Selector) (keyOf : α → Bytes)
    (unit : α → Connection → Connection) (items : List α) (pool : ConnectionPool)
    (h0 : pool.m_nActiveConn = 0) (ha : pool.m_activeConns = []) :
    Spec.ActiveWellFormed (activateCounting (dispatchLoop sel keyOf unit items pool)) := by
  obtain ⟨f1, f2, -⟩ := dispatchLoop_frame sel keyOf unit items pool
  exact activeWellFormed_activateCounting _ (f1.trans h0) (f2.trans ha)

theorem activeWellFormed_retrieval (sel : Selector) (op : op_code_t) (keys : List Bytes)
    (pool : ConnectionPool) (h0 : pool.m_nActiveConn = 0) (ha : pool.m_activeConns = []) :
    Spec.ActiveWellFormed (dispatchRetrieval sel op keys pool) := by
  obtain ⟨-, h2, h3, -⟩ := dispatchRetrieval_fields sel op keys pool
  apply activeWellFormed_of
  · rw [h3, h2, h0, ha]
    simp
  · rw [h2, ha]
    simpa using nodup_positiveFrom 0 _

theorem activeWellFormed_incrDecr (sel : Selector) (op : op_code_t) (key : Bytes)
    (delta : Nat) (noreply : Bool) (pool : ConnectionPool) (h0 : pool.m_nActiveConn = 0)
    (ha : pool.m_activeConns = []) :
    Spec.ActiveWellFormed (dispatchIncrDecr sel op key delta noreply pool) := by
  cases hv : isValidKey key with
  | false =>
    rw [dispatchIncrDecr_invalid sel op key delta noreply pool hv]
    apply activeWellFormed_of
    · simp [h0, ha]
    · simp [ha]
  | true =>
    cases hs : sel key with
    | none =>
      rw [dispatchIncrDecr_unrouted sel op key delta noreply pool hv hs]
      apply activeWellFormed_of
      · simp [h0, ha]
      · simp [ha]
    | some idx =>
      rw [dispatchIncrDecr_routed sel op key delta noreply pool idx hv hs]
      apply activeWellFormed_of
      · simp [h0, ha]
      · simp [ha]

theorem activeWellFormed_broadcast (reconnect : Nat → Option Int) (cmd : Bytes)
    (pool : ConnectionPool) (h0 : pool.m_nActiveConn = 0) (ha : pool.m_activeConns = []) :
    Spec.ActiveWellFormed (broadcastCommand reconnect cmd pool) := by
  obtain ⟨h2, h3⟩ := broadcastCommand_active reconnect cmd pool
  apply activeWellFormed_of
  · rw [h3, h2, h0, ha]
    simp
  · rw [h2, ha]
    simpa using nodup_enumFrom_filter (fun p => Spec.usable reconnect p.1 p.2) 0 pool.m_conns

/-- C24: after a single dispatch operation (storage, retrieval, deletion, touch,
incr/decr or broadcast) on a reset pool, the active count equals the length of
the active list, the list has no duplicates, and `waitPoll`, which sizes its
descriptor arrays by the count and fills and reads them by list position,
never leaves them, whatever the polls answer. -/
theorem C24_active_list_well_formed (sel : Selector) (sop rop iop : op_code_t)
    (items : List StorageItem) (keys : List Bytes) (key : Bytes) (exptime : Int)
    (delta : Nat) (noreply : Bool) (reconnect : Nat → Option Int) (cmd : Bytes)
    (pool : ConnectionPool) (hreset : pool.isReset = true) :
    Spec.ActiveWellFormed (dispatchStorage sel sop items exptime noreply pool) ∧
      Spec.ActiveWellFormed (dispatchRetrieval sel rop keys pool) ∧
      Spec.ActiveWellFormed (dispatchDeletion sel keys noreply pool) ∧
      Spec.ActiveWellFormed (dispatchTouch sel keys exptime noreply pool) ∧
      Spec.ActiveWellFormed (dispatchIncrDecr sel iop key delta noreply pool) ∧
      Spec.ActiveWellFormed (broadcastCommand reconnect cmd pool) := by
  obtain ⟨h0, -, ha, -⟩ := (isReset_iff pool).1 hreset
  exact ⟨activeWellFormed_counting sel _ _ items pool h0 ha,
    activeWellFormed_retrieval sel rop keys pool h0 ha,
    activeWellFormed_counting sel _ _ keys pool h0 ha,
    activeWellFormed_counting sel _ _ keys pool h0 ha,
    activeWellFormed_incrDecr sel iop key delta noreply pool h0 ha,
    activeWellFormed_broadcast reconnect cmd pool h0 ha⟩

/-- C24 (witness): the six dispatch operations on the sample pool. -/
theorem C24_active_list_well_formed_witness :
    Spec.ActiveWellFormed (dispatchStorage Sample.sel .SET_OP Sample.items 0 false Sample.pool) ∧
      Spec.ActiveWellFormed (dispatchRetrieval Sample.sel .GET_OP Sample.keys Sample.pool) ∧
      Spec.ActiveWellFormed (dispatchDeletion Sample.sel Sample.keys false Sample.pool) ∧
      Spec.ActiveWellFormed (dispatchTouch Sample.sel Sample.keys 0 false Sample.pool) ∧
      Spec.ActiveWellFormed
        (dispatchIncrDecr Sample.sel .INCR_OP (ascii "foo") 1 false Sample.pool) ∧
      Spec.ActiveWellFormed
        (broadcastCommand (fun _ => none) (ascii "version") Sample.pool) :=
  C24_active_list_well_formed Sample.sel .SET_OP .GET_OP .INCR_OP Sample.items Sample.keys
    (ascii "foo") 0 1 false (fun _ => none) (ascii "version") Sample.pool (by decide)

/-- On a pool that was not reset the active list need not be free of duplicates:
a second `get` dispatched on top of the first yields `[0, 1, 0, 1]`. -/
theorem sample_second_dispatch_duplicates :
    (dispatchRetrieval Sample.sel .GET_OP Sample.keys Sample.activePool).m_activeConns =
      [0, 1, 0, 1] := by
  decide

end Libmc
